import Mathlib

/-!
Ghost mode (`src/graphics/ghost_mode.cpp`)

A shallow embedding of the ghost coordinator: the file-level statics of
`ghost_mode.cpp` together with the engine globals it reads and writes are
gathered in one record, `GhostState`, and every function of the file becomes
a function on that record.

Conventions of the embedding:

* C `int` is `Int` (signed overflow is undefined in C++, the counters of the
  module stay far below the 32-bit range).
* Arrays (`Player[]`, `s_isGhost[]`, ...) are total maps `Int → α`; every
  access in the source is guarded by `1 ≤ id ≤ numPlayers`.
* `for(int i = 1; i <= numPlayers; ++i)` walks `playerIds numPlayers`, the
  list `1, 2, ..., numPlayers` (the module never writes `numPlayers`).
* `PlaySound` / `NewEffect` append to an event log kept in the state.
-/

namespace GhostMode

/-! ## Engine types (declared outside this file) -/

/-- Modelled from the spec: the engine number type `num_t` (its declaration is
not part of `ghost_mode.cpp`).  It is embedded as exact rational arithmetic. -/
abbrev num_t := ℚ

/-- The C cast `(int)x` of a `num_t`: truncation toward zero. -/
def numToInt (x : num_t) : Int := Int.tdiv x.num (x.den : Int)

/-- Modelled from the spec: "position/size/velocity" of an entity, the fields
of the engine's `Location_t` that the module touches. -/
structure Location_t where
  X : num_t
  Y : num_t
  Width : num_t
  Height : num_t
  SpeedX : num_t
  SpeedY : num_t
deriving DecidableEq

/-- Modelled from the spec: "input-button states", the four buttons of the
chord. -/
structure Controls_t where
  Run : Bool
  AltRun : Bool
  Jump : Bool
  AltJump : Bool
deriving DecidableEq

/-- Modelled from the spec: the engine's player effect enumeration; only
`PLREFF_NORMAL` and `PLREFF_NO_COLLIDE` are named by the module. -/
inductive PlayerEffect where
  | PLREFF_NORMAL
  | PLREFF_NO_COLLIDE
  | PLREFF_OTHER (code : Nat)
deriving DecidableEq

/-- Modelled from the spec: the fields of the engine's `Player_t` used by the
module (alive flag, fairy flag and timer, invulnerability timer, location,
collision status, slope and stand-up flags, buttons, section). -/
structure Player_t where
  Dead : Bool
  Fairy : Bool
  FairyTime : Int
  Immune : Int
  Location : Location_t
  Effect : PlayerEffect
  Slope : Int
  StandUp : Bool
  Controls : Controls_t
  Section : Int
deriving DecidableEq

/-- Modelled from the spec: "per-player camera viewport rectangle and
visibility flag" (`vScreen_t`); the rectangle is read into `int`s. -/
structure vScreen_t where
  Left : Int
  Top : Int
  Width : Int
  Height : Int
  Visible : Bool
deriving DecidableEq

/-- Side effects of the module that leave the state: sounds and particle
effects. -/
inductive GhostEvent where
  | PlaySound_HeroFairy
  | PlaySound_Transform
  | NewEffect_SMOKE_S3_CENTER (loc : Location_t)
deriving DecidableEq

/-! ## Tunables -/

def FAST_STEP_MULT : Int := 12
def kOOBPadX : Int := 6
def kOOBPadY : Int := 6
def kOOBFrames : Int := 16
def kReviveIFrames : Int := 30
def kGhostSpawnIFrm : Int := 50
def kReviveGraceFrames : Int := 20
def kGhostMinFrames : Int := 30
def kRevivePopUpPx : Int := 8
def kReviveHopVy : Int := 3
def kPostReviveNoSnapFrames : Int := 2
def kAllGhostAutoReviveFrames : Int := 180
def kSelfGhostCooldownFrames : Int := 120

/-! ## State -/

/-- The statics of `ghost_mode.cpp` and the engine globals it uses. -/
structure GhostState where
  numPlayers : Int
  Player : Int → Player_t
  /-- Result of `vScreenByPlayer(id)`. -/
  vScreenByPlayer : Int → vScreen_t
  s_prevLeft : Int → Int
  s_prevTop : Int → Int
  s_isGhost : Int → Bool
  s_oobFrames : Int → Int
  s_reviveGrace : Int → Int
  s_ghostMinFrames : Int → Int
  s_prevFairy : Int → Bool
  s_prevFairyTime : Int → Int
  s_postReviveNoSnap : Int → Int
  s_allGhostFrames : Int
  s_selfGhostCooldown : Int → Int
  s_prevChordHeld : Int → Bool
  /-- Sounds and effects emitted so far, oldest first. -/
  events : List GhostEvent

/-- Array store `a[i] = v`. -/
def upd {α : Type} (a : Int → α) (i : Int) (v : α) : Int → α :=
  fun j => if j = i then v else a j

/-- The indices `i, i+1, ..., i+k-1`. -/
def idsFrom (i : Int) : Nat → List Int
  | 0 => []
  | k + 1 => i :: idsFrom (i + 1) k

/-- The indices visited by `for(int i = 1; i <= n; ++i)`. -/
def playerIds (n : Int) : List Int := idsFrom 1 n.toNat

/-- A `for` loop over the players whose body updates the state. -/
def forPlayers (body : GhostState → Int → GhostState) (s : GhostState) : GhostState :=
  (playerIds s.numPlayers).foldl body s

/-- A counting loop `for(...) if(p(i)) ++c;`. -/
def countLoop (p : Int → Bool) (ids : List Int) : Int :=
  ids.foldl (fun c i => if p i then c + 1 else c) 0

/-- The all-zero state of the statics at program start, for a given engine
state. -/
def initState (n : Int) (players : Int → Player_t) (vs : Int → vScreen_t) : GhostState where
  numPlayers := n
  Player := players
  vScreenByPlayer := vs
  s_prevLeft := fun _ => 0
  s_prevTop := fun _ => 0
  s_isGhost := fun _ => false
  s_oobFrames := fun _ => 0
  s_reviveGrace := fun _ => 0
  s_ghostMinFrames := fun _ => 0
  s_prevFairy := fun _ => false
  s_prevFairyTime := fun _ => 0
  s_postReviveNoSnap := fun _ => 0
  s_allGhostFrames := 0
  s_selfGhostCooldown := fun _ => 0
  s_prevChordHeld := fun _ => false
  events := []

/-! ## The functions of `ghost_mode.cpp` -/

def Ghost_FeatureEnabled (s : GhostState) : Bool :=
  decide (s.numPlayers ≠ 2)

def aabbOverlap (a b : Location_t) : Bool :=
  !(decide (a.X + a.Width < b.X) || decide (b.X + b.Width < a.X) ||
    decide (a.Y + a.Height < b.Y) || decide (b.Y + b.Height < a.Y))

def Ghost_IsGhost (s : GhostState) (id : Int) : Bool :=
  if id < 1 ∨ id > s.numPlayers then false
  else s.s_isGhost id

def Ghost_MakeGhost (s : GhostState) (id : Int) : GhostState :=
  if id < 1 ∨ id > s.numPlayers then s
  else if s.s_isGhost id = true then s
  else if (s.Player id).Dead = true then s
  else
    let p := s.Player id
    let p1 : Player_t :=
      { p with
        Fairy := true
        FairyTime := -1
        Immune := if p.Immune < kGhostSpawnIFrm then kGhostSpawnIFrm else p.Immune
        Location := { p.Location with SpeedX := 0, SpeedY := 0 }
        Effect := PlayerEffect.PLREFF_NO_COLLIDE }
    { s with
      s_isGhost := upd s.s_isGhost id true
      s_prevFairy := upd s.s_prevFairy id p.Fairy
      s_prevFairyTime := upd s.s_prevFairyTime id p.FairyTime
      s_ghostMinFrames := upd s.s_ghostMinFrames id kGhostMinFrames
      Player := upd s.Player id p1
      events := s.events ++
        [GhostEvent.PlaySound_HeroFairy, GhostEvent.NewEffect_SMOKE_S3_CENTER p1.Location] }

def Ghost_ReviveFromGhost (s : GhostState) (id : Int) (toucher : Int) : GhostState :=
  if id < 1 ∨ id > s.numPlayers then s
  else if s.s_isGhost id = false then s
  else
    let p := s.Player id
    let loc1 : Location_t :=
      if toucher > 0 ∧ toucher ≤ s.numPlayers then
        let t := s.Player toucher
        let tMidX := t.Location.X + t.Location.Width / 2
        let newX := tMidX - p.Location.Width / 2
        let newY := t.Location.Y - p.Location.Height - (kRevivePopUpPx : num_t)
        { p.Location with X := newX, Y := newY }
      else
        { p.Location with Y := p.Location.Y - (kRevivePopUpPx : num_t) }
    let p1 : Player_t :=
      { p with
        Location := { loc1 with SpeedY := -(kReviveHopVy : num_t), SpeedX := 0 }
        Slope := 0
        StandUp := true
        Fairy := s.s_prevFairy id
        FairyTime := s.s_prevFairyTime id
        Effect := PlayerEffect.PLREFF_NORMAL
        Immune := if p.Immune < kReviveIFrames then kReviveIFrames else p.Immune }
    { s with
      s_postReviveNoSnap := upd s.s_postReviveNoSnap id kPostReviveNoSnapFrames
      s_isGhost := upd s.s_isGhost id false
      Player := upd s.Player id p1
      s_reviveGrace := upd s.s_reviveGrace id kReviveGraceFrames
      events := s.events ++ [GhostEvent.PlaySound_Transform]
      s_selfGhostCooldown := upd s.s_selfGhostCooldown id kSelfGhostCooldownFrames }

def Ghost_KeepStateAlive (s : GhostState) (id : Int) : GhostState :=
  if id < 1 ∨ id > s.numPlayers then s
  else if s.s_isGhost id = false then s
  else
    let p := s.Player id
    let p1 : Player_t :=
      { p with
        Effect := PlayerEffect.PLREFF_NO_COLLIDE
        Fairy := true
        FairyTime := -1
        Immune := if p.Immune < Int.tdiv kGhostSpawnIFrm 2 then Int.tdiv kGhostSpawnIFrm 2
                  else p.Immune
        Location := { p.Location with SpeedX := 0, SpeedY := 0 } }
    { s with
      Player := upd s.Player id p1
      s_ghostMinFrames :=
        if s.s_ghostMinFrames id > 0 then upd s.s_ghostMinFrames id (s.s_ghostMinFrames id - 1)
        else s.s_ghostMinFrames }

/-- Body of the revive loop of `Ghost_AutoReviveAll_Tick`. -/
def autoReviveBody (s : GhostState) (i : Int) : GhostState :=
  if Ghost_IsGhost s i = true then Ghost_ReviveFromGhost s i 0 else s

def Ghost_AutoReviveAll_Tick (s : GhostState) : GhostState :=
  if s.numPlayers ≤ 0 then { s with s_allGhostFrames := 0 }
  else
    let ghosts := countLoop (Ghost_IsGhost s) (playerIds s.numPlayers)
    if ghosts > 0 ∧ ghosts = s.numPlayers then
      let s1 := { s with s_allGhostFrames := s.s_allGhostFrames + 1 }
      if s1.s_allGhostFrames ≥ kAllGhostAutoReviveFrames then
        { forPlayers autoReviveBody s1 with s_allGhostFrames := 0 }
      else s1
    else { s with s_allGhostFrames := 0 }

/-! ### `Ghost_CheckOutOfBounds` -/

/-- Body of the post-revive "no snap" loop. -/
def noSnapBody (s : GhostState) (i : Int) : GhostState :=
  if s.s_postReviveNoSnap i > 0 then
    { s with
      Player := upd s.Player i { s.Player i with Slope := 0 }
      s_postReviveNoSnap := upd s.s_postReviveNoSnap i (s.s_postReviveNoSnap i - 1) }
  else s

/-- The integer centre `cx = px + pw / 2` of player `id`. -/
def oobCx (s : GhostState) (id : Int) : Int :=
  numToInt (s.Player id).Location.X + Int.tdiv (numToInt (s.Player id).Location.Width) 2

/-- The integer centre `cy = py + ph / 2` of player `id`. -/
def oobCy (s : GhostState) (id : Int) : Int :=
  numToInt (s.Player id).Location.Y + Int.tdiv (numToInt (s.Player id).Location.Height) 2

def oobL (s : GhostState) (id : Int) : Int := (s.vScreenByPlayer id).Left - kOOBPadX
def oobR (s : GhostState) (id : Int) : Int :=
  (s.vScreenByPlayer id).Left + (s.vScreenByPlayer id).Width + kOOBPadX
def oobT (s : GhostState) (id : Int) : Int := (s.vScreenByPlayer id).Top - kOOBPadY
def oobB (s : GhostState) (id : Int) : Int :=
  (s.vScreenByPlayer id).Top + (s.vScreenByPlayer id).Height + kOOBPadY

/-- The local `inside`: the centre lies in the padded viewport. -/
def oobInside (s : GhostState) (id : Int) : Bool :=
  decide (oobCx s id ≥ oobL s id) && decide (oobCx s id ≤ oobR s id) &&
  decide (oobCy s id ≥ oobT s id) && decide (oobCy s id ≤ oobB s id)

/-- The local `step`: `FAST_STEP_MULT` when the camera moves and the player
trails it, else 1. -/
def oobStep (s : GhostState) (id : Int) : Int :=
  let dxCam := (s.vScreenByPlayer id).Left - s.s_prevLeft id
  let dyCam := (s.vScreenByPlayer id).Top - s.s_prevTop id
  let movingRight := decide (dxCam > 0)
  let movingLeft := decide (dxCam < 0)
  let movingDown := decide (dyCam > 0)
  let movingUp := decide (dyCam < 0)
  let trailing :=
    (movingRight && decide (oobCx s id < oobL s id)) ||
    (movingLeft && decide (oobCx s id > oobR s id)) ||
    (movingDown && decide (oobCy s id < oobT s id)) ||
    (movingUp && decide (oobCy s id > oobB s id))
  if ((movingRight || movingLeft || movingUp || movingDown) && trailing) = true then
    FAST_STEP_MULT
  else 1

/-- Body of the main loop of `Ghost_CheckOutOfBounds`. -/
def oobBody (s : GhostState) (id : Int) : GhostState :=
  if s.s_reviveGrace id > 0 then
    { s with
      s_reviveGrace := upd s.s_reviveGrace id (s.s_reviveGrace id - 1)
      s_oobFrames := upd s.s_oobFrames id 0 }
  else if (s.Player id).Dead = true then { s with s_oobFrames := upd s.s_oobFrames id 0 }
  else if s.s_isGhost id = true then { s with s_oobFrames := upd s.s_oobFrames id 0 }
  else if (s.vScreenByPlayer id).Visible = false then
    { s with s_oobFrames := upd s.s_oobFrames id 0 }
  else
    let s1 : GhostState :=
      if oobInside s id = true then { s with s_oobFrames := upd s.s_oobFrames id 0 }
      else
        let s2 : GhostState :=
          { s with s_oobFrames := upd s.s_oobFrames id (s.s_oobFrames id + oobStep s id) }
        if s2.s_oobFrames id ≥ kOOBFrames then
          let s3 := Ghost_MakeGhost s2 id
          { s3 with s_oobFrames := upd s3.s_oobFrames id 0 }
        else s2
    { s1 with
      s_prevLeft := upd s1.s_prevLeft id (s1.vScreenByPlayer id).Left
      s_prevTop := upd s1.s_prevTop id (s1.vScreenByPlayer id).Top }

def Ghost_CheckOutOfBounds (s : GhostState) : GhostState :=
  if Ghost_FeatureEnabled s = false then s
  else forPlayers oobBody (Ghost_AutoReviveAll_Tick (forPlayers noSnapBody s))

/-! ### Self-ghost chord -/

def isChordHeld (s : GhostState) (id : Int) : Bool :=
  if id < 1 ∨ id > s.numPlayers then false
  else
    (s.Player id).Controls.Run && (s.Player id).Controls.AltRun &&
    (s.Player id).Controls.Jump && (s.Player id).Controls.AltJump

/-- Body of the cooldown loop of `Ghost_SelfGhostByButtons`. -/
def cooldownBody (s : GhostState) (i : Int) : GhostState :=
  if s.s_selfGhostCooldown i > 0 then
    { s with s_selfGhostCooldown := upd s.s_selfGhostCooldown i (s.s_selfGhostCooldown i - 1) }
  else s

/-- The test `!Player[i].Dead && !s_isGhost[i]` of the counting loops. -/
def aliveNotGhost (s : GhostState) (i : Int) : Bool :=
  !(s.Player i).Dead && !s.s_isGhost i

/-- Body of the chord loop of `Ghost_SelfGhostByButtons`; `alive_not_ghost`
is the count taken before the loop. -/
def selfGhostBody (alive_not_ghost : Int) (s : GhostState) (id : Int) : GhostState :=
  if (s.Player id).Dead = true then { s with s_prevChordHeld := upd s.s_prevChordHeld id false }
  else if s.s_isGhost id = true then { s with s_prevChordHeld := upd s.s_prevChordHeld id false }
  else
    let held := isChordHeld s id
    if s.s_selfGhostCooldown id > 0 then
      { s with s_prevChordHeld := upd s.s_prevChordHeld id held }
    else
      let s1 : GhostState :=
        if held = true ∧ s.s_prevChordHeld id = false then
          let is_last_standing := decide (alive_not_ghost ≤ 1)
          if is_last_standing = false then Ghost_MakeGhost s id else s
        else s
      { s1 with s_prevChordHeld := upd s1.s_prevChordHeld id held }

/-- The per-player chord trigger `Ghost_TrySelfGhostByButtons` (defined in the
file, not declared in the header).  Its first test reads
`s_selfGhostCooldown[id]` before the range check. -/
def Ghost_TrySelfGhostByButtons (s : GhostState) (id : Int) : Bool × GhostState :=
  if s.s_selfGhostCooldown id > 0 then (false, s)
  else if id < 1 ∨ id > s.numPlayers then (false, s)
  else if s.s_selfGhostCooldown id > 0 then (false, s)
  else
    let living :=
      countLoop (fun i => !(s.Player i).Dead && !Ghost_IsGhost s i) (playerIds s.numPlayers)
    if living ≤ 1 then (false, s)
    else
      let held := isChordHeld s id
      let fired := held && !s.s_prevChordHeld id
      let s1 : GhostState := if fired = true then Ghost_MakeGhost s id else s
      (fired, { s1 with s_prevChordHeld := upd s1.s_prevChordHeld id held })

def Ghost_SelfGhostByButtons (s : GhostState) : GhostState :=
  if Ghost_FeatureEnabled s = false then s
  else
    let s1 := forPlayers cooldownBody s
    let alive_not_ghost := countLoop (aliveNotGhost s1) (playerIds s1.numPlayers)
    forPlayers (selfGhostBody alive_not_ghost) s1

def Ghost_TrySelfGhost (s : GhostState) (id : Int) : Bool × GhostState :=
  if Ghost_FeatureEnabled s = false then (false, s)
  else if id < 1 ∨ id > s.numPlayers then (false, s)
  else if (s.Player id).Dead = true then (false, s)
  else if Ghost_IsGhost s id = true then
    if s.s_ghostMinFrames id > 0 then (false, s)
    else (true, Ghost_ReviveFromGhost s id 0)
  else
    let alive_not_ghost :=
      countLoop (fun i => !(s.Player i).Dead && !Ghost_IsGhost s i) (playerIds s.numPlayers)
    if alive_not_ghost ≤ 1 then (false, s)
    else (true, Ghost_MakeGhost s id)

/-! ### `Ghost_TouchRevive` -/

/-- The L1 distance between the centres of players `self` and `i`, as the
lambda `findNearestAlive` computes it. -/
def centreDist (s : GhostState) (self i : Int) : num_t :=
  let me := (s.Player self).Location
  let mcx := me.X + me.Width / 2
  let mcy := me.Y + me.Height / 2
  let o := (s.Player i).Location
  let ocx := o.X + o.Width / 2
  let ocy := o.Y + o.Height / 2
  let dx := ocx - mcx
  let dy := ocy - mcy
  |dx| + |dy|

/-- One iteration of the search loop of `findNearestAlive` on the pair
`(best, bestD)`. -/
def nearestStep (s : GhostState) (self : Int) (acc : Int × num_t) (i : Int) : Int × num_t :=
  if i = self then acc
  else if (s.Player i).Dead = true then acc
  else if Ghost_IsGhost s i = true then acc
  else
    let d := centreDist s self i
    if acc.1 = 0 ∨ d < acc.2 then (i, d) else acc

/-- The lambda `findNearestAlive` of `Ghost_TouchRevive`. -/
def findNearestAlive (s : GhostState) (self : Int) : Int :=
  ((playerIds s.numPlayers).foldl (nearestStep s self) (0, 0)).1

/-- The block of `Ghost_TouchRevive` that glides ghost `g` toward its target. -/
def ghostSeek (s : GhostState) (g : Int) : GhostState :=
  let pg := s.Player g
  let t := findNearestAlive s g
  if t > 0 then
    let me := pg.Location
    let tgt := (s.Player t).Location
    let mcx := me.X + me.Width / 2
    let mcy := me.Y + me.Height / 2
    let tcx := tgt.X + tgt.Width / 2
    let tcy := tgt.Y + tgt.Height / 2
    let dx := tcx - mcx
    let dy := tcy - mcy
    let len := |dx| + |dy|
    if len > 0 then
      let nx := dx / len
      let ny := dy / len
      let kStep : Int := if (pg.Controls.Run || pg.Controls.AltRun) = true then 7 else 3
      { s with
        Player := upd s.Player g
          { pg with
            Location :=
              { pg.Location with
                X := pg.Location.X + (kStep : num_t) * nx
                Y := pg.Location.Y + (kStep : num_t) * ny
                SpeedX := 0
                SpeedY := 0 } } }
    else s
  else s

/-- The contact loop `for(a ...)` of `Ghost_TouchRevive`, which stops at the
first overlapping player. -/
def touchLoop (s : GhostState) (g : Int) : List Int → GhostState
  | [] => s
  | a :: rest =>
    if a = g then touchLoop s g rest
    else if s.s_isGhost a = true then touchLoop s g rest
    else if (s.Player a).Dead = true then touchLoop s g rest
    else if (s.Player a).Section ≠ (s.Player g).Section then touchLoop s g rest
    else if aabbOverlap (s.Player a).Location (s.Player g).Location = true then
      Ghost_ReviveFromGhost s g a
    else touchLoop s g rest

/-- Body of the loop over ghosts of `Ghost_TouchRevive`. -/
def touchReviveBody (s : GhostState) (g : Int) : GhostState :=
  if s.s_isGhost g = false then s
  else if (s.Player g).Dead = true then s
  else
    let s1 := Ghost_KeepStateAlive s g
    let s2 := ghostSeek s1 g
    if s2.s_ghostMinFrames g > 0 then
      { s2 with s_ghostMinFrames := upd s2.s_ghostMinFrames g (s2.s_ghostMinFrames g - 1) }
    else touchLoop s2 g (playerIds s2.numPlayers)

def Ghost_TouchRevive (s : GhostState) : GhostState :=
  if Ghost_FeatureEnabled s = false then s
  else forPlayers touchReviveBody (Ghost_AutoReviveAll_Tick s)

/-- One whole frame of the host loop, in the documented order. -/
def ghostFrame (s : GhostState) : GhostState :=
  Ghost_TouchRevive (Ghost_SelfGhostByButtons (Ghost_CheckOutOfBounds s))

/-! ## Concrete states used by the witnesses and counterexamples -/

/-- A box at the origin with no extent and no speed. -/
def loc0 : Location_t := ⟨0, 0, 0, 0, 0, 0⟩

/-- A living player at the origin holding all four chord buttons. -/
def chordPlayer : Player_t :=
  ⟨false, false, 0, 0, loc0, PlayerEffect.PLREFF_NORMAL, 0, false, ⟨true, true, true, true⟩, 0⟩

/-- A visible 800x600 viewport at the origin. -/
def vs0 : vScreen_t := ⟨0, 0, 800, 600, true⟩

/-- Three living players, all inside the viewport, all pressing the chord, the
statics at their initial value. -/
def threeChords : GhostState := initState 3 (fun _ => chordPlayer) (fun _ => vs0)

/-- The chord player, dead. -/
def deadPlayer : Player_t := { chordPlayer with Dead := true }

/-- Three players pressing the chord, player 1 dead. -/
def threeOneDead : GhostState :=
  initState 3 (fun i => if i = 1 then deadPlayer else chordPlayer) (fun _ => vs0)

/-- Two living players pressing the chord, the statics at their initial value. -/
def twoChords : GhostState := initState 2 (fun _ => chordPlayer) (fun _ => vs0)

/-- Three players pressing the chord, players 2 and 3 already ghosts: player 1
is the last living non-ghost player. -/
def lastSurvivor : GhostState := Ghost_MakeGhost (Ghost_MakeGhost threeChords 2) 3

/-- Loop invariant of the search loop of `findNearestAlive` after the indices
`pre` have been visited: `best` is 0 while no visited player passed the three
`continue` tests, and otherwise the first visited player of least distance. -/
def NearestInv (s : GhostState) (self : Int) (pre : List Int) (acc : Int × num_t) : Prop :=
  (acc.1 = 0 → ∀ i ∈ pre, i ≠ self → aliveNotGhost s i = false) ∧
  (acc.1 ≠ 0 →
    acc.1 ∈ pre ∧ acc.1 ≠ self ∧ aliveNotGhost s acc.1 = true ∧
    acc.2 = centreDist s self acc.1 ∧
    ∀ i ∈ pre, i ≠ self → aliveNotGhost s i = true →
      centreDist s self acc.1 ≤ centreDist s self i ∧
      (centreDist s self i = centreDist s self acc.1 → acc.1 ≤ i))

/-- A living player like `chordPlayer` whose box starts at `x`. -/
def playerAt (x : num_t) : Player_t :=
  { chordPlayer with Location := { loc0 with X := x } }

/-- Four players: 1 at x = 30, 2 at x = 10, 3 at x = -10, and 4 at the origin,
a ghost.  Players 2 and 3 are at the same distance from 4. -/
def tieState : GhostState :=
  Ghost_MakeGhost
    (initState 4
      (fun i => if i = 1 then playerAt 30 else if i = 2 then playerAt 10
                else if i = 3 then playerAt (-10) else chordPlayer)
      (fun _ => vs0)) 4

/-- States `a` and `b` agree outside slot `j`: same `numPlayers`, viewports and
all-ghost counter, and every per-player array agrees at each index `k ≠ j`.
(The event log is not compared.) -/
def sameExcept (j : Int) (a b : GhostState) : Prop :=
  a.numPlayers = b.numPlayers ∧ a.vScreenByPlayer = b.vScreenByPlayer ∧
  a.s_allGhostFrames = b.s_allGhostFrames ∧
  ∀ k, k ≠ j →
    a.Player k = b.Player k ∧ a.s_prevLeft k = b.s_prevLeft k ∧
    a.s_prevTop k = b.s_prevTop k ∧ a.s_isGhost k = b.s_isGhost k ∧
    a.s_oobFrames k = b.s_oobFrames k ∧ a.s_reviveGrace k = b.s_reviveGrace k ∧
    a.s_ghostMinFrames k = b.s_ghostMinFrames k ∧ a.s_prevFairy k = b.s_prevFairy k ∧
    a.s_prevFairyTime k = b.s_prevFairyTime k ∧
    a.s_postReviveNoSnap k = b.s_postReviveNoSnap k ∧
    a.s_selfGhostCooldown k = b.s_selfGhostCooldown k ∧
    a.s_prevChordHeld k = b.s_prevChordHeld k

/-- What the ghost loop of `Ghost_TouchRevive` reads to decide whether ghost
`g` stays a ghost: roster size, ghost flag, death flag, minimum-ghost
countdown. -/
def touchView (g : Int) (s : GhostState) : Int × Bool × Bool × Int :=
  (s.numPlayers, s.s_isGhost g, (s.Player g).Dead, s.s_ghostMinFrames g)

/-- Three players at the origin: player 1 is a ghost whose minimum-ghost
countdown is `m`; players 2 and 3 are living non-ghosts in the same section
whose boxes overlap the ghost's box. -/
def ghostWithCountdown (m : Int) : GhostState :=
  { Ghost_MakeGhost threeChords 1 with s_ghostMinFrames := fun _ => m }

/-- What the main loop of `Ghost_CheckOutOfBounds` reads and writes for player
`id`, apart from the fields `Ghost_MakeGhost` sets: roster size, death flag,
box, viewport, remembered camera origin, ghost flag, OOB counter, revive
grace. -/
def oobView (id : Int) (s : GhostState) :
    Int × Bool × Location_t × vScreen_t × Int × Int × Bool × Int × Int :=
  (s.numPlayers, (s.Player id).Dead, (s.Player id).Location, s.vScreenByPlayer id,
    s.s_prevLeft id, s.s_prevTop id, s.s_isGhost id, s.s_oobFrames id, s.s_reviveGrace id)

/-- Three living players whose boxes start at x = -100, left of the padded
viewport `[-6, 806]`, the statics at their initial value. -/
def farLeft : GhostState := initState 3 (fun _ => playerAt (-100)) (fun _ => vs0)

/-- The state `farLeft` with every OOB counter at `c` and the remembered
camera origin at x = -5: the camera has moved right and the players trail. -/
def trailingAt (c : Int) : GhostState :=
  { farLeft with s_prevLeft := fun _ => -5, s_oobFrames := fun _ => c }

/-- The state `farLeft` with every OOB counter at `k`: the camera stands
still and the players stay out of view. -/
def oobTrace (k : Nat) : GhostState :=
  { farLeft with s_oobFrames := fun _ => (k : Int) }

/-- Player 1 of `farLeft`, ghosted and then revived in place: the state right
after `Ghost_ReviveFromGhost`, the player still out of view. -/
def justRevived : GhostState := Ghost_ReviveFromGhost (Ghost_MakeGhost farLeft 1) 1 0

/-- Every active player is a living ghost, the roster size is `n` and the
all-ghost counter is `c`. -/
def AllGhosts (n c : Int) (s : GhostState) : Prop :=
  s.numPlayers = n ∧ s.s_allGhostFrames = c ∧
  ∀ i, 1 ≤ i → i ≤ n → s.s_isGhost i = true ∧ (s.Player i).Dead = false

/-- One living player, a ghost, the all-ghost counter at 0. -/
def oneGhost : GhostState := Ghost_MakeGhost (initState 1 (fun _ => chordPlayer) (fun _ => vs0)) 1

/-- Player 1 of `threeChords` right after `Ghost_MakeGhost`: a ghost with the
minimum-ghost countdown at `kGhostMinFrames`, its box overlapped by the living
non-ghost players 2 and 3 of the same section. -/
def freshGhost : GhostState := Ghost_MakeGhost threeChords 1

/-- Three living players; player 1 is in fairy form with 17 ticks left. -/
def fairyStart : GhostState :=
  initState 3
    (fun i => if i = 1 then { chordPlayer with Fairy := true, FairyTime := 17 } else chordPlayer)
    (fun _ => vs0)

/-- The tests of the contact loop of `Ghost_TouchRevive` for ghost `g` and
player `a`: `a` is not `g`, not a ghost, not dead, in the section of `g`, and
`aabbOverlap(abox, gbox)` holds. -/
def touches (s : GhostState) (g a : Int) : Bool :=
  decide (a ≠ g) && !s.s_isGhost a && !(s.Player a).Dead &&
  decide ((s.Player a).Section = (s.Player g).Section) &&
  aabbOverlap (s.Player a).Location (s.Player g).Location

/-- The state `freshGhost` with the countdown of ghost 1 at `m`. -/
def freshGhostAt (m : Int) : GhostState :=
  { freshGhost with s_ghostMinFrames := upd (fun _ => 0) 1 m }

/-- The state of `Ghost_TouchRevive` (feature enabled) when its loop reaches
index `g`: after the failsafe tick and the iterations for `1 .. g-1`. -/
def touchReviveUpTo (s : GhostState) (g : Int) : GhostState :=
  (playerIds (g - 1)).foldl touchReviveBody (Ghost_AutoReviveAll_Tick s)

/-- Three players at the origin: player 1 dead (and no ghost), players 2 and 3
fresh ghosts.  No living non-ghost player exists. -/
def deadAndGhosts : GhostState := Ghost_MakeGhost (Ghost_MakeGhost threeOneDead 2) 3

/-- What the loops of `Ghost_SelfGhostByButtons` read and write for player
`id`: roster size, player record, ghost flag, self-ghost cooldown, previous
chord state. -/
def chordView (id : Int) (s : GhostState) : Int × Player_t × Bool × Int × Bool :=
  (s.numPlayers, s.Player id, s.s_isGhost id, s.s_selfGhostCooldown id, s.s_prevChordHeld id)

/-- The state `threeChords` with the chord already held on the previous frame
by every player. -/
def heldChords : GhostState := { threeChords with s_prevChordHeld := fun _ => true }

/-- Ghosts are intangible, for roster size `n`: every active ghost has
`Effect == PLREFF_NO_COLLIDE`, `Fairy == true` and `FairyTime == -1`. -/
def GhostsIntangible (n : Int) (s : GhostState) : Prop :=
  s.numPlayers = n ∧
  ∀ id, 1 ≤ id → id ≤ n → s.s_isGhost id = true →
    (s.Player id).Effect = PlayerEffect.PLREFF_NO_COLLIDE ∧ (s.Player id).Fairy = true ∧
    (s.Player id).FairyTime = -1

/-- The counters of the module are in range, for roster size `n`: the
all-ghost counter is in `[0, kAllGhostAutoReviveFrames)` and, for every active
player, revive grace is in `[0, 20]`, the minimum-ghost countdown in `[0, 30]`,
the self-ghost cooldown in `[0, 120]`, the no-snap countdown in `[0, 2]` and
the OOB counter in `[0, kOOBFrames)`. -/
def CountersInRange (n : Int) (s : GhostState) : Prop :=
  s.numPlayers = n ∧
  (0 ≤ s.s_allGhostFrames ∧ s.s_allGhostFrames < kAllGhostAutoReviveFrames) ∧
  ∀ id, 1 ≤ id → id ≤ n →
    (0 ≤ s.s_reviveGrace id ∧ s.s_reviveGrace id ≤ kReviveGraceFrames) ∧
    (0 ≤ s.s_ghostMinFrames id ∧ s.s_ghostMinFrames id ≤ kGhostMinFrames) ∧
    (0 ≤ s.s_selfGhostCooldown id ∧ s.s_selfGhostCooldown id ≤ kSelfGhostCooldownFrames) ∧
    (0 ≤ s.s_postReviveNoSnap id ∧ s.s_postReviveNoSnap id ≤ kPostReviveNoSnapFrames) ∧
    (0 ≤ s.s_oobFrames id ∧ s.s_oobFrames id < kOOBFrames)

/-- A single player, a fresh living ghost at the origin (minimum-ghost
countdown at `kGhostMinFrames`), with the all-ghosts counter one frame short of
`kAllGhostAutoReviveFrames`: the failsafe fires on the next tick. -/
def failsafeDue : GhostState := { oneGhost with s_allGhostFrames := 179 }

/-! # Theorems -/

/-! ## Loops over the players -/

theorem mem_idsFrom (k : Nat) : ∀ (i j : Int), j ∈ idsFrom i k ↔ i ≤ j ∧ j < i + k := by
  induction k with
  | zero =>
    intro i j
    simp only [idsFrom, List.not_mem_nil, false_iff]
    push_cast
    omega
  | succ k ih =>
    intro i j
    simp only [idsFrom, List.mem_cons, ih]
    push_cast
    omega

theorem mem_playerIds (n j : Int) : j ∈ playerIds n ↔ 1 ≤ j ∧ j ≤ n := by
  unfold playerIds
  rw [mem_idsFrom]
  omega

theorem idsFrom_sorted (k : Nat) : ∀ i : Int, (idsFrom i k).Pairwise (fun a b => a < b) := by
  induction k with
  | zero => intro i; simp [idsFrom]
  | succ k ih =>
    intro i
    simp only [idsFrom, List.pairwise_cons]
    refine ⟨?_, ih (i + 1)⟩
    intro b hb
    rw [mem_idsFrom] at hb
    omega

theorem playerIds_sorted (n : Int) : (playerIds n).Pairwise (fun a b => a < b) :=
  idsFrom_sorted _ _

theorem playerIds_nodup (n : Int) : (playerIds n).Nodup :=
  (playerIds_sorted n).imp (fun h => ne_of_lt h)

theorem length_idsFrom (k : Nat) : ∀ i : Int, (idsFrom i k).length = k := by
  induction k with
  | zero => intro i; rfl
  | succ k ih => intro i; simp [idsFrom, ih]

theorem length_playerIds (n : Int) : ((playerIds n).length : Int) = max n 0 := by
  unfold playerIds
  rw [length_idsFrom]
  omega

/-- A property kept by every iteration is kept by the loop. -/
theorem foldl_inv {σ : Type} (body : σ → Int → σ) (I : σ → Prop) :
    ∀ (l : List Int) (s : σ), I s → (∀ st i, i ∈ l → I st → I (body st i)) →
      I (l.foldl body s) := by
  intro l
  induction l with
  | nil => intro s h _; exact h
  | cons a l ih =>
    intro s h hb
    simp only [List.foldl_cons]
    apply ih
    · exact hb s a (List.mem_cons_self a l) h
    · intro st i hi hI
      exact hb st i (List.mem_cons_of_mem a hi) hI

theorem forPlayers_inv (body : GhostState → Int → GhostState) (I : GhostState → Prop)
    (s : GhostState) (h : I s)
    (hb : ∀ st i, 1 ≤ i → i ≤ s.numPlayers → I st → I (body st i)) :
    I (forPlayers body s) := by
  unfold forPlayers
  apply foldl_inv body I _ s h
  intro st i hi hI
  rw [mem_playerIds] at hi
  exact hb st i hi.1 hi.2 hI

/-- A loop whose iteration `j` leaves a view `proj` alone for `j ≠ id`: the view
after the loop is the view after iteration `id` alone, run on a state with the
view of the start. -/
theorem foldl_view {σ α : Type} (body : σ → Int → σ) (proj : σ → α) (id : Int)
    (hother : ∀ st j, j ≠ id → proj (body st j) = proj st) :
    ∀ (l : List Int) (s : σ), l.Nodup →
      (id ∉ l → proj (l.foldl body s) = proj s) ∧
      (id ∈ l → ∃ st, proj st = proj s ∧ proj (l.foldl body s) = proj (body st id)) := by
  intro l
  induction l with
  | nil => intro s _; simp
  | cons a l ih =>
    intro s hnd
    have hnd2 := List.nodup_cons.mp hnd
    simp only [List.foldl_cons]
    constructor
    · intro hni
      have hne : a ≠ id := fun h => hni (h ▸ List.mem_cons_self a l)
      have hnl : id ∉ l := fun h => hni (List.mem_cons_of_mem a h)
      rw [(ih (body s a) hnd2.2).1 hnl, hother s a hne]
    · intro hi
      by_cases hne : a = id
      · subst hne
        refine ⟨s, rfl, ?_⟩
        exact (ih (body s a) hnd2.2).1 hnd2.1
      · have hl : id ∈ l := by
          rcases List.mem_cons.mp hi with h | h
          · exact absurd h.symm hne
          · exact h
        obtain ⟨st, h1, h2⟩ := (ih (body s a) hnd2.2).2 hl
        exact ⟨st, by rw [h1, hother s a hne], h2⟩

theorem countLoop_eq_countP (p : Int → Bool) (l : List Int) :
    countLoop p l = (l.countP p : Int) := by
  unfold countLoop
  have h : ∀ (l : List Int) (c : Int),
      l.foldl (fun c i => if p i = true then c + 1 else c) c = c + (l.countP p : Int) := by
    intro l
    induction l with
    | nil => intro c; simp
    | cons a l ih =>
      intro c
      simp only [List.foldl_cons, ih, List.countP_cons]
      by_cases ha : p a = true
      · simp [ha]; ring
      · simp [ha]
  simpa using h l 0

/-! ## C1: redundant and invalid transitions -/

/-- C1. Redundant and invalid transitions are no-ops. `Ghost_MakeGhost` leaves
the whole state (statics, player fields and event log) unchanged when `id` is
out of `[1, numPlayers]`, the player is already a ghost, or the player is dead;
`Ghost_ReviveFromGhost` and `Ghost_KeepStateAlive` leave it unchanged when `id`
is out of range or the player is not a ghost; `Ghost_IsGhost` and
`Ghost_TrySelfGhost` answer `false` out of range. -/
theorem C1_invalid_and_redundant_are_noops (s : GhostState) (id : Int) :
    ((id < 1 ∨ id > s.numPlayers ∨ s.s_isGhost id = true ∨ (s.Player id).Dead = true) →
      Ghost_MakeGhost s id = s) ∧
    ((id < 1 ∨ id > s.numPlayers ∨ s.s_isGhost id = false) →
      (∀ t, Ghost_ReviveFromGhost s id t = s) ∧ Ghost_KeepStateAlive s id = s) ∧
    ((id < 1 ∨ id > s.numPlayers) →
      Ghost_IsGhost s id = false ∧ Ghost_TrySelfGhost s id = (false, s)) ∧
    ((s.Player id).Dead = true →
      (Ghost_MakeGhost s id).s_isGhost id = s.s_isGhost id) := by
  refine ⟨?_, ?_, ?_, ?_⟩
  · intro h
    unfold Ghost_MakeGhost
    by_cases h1 : id < 1 ∨ id > s.numPlayers
    · simp [h1]
    · rcases h with h | h | h | h
      · exact absurd (Or.inl h) h1
      · exact absurd (Or.inr h) h1
      · simp [h]
      · simp [h]
  · intro h
    unfold Ghost_ReviveFromGhost Ghost_KeepStateAlive
    by_cases h1 : id < 1 ∨ id > s.numPlayers
    · simp [h1]
    · rcases h with h | h | h
      · exact absurd (Or.inl h) h1
      · exact absurd (Or.inr h) h1
      · simp [h]
  · intro h
    have h1 : id < 1 ∨ id > s.numPlayers := h
    unfold Ghost_IsGhost Ghost_TrySelfGhost
    simp [h1]
  · intro h
    unfold Ghost_MakeGhost
    simp [h]

/-- Witness for C1: the five no-op cases on the three-player start state. -/
theorem C1_invalid_and_redundant_are_noops_witness :
    Ghost_MakeGhost threeChords 7 = threeChords ∧
    Ghost_ReviveFromGhost threeChords 1 2 = threeChords ∧
    Ghost_KeepStateAlive threeChords 1 = threeChords ∧
    Ghost_IsGhost threeChords 0 = false ∧
    Ghost_TrySelfGhost threeChords 0 = (false, threeChords) ∧
    (Ghost_MakeGhost threeOneDead 1).s_isGhost 1 = threeOneDead.s_isGhost 1 :=
  ⟨(C1_invalid_and_redundant_are_noops threeChords 7).1 (by decide),
   ((C1_invalid_and_redundant_are_noops threeChords 1).2.1 (by decide)).1 2,
   ((C1_invalid_and_redundant_are_noops threeChords 1).2.1 (by decide)).2,
   ((C1_invalid_and_redundant_are_noops threeChords 0).2.2.1 (by decide)).1,
   ((C1_invalid_and_redundant_are_noops threeChords 0).2.2.1 (by decide)).2,
   (C1_invalid_and_redundant_are_noops threeOneDead 1).2.2.2 (by decide)⟩

/-! ## C9: feature gate -/

/-- C9. With exactly two active players the three per-frame drivers leave the
whole state unchanged and `Ghost_TrySelfGhost` answers `false` without a
change, while `Ghost_MakeGhost` still ghosts a living non-ghost player and
`Ghost_ReviveFromGhost` still revives a ghost. -/
theorem C9_feature_gate (s : GhostState) (h2 : s.numPlayers = 2) :
    Ghost_CheckOutOfBounds s = s ∧
    Ghost_SelfGhostByButtons s = s ∧
    Ghost_TouchRevive s = s ∧
    (∀ id, Ghost_TrySelfGhost s id = (false, s)) ∧
    (∀ id, 1 ≤ id → id ≤ 2 → s.s_isGhost id = false → (s.Player id).Dead = false →
      Ghost_IsGhost (Ghost_MakeGhost s id) id = true) ∧
    (∀ id t, 1 ≤ id → id ≤ 2 → s.s_isGhost id = true →
      Ghost_IsGhost (Ghost_ReviveFromGhost s id t) id = false ∧
      (Ghost_ReviveFromGhost s id t).s_reviveGrace id = kReviveGraceFrames) := by
  have hg : Ghost_FeatureEnabled s = false := by simp [Ghost_FeatureEnabled, h2]
  refine ⟨?_, ?_, ?_, ?_, ?_, ?_⟩
  · simp [Ghost_CheckOutOfBounds, hg]
  · simp [Ghost_SelfGhostByButtons, hg]
  · simp [Ghost_TouchRevive, hg]
  · intro id
    simp [Ghost_TrySelfGhost, hg]
  · intro id h1 hle hng hnd
    have hr : ¬ (id < 1 ∨ id > s.numPlayers) := by omega
    simp [Ghost_MakeGhost, Ghost_IsGhost, hr, hng, hnd, upd]
  · intro id t h1 hle hgh
    have hr : ¬ (id < 1 ∨ id > s.numPlayers) := by omega
    simp [Ghost_ReviveFromGhost, Ghost_IsGhost, hr, hgh, upd]

/-- Witness for C9: the two-player start state, and player 1 ghosted in it. -/
theorem C9_feature_gate_witness :
    Ghost_CheckOutOfBounds twoChords = twoChords ∧
    Ghost_SelfGhostByButtons twoChords = twoChords ∧
    Ghost_TouchRevive twoChords = twoChords ∧
    Ghost_TrySelfGhost twoChords 1 = (false, twoChords) ∧
    Ghost_IsGhost (Ghost_MakeGhost twoChords 1) 1 = true ∧
    Ghost_IsGhost (Ghost_ReviveFromGhost (Ghost_MakeGhost twoChords 1) 1 2) 1 = false :=
  ⟨(C9_feature_gate twoChords rfl).1,
   (C9_feature_gate twoChords rfl).2.1,
   (C9_feature_gate twoChords rfl).2.2.1,
   (C9_feature_gate twoChords rfl).2.2.2.1 1,
   (C9_feature_gate twoChords rfl).2.2.2.2.1 1 (by decide) (by decide) (by decide) (by decide),
   ((C9_feature_gate (Ghost_MakeGhost twoChords 1) (by decide)).2.2.2.2.2 1 2
      (by decide) (by decide) (by decide)).1⟩

/-! ## C2: simultaneous chords ghost every survivor -/

/-- C2 (the code at the failing input). Three living non-ghost players press
the chord in the same frame with no cooldown: the start state has a living
non-ghost player, and after one `Ghost_SelfGhostByButtons` all three are
ghosts, so none is left. -/
theorem C2_all_survivors_ghosted :
    (∃ i ∈ playerIds threeChords.numPlayers, aliveNotGhost threeChords i = true) ∧
    (Ghost_SelfGhostByButtons threeChords).numPlayers = 3 ∧
    (∀ i ∈ playerIds 3, Ghost_IsGhost (Ghost_SelfGhostByButtons threeChords) i = true) ∧
    ¬ ∃ i ∈ playerIds 3, aliveNotGhost (Ghost_SelfGhostByButtons threeChords) i = true := by
  decide

/-! ## C3: last-survivor protection -/

theorem countP_le_one_of_unique (p : Int → Bool) (sv : Int) :
    ∀ l : List Int, l.Nodup → (∀ i ∈ l, p i = true → i = sv) → l.countP p ≤ 1 := by
  intro l
  induction l with
  | nil => intro _ _; simp
  | cons a l ih =>
    intro hnd hu
    have hnd2 := List.nodup_cons.mp hnd
    by_cases ha : p a = true
    · have hsv : a = sv := hu a (List.mem_cons_self a l) ha
      have hzero : l.countP p = 0 := by
        rw [List.countP_eq_zero]
        intro i hi hpi
        have : i = sv := hu i (List.mem_cons_of_mem a hi) hpi
        exact hnd2.1 (by rw [hsv, ← this]; exact hi)
      rw [List.countP_cons_of_pos _ _ ha, hzero]
    · rw [List.countP_cons_of_neg _ _ ha]
      exact ih hnd2.2 (fun i hi => hu i (List.mem_cons_of_mem a hi))

theorem countLoop_le_one (p : Int → Bool) (sv n : Int)
    (hu : ∀ i, 1 ≤ i → i ≤ n → p i = true → i = sv) :
    countLoop p (playerIds n) ≤ 1 := by
  rw [countLoop_eq_countP]
  have := countP_le_one_of_unique p sv (playerIds n) (playerIds_nodup n)
    (fun i hi => hu i ((mem_playerIds n i).mp hi).1 ((mem_playerIds n i).mp hi).2)
  exact_mod_cast this

theorem cooldownBody_frame (st : GhostState) (i : Int) :
    (cooldownBody st i).numPlayers = st.numPlayers ∧
    (cooldownBody st i).Player = st.Player ∧
    (cooldownBody st i).s_isGhost = st.s_isGhost := by
  unfold cooldownBody
  split <;> simp

theorem cooldownLoop_frame (s : GhostState) :
    (forPlayers cooldownBody s).numPlayers = s.numPlayers ∧
    (forPlayers cooldownBody s).Player = s.Player ∧
    (forPlayers cooldownBody s).s_isGhost = s.s_isGhost := by
  apply forPlayers_inv cooldownBody
    (fun st => st.numPlayers = s.numPlayers ∧ st.Player = s.Player ∧ st.s_isGhost = s.s_isGhost)
  · exact ⟨rfl, rfl, rfl⟩
  · intro st i _ _ h
    have := cooldownBody_frame st i
    exact ⟨this.1.trans h.1, this.2.1.trans h.2.1, this.2.2.trans h.2.2⟩

/-- With at most one survivor counted, an iteration of the chord loop ghosts
nobody. -/
theorem selfGhostBody_blocked (c : Int) (hc : c ≤ 1) (st : GhostState) (id : Int) :
    (selfGhostBody c st id).s_isGhost = st.s_isGhost := by
  unfold selfGhostBody
  have hd : decide (c ≤ 1) = true := by simpa using hc
  split
  · rfl
  · split
    · rfl
    · split
      · rfl
      · simp only [hd]
        split <;> simp

/-- C3. When exactly one active player, `sv`, is living and not a ghost (for
any number of active players, two or more included), `Ghost_SelfGhostByButtons` leaves `sv` a non-ghost (whatever
the chord and cooldown state), and `Ghost_TrySelfGhost sv` answers `false` and
leaves `sv` a non-ghost. -/
theorem C3_last_survivor_protected (s : GhostState) (sv : Int)
    (h1 : 1 ≤ sv) (h2 : sv ≤ s.numPlayers)
    (hs : aliveNotGhost s sv = true)
    (hu : ∀ i, 1 ≤ i → i ≤ s.numPlayers → aliveNotGhost s i = true → i = sv) :
    (Ghost_SelfGhostByButtons s).s_isGhost sv = false ∧
    Ghost_IsGhost (Ghost_SelfGhostByButtons s) sv = false ∧
    (Ghost_TrySelfGhost s sv).1 = false ∧
    (Ghost_TrySelfGhost s sv).2.s_isGhost sv = false ∧
    Ghost_IsGhost (Ghost_TrySelfGhost s sv).2 sv = false := by
  have hsg : s.s_isGhost sv = false := by
    simp [aliveNotGhost] at hs
    exact hs.2
  have hsd : (s.Player sv).Dead = false := by
    simp [aliveNotGhost] at hs
    exact hs.1
  have hA : (Ghost_SelfGhostByButtons s).s_isGhost sv = false := by
    unfold Ghost_SelfGhostByButtons
    split
    · exact hsg
    · obtain ⟨hcn, hcp, hcg⟩ := cooldownLoop_frame s
      have hcount : countLoop (aliveNotGhost (forPlayers cooldownBody s))
          (playerIds (forPlayers cooldownBody s).numPlayers) ≤ 1 := by
        apply countLoop_le_one _ sv
        intro i hi1 hi2 hp
        rw [hcn] at hi2
        apply hu i hi1 hi2
        simpa [aliveNotGhost, hcp, hcg] using hp
      have hloop := forPlayers_inv (selfGhostBody _)
        (fun st => st.s_isGhost = s.s_isGhost) (forPlayers cooldownBody s) hcg
        (fun st i _ _ h => (selfGhostBody_blocked _ hcount st i).trans h)
      simp only at hloop ⊢
      rw [hloop]
      exact hsg
  have hB : Ghost_TrySelfGhost s sv = (false, s) := by
    unfold Ghost_TrySelfGhost
    have hr : ¬ (sv < 1 ∨ sv > s.numPlayers) := by omega
    have hig : Ghost_IsGhost s sv = false := by simp [Ghost_IsGhost, hr, hsg]
    have hcount : countLoop (fun i => !(s.Player i).Dead && !Ghost_IsGhost s i)
        (playerIds s.numPlayers) ≤ 1 := by
      apply countLoop_le_one _ sv
      intro i hi1 hi2 hp
      apply hu i hi1 hi2
      have hri : ¬ (i < 1 ∨ i > s.numPlayers) := by omega
      simpa [aliveNotGhost, Ghost_IsGhost, hri] using hp
    simp [hr, hsd, hig, hcount]
  refine ⟨hA, ?_, ?_, ?_, ?_⟩
  · simp [Ghost_IsGhost, hA]
  · rw [hB]
  · rw [hB]; exact hsg
  · rw [hB]; simp [Ghost_IsGhost, hsg]

/-- Witness for C3: three players, 2 and 3 ghosts, player 1 pressing the chord
on a rising edge with zero cooldown. -/
theorem C3_last_survivor_protected_witness :
    2 ≤ lastSurvivor.numPlayers ∧
    isChordHeld lastSurvivor 1 = true ∧ lastSurvivor.s_prevChordHeld 1 = false ∧
    lastSurvivor.s_selfGhostCooldown 1 = 0 ∧
    (Ghost_SelfGhostByButtons lastSurvivor).s_isGhost 1 = false ∧
    (Ghost_TrySelfGhost lastSurvivor 1).1 = false ∧
    (Ghost_TrySelfGhost lastSurvivor 1).2.s_isGhost 1 = false :=
  have h := C3_last_survivor_protected lastSurvivor 1 (by decide) (by decide) (by decide)
    (fun i h1 h2 => by
      have h3 : i ≤ 3 := h2
      have h4 : i = 1 ∨ i = 2 ∨ i = 3 := by omega
      rcases h4 with rfl | rfl | rfl
      · intro _; rfl
      · decide
      · decide)
  ⟨by decide, by decide, by decide, by decide, h.1, h.2.2.1, h.2.2.2.1⟩

/-! ## C10: nearest-target selection -/

theorem nearestStep_inv (s : GhostState) (self : Int) (pre : List Int) (acc : Int × num_t)
    (a : Int) (ha1 : 1 ≤ a) (ha2 : a ≤ s.numPlayers) (hlt : ∀ j ∈ pre, j < a)
    (h : NearestInv s self pre acc) :
    NearestInv s self (pre ++ [a]) (nearestStep s self acc a) := by
  obtain ⟨hz, hnz⟩ := h
  have hr : ¬ (a < 1 ∨ a > s.numPlayers) := by omega
  -- the accumulator is kept and `a` is no candidate
  have keep : (a ≠ self → aliveNotGhost s a = false) → NearestInv s self (pre ++ [a]) acc := by
    intro hna
    constructor
    · intro h0 i hi hne
      rcases List.mem_append.mp hi with hi | hi
      · exact hz h0 i hi hne
      · rw [List.mem_singleton] at hi
        subst hi
        exact hna hne
    · intro h0
      obtain ⟨hm, hs, hc, hd, hmin⟩ := hnz h0
      refine ⟨List.mem_append_left _ hm, hs, hc, hd, ?_⟩
      intro i hi hne hci
      rcases List.mem_append.mp hi with hi | hi
      · exact hmin i hi hne hci
      · rw [List.mem_singleton] at hi
        subst hi
        rw [hna hne] at hci
        exact absurd hci (by decide)
  unfold nearestStep
  split
  · rename_i hself
    exact keep (fun hne => absurd hself hne)
  · rename_i hself
    split
    · rename_i hdead
      exact keep (fun _ => by simp [aliveNotGhost, hdead])
    · rename_i hdead
      split
      · rename_i hgh
        have : s.s_isGhost a = true := by simpa [Ghost_IsGhost, hr] using hgh
        exact keep (fun _ => by simp [aliveNotGhost, this])
      · rename_i hgh
        have hng : s.s_isGhost a = false := by simpa [Ghost_IsGhost, hr] using hgh
        have hca : aliveNotGhost s a = true := by
          simp only [Bool.not_eq_true] at hdead
          simp [aliveNotGhost, hdead, hng]
        simp only
        split
        · rename_i hbetter
          constructor
          · intro h0
            exact absurd h0 (by simp; omega)
          · intro _
            refine ⟨by simp, hself, hca, rfl, ?_⟩
            intro i hi hne hci
            rcases List.mem_append.mp hi with hi | hi
            · rcases hbetter with h0 | hd
              · rw [hz h0 i hi hne] at hci
                exact absurd hci (by decide)
              · have hacc : acc.1 ≠ 0 := by
                  intro h0
                  rw [hz h0 i hi hne] at hci
                  exact absurd hci (by decide)
                obtain ⟨_, _, _, hd2, hmin⟩ := hnz hacc
                have h1 := (hmin i hi hne hci).1
                rw [← hd2] at h1
                constructor
                · exact le_of_lt (lt_of_lt_of_le hd h1)
                · intro heq
                  simp only at heq
                  rw [heq] at h1
                  exact absurd (lt_of_lt_of_le hd h1) (lt_irrefl _)
            · rw [List.mem_singleton] at hi
              subst hi
              exact ⟨le_refl _, fun _ => le_refl _⟩
        · rename_i hbetter
          rw [not_or] at hbetter
          obtain ⟨hacc, hnlt⟩ := hbetter
          obtain ⟨hm, hs, hc, hd, hmin⟩ := hnz hacc
          constructor
          · intro h0; exact absurd h0 hacc
          · intro _
            refine ⟨List.mem_append_left _ hm, hs, hc, hd, ?_⟩
            intro i hi hne hci
            rcases List.mem_append.mp hi with hi | hi
            · exact hmin i hi hne hci
            · rw [List.mem_singleton] at hi
              subst hi
              constructor
              · rw [← hd]; exact not_lt.mp hnlt
              · intro _; exact le_of_lt (hlt _ hm)

theorem nearestFold_inv (s : GhostState) (self : Int) :
    ∀ (l pre : List Int) (acc : Int × num_t),
      (pre ++ l).Pairwise (fun a b => a < b) → (∀ i ∈ l, 1 ≤ i ∧ i ≤ s.numPlayers) →
      NearestInv s self pre acc →
      NearestInv s self (pre ++ l) (l.foldl (nearestStep s self) acc) := by
  intro l
  induction l with
  | nil => intro pre acc _ _ h; simpa using h
  | cons a l ih =>
    intro pre acc hs hr h
    simp only [List.foldl_cons]
    have hstep := nearestStep_inv s self pre acc a (hr a (List.mem_cons_self a l)).1
      (hr a (List.mem_cons_self a l)).2
      (fun j hj => (List.pairwise_append.mp hs).2.2 j hj a (List.mem_cons_self a l)) h
    have := ih (pre ++ [a]) _ (by simpa using hs)
      (fun i hi => hr i (List.mem_cons_of_mem a hi)) hstep
    simpa using this

/-- C10. `findNearestAlive` returns 0 exactly when no active player other than
`self` is living and not a ghost; otherwise it returns such a player whose L1
centre distance to `self` is least, and among those of least distance the one
of smallest index. -/
theorem C10_nearest_target (s : GhostState) (self : Int) :
    (findNearestAlive s self = 0 ↔
      ∀ i, 1 ≤ i → i ≤ s.numPlayers → i ≠ self → aliveNotGhost s i = false) ∧
    (findNearestAlive s self ≠ 0 →
      (1 ≤ findNearestAlive s self ∧ findNearestAlive s self ≤ s.numPlayers ∧
        findNearestAlive s self ≠ self ∧ aliveNotGhost s (findNearestAlive s self) = true) ∧
      ∀ i, 1 ≤ i → i ≤ s.numPlayers → i ≠ self → aliveNotGhost s i = true →
        centreDist s self (findNearestAlive s self) ≤ centreDist s self i ∧
        (centreDist s self i = centreDist s self (findNearestAlive s self) →
          findNearestAlive s self ≤ i)) := by
  have hinv := nearestFold_inv s self (playerIds s.numPlayers) [] (0, 0)
    (by simpa using playerIds_sorted s.numPlayers)
    (fun i hi => (mem_playerIds _ _).mp hi)
    ⟨fun _ i hi => absurd hi (List.not_mem_nil i), fun h => absurd rfl h⟩
  simp only [List.nil_append] at hinv
  obtain ⟨hz, hnz⟩ := hinv
  have hfn : findNearestAlive s self =
      ((playerIds s.numPlayers).foldl (nearestStep s self) (0, 0)).1 := rfl
  rw [← hfn] at hz hnz
  constructor
  · constructor
    · intro h0 i h1 h2 hne
      exact hz h0 i ((mem_playerIds _ _).mpr ⟨h1, h2⟩) hne
    · intro hall
      by_contra hne0
      obtain ⟨hm, hs, hc, _, _⟩ := hnz hne0
      have hm2 := (mem_playerIds _ _).mp hm
      rw [hall _ hm2.1 hm2.2 hs] at hc
      exact absurd hc (by decide)
  · intro hne0
    obtain ⟨hm, hs, hc, _, hmin⟩ := hnz hne0
    have hm2 := (mem_playerIds _ _).mp hm
    refine ⟨⟨hm2.1, hm2.2, hs, hc⟩, ?_⟩
    intro i h1 h2 hne hci
    exact hmin i ((mem_playerIds _ _).mpr ⟨h1, h2⟩) hne hci

theorem tieState_nearest : findNearestAlive tieState 4 = 2 := by
  norm_num [findNearestAlive, playerIds, idsFrom, nearestStep, Ghost_IsGhost, centreDist,
    tieState, Ghost_MakeGhost, initState, upd, playerAt, chordPlayer, loc0]

theorem tieState_dist : centreDist tieState 4 2 = centreDist tieState 4 3 := by
  norm_num [centreDist, tieState, Ghost_MakeGhost, initState, upd, playerAt, chordPlayer, loc0]

/-- Witness for C10: ghost 4 with candidates 2 and 3 at equal distance 10 and
candidate 1 at distance 30; the search returns 2. -/
theorem C10_nearest_target_witness :
    findNearestAlive tieState 4 = 2 ∧
    centreDist tieState 4 2 = centreDist tieState 4 3 ∧
    (centreDist tieState 4 (findNearestAlive tieState 4) ≤ centreDist tieState 4 3 ∧
      (centreDist tieState 4 3 = centreDist tieState 4 (findNearestAlive tieState 4) →
        findNearestAlive tieState 4 ≤ 3)) :=
  ⟨tieState_nearest, tieState_dist,
   ((C10_nearest_target tieState 4).2 (by rw [tieState_nearest]; decide)).2 3
     (by decide) (by decide) (by decide) (by decide)⟩

/-! ## Frame lemmas: each operation on player `j` writes slot `j` only -/

theorem sameExcept_refl (j : Int) (s : GhostState) : sameExcept j s s :=
  ⟨rfl, rfl, rfl, fun _ _ => ⟨rfl, rfl, rfl, rfl, rfl, rfl, rfl, rfl, rfl, rfl, rfl, rfl⟩⟩

theorem sameExcept_trans {j : Int} {a b c : GhostState}
    (h1 : sameExcept j a b) (h2 : sameExcept j b c) : sameExcept j a c := by
  obtain ⟨a1, a2, a3, a4⟩ := h1
  obtain ⟨b1, b2, b3, b4⟩ := h2
  refine ⟨a1.trans b1, a2.trans b2, a3.trans b3, ?_⟩
  intro k hk
  obtain ⟨x1, x2, x3, x4, x5, x6, x7, x8, x9, x10, x11, x12⟩ := a4 k hk
  obtain ⟨y1, y2, y3, y4, y5, y6, y7, y8, y9, y10, y11, y12⟩ := b4 k hk
  exact ⟨x1.trans y1, x2.trans y2, x3.trans y3, x4.trans y4, x5.trans y5, x6.trans y6,
    x7.trans y7, x8.trans y8, x9.trans y9, x10.trans y10, x11.trans y11, x12.trans y12⟩

theorem upd_ne {α : Type} (a : Int → α) (i k : Int) (v : α) (h : k ≠ i) : upd a i v k = a k := by
  simp [upd, h]

theorem upd_same {α : Type} (a : Int → α) (i : Int) (v : α) : upd a i v i = v := by
  simp [upd]

theorem makeGhost_frame (s : GhostState) (j : Int) : sameExcept j (Ghost_MakeGhost s j) s := by
  unfold Ghost_MakeGhost
  split
  · exact sameExcept_refl j s
  · split
    · exact sameExcept_refl j s
    · split
      · exact sameExcept_refl j s
      · refine ⟨rfl, rfl, rfl, ?_⟩
        intro k hk
        simp [upd_ne, hk]

theorem revive_frame (s : GhostState) (j t : Int) :
    sameExcept j (Ghost_ReviveFromGhost s j t) s := by
  unfold Ghost_ReviveFromGhost
  split
  · exact sameExcept_refl j s
  · split
    · exact sameExcept_refl j s
    · refine ⟨rfl, rfl, rfl, ?_⟩
      intro k hk
      simp [upd_ne, hk]

theorem keepAlive_frame (s : GhostState) (j : Int) :
    sameExcept j (Ghost_KeepStateAlive s j) s := by
  unfold Ghost_KeepStateAlive
  split
  · exact sameExcept_refl j s
  · split
    · exact sameExcept_refl j s
    · refine ⟨rfl, rfl, rfl, ?_⟩
      intro k hk
      simp only [upd_ne _ _ _ _ hk, and_self, true_and]
      split <;> simp [upd_ne, hk]

theorem noSnapBody_frame (s : GhostState) (j : Int) : sameExcept j (noSnapBody s j) s := by
  unfold noSnapBody
  split
  · refine ⟨rfl, rfl, rfl, ?_⟩
    intro k hk
    simp [upd_ne, hk]
  · exact sameExcept_refl j s

theorem cooldownBody_sameExcept (s : GhostState) (j : Int) :
    sameExcept j (cooldownBody s j) s := by
  unfold cooldownBody
  split
  · refine ⟨rfl, rfl, rfl, ?_⟩
    intro k hk
    simp [upd_ne, hk]
  · exact sameExcept_refl j s

theorem autoReviveBody_frame (s : GhostState) (j : Int) :
    sameExcept j (autoReviveBody s j) s := by
  unfold autoReviveBody
  split
  · exact revive_frame s j 0
  · exact sameExcept_refl j s

theorem oobBody_frame (s : GhostState) (j : Int) : sameExcept j (oobBody s j) s := by
  unfold oobBody
  split
  · refine ⟨rfl, rfl, rfl, ?_⟩
    intro k hk
    simp [upd_ne, hk]
  · split
    · refine ⟨rfl, rfl, rfl, ?_⟩
      intro k hk
      simp [upd_ne, hk]
    · split
      · refine ⟨rfl, rfl, rfl, ?_⟩
        intro k hk
        simp [upd_ne, hk]
      · split
        · refine ⟨rfl, rfl, rfl, ?_⟩
          intro k hk
          simp [upd_ne, hk]
        · simp only
          split
          · refine ⟨rfl, rfl, rfl, ?_⟩
            intro k hk
            simp [upd_ne, hk]
          · split
            · have hm := makeGhost_frame
                { s with s_oobFrames := upd s.s_oobFrames j (s.s_oobFrames j + oobStep s j) } j
              obtain ⟨m1, m2, m3, m4⟩ := hm
              refine ⟨m1, m2, m3, ?_⟩
              intro k hk
              have := m4 k hk
              simp only [upd_ne _ _ _ _ hk] at this ⊢
              exact this
            · refine ⟨rfl, rfl, rfl, ?_⟩
              intro k hk
              simp [upd_ne, hk]

theorem selfGhostBody_frame (c : Int) (s : GhostState) (j : Int) :
    sameExcept j (selfGhostBody c s j) s := by
  unfold selfGhostBody
  split
  · refine ⟨rfl, rfl, rfl, ?_⟩
    intro k hk
    simp [upd_ne, hk]
  · split
    · refine ⟨rfl, rfl, rfl, ?_⟩
      intro k hk
      simp [upd_ne, hk]
    · split
      · refine ⟨rfl, rfl, rfl, ?_⟩
        intro k hk
        simp [upd_ne, hk]
      · simp only
        split
        · split
          · obtain ⟨m1, m2, m3, m4⟩ := makeGhost_frame s j
            refine ⟨m1, m2, m3, ?_⟩
            intro k hk
            have := m4 k hk
            simp only [upd_ne _ _ _ _ hk] at this ⊢
            exact this
          · refine ⟨rfl, rfl, rfl, ?_⟩
            intro k hk
            simp [upd_ne, hk]
        · refine ⟨rfl, rfl, rfl, ?_⟩
          intro k hk
          simp [upd_ne, hk]

theorem ghostSeek_frame (s : GhostState) (j : Int) : sameExcept j (ghostSeek s j) s := by
  unfold ghostSeek
  simp only
  split
  · split
    · refine ⟨rfl, rfl, rfl, ?_⟩
      intro k hk
      simp [upd_ne, hk]
    · exact sameExcept_refl j s
  · exact sameExcept_refl j s

theorem touchLoop_cases (s : GhostState) (g : Int) :
    ∀ l : List Int, touchLoop s g l = s ∨ ∃ a ∈ l, touchLoop s g l = Ghost_ReviveFromGhost s g a := by
  intro l
  induction l with
  | nil => left; rfl
  | cons a l ih =>
    have hrest : touchLoop s g l = s ∨
        ∃ b ∈ a :: l, touchLoop s g l = Ghost_ReviveFromGhost s g b := by
      rcases ih with h | ⟨b, hb, h⟩
      · exact Or.inl h
      · exact Or.inr ⟨b, List.mem_cons_of_mem a hb, h⟩
    unfold touchLoop
    split
    · exact hrest
    · split
      · exact hrest
      · split
        · exact hrest
        · split
          · exact hrest
          · split
            · exact Or.inr ⟨a, List.mem_cons_self a l, rfl⟩
            · exact hrest

theorem touchLoop_frame (s : GhostState) (g : Int) (l : List Int) :
    sameExcept g (touchLoop s g l) s := by
  rcases touchLoop_cases s g l with h | ⟨a, _, h⟩
  · rw [h]; exact sameExcept_refl g s
  · rw [h]; exact revive_frame s g a

theorem touchReviveBody_frame (s : GhostState) (j : Int) :
    sameExcept j (touchReviveBody s j) s := by
  have h12 : sameExcept j (ghostSeek (Ghost_KeepStateAlive s j) j) s :=
    sameExcept_trans (ghostSeek_frame _ j) (keepAlive_frame s j)
  unfold touchReviveBody
  split
  · exact sameExcept_refl j s
  · split
    · exact sameExcept_refl j s
    · simp only
      split
      · obtain ⟨m1, m2, m3, m4⟩ := h12
        refine ⟨m1, m2, m3, ?_⟩
        intro k hk
        have := m4 k hk
        simp only [upd_ne _ _ _ _ hk] at this ⊢
        exact this
      · exact sameExcept_trans (touchLoop_frame _ j _) h12

/-! ## The all-ghosts failsafe when somebody is not a ghost -/

theorem countLoop_lt_of_exists (p : Int → Bool) (n : Int) (hn : 0 < n)
    (h : ∃ j, 1 ≤ j ∧ j ≤ n ∧ p j = false) : countLoop p (playerIds n) < n := by
  rw [countLoop_eq_countP]
  have hlen := length_playerIds n
  have hle : (playerIds n).countP p ≤ (playerIds n).length := List.countP_le_length p
  have hne : (playerIds n).countP p ≠ (playerIds n).length := by
    intro heq
    rw [List.countP_eq_length] at heq
    obtain ⟨j, h1, h2, hp⟩ := h
    have := heq j ((mem_playerIds n j).mpr ⟨h1, h2⟩)
    rw [hp] at this
    exact absurd this (by decide)
  omega

/-- While some active player is not a ghost the failsafe only clears its
counter. -/
theorem tick_not_all (s : GhostState)
    (h : ∃ j, 1 ≤ j ∧ j ≤ s.numPlayers ∧ s.s_isGhost j = false) :
    Ghost_AutoReviveAll_Tick s = { s with s_allGhostFrames := 0 } := by
  unfold Ghost_AutoReviveAll_Tick
  split
  · rfl
  · rename_i hpos
    have hlt : countLoop (Ghost_IsGhost s) (playerIds s.numPlayers) < s.numPlayers := by
      apply countLoop_lt_of_exists _ _ (by omega)
      obtain ⟨j, h1, h2, hj⟩ := h
      refine ⟨j, h1, h2, ?_⟩
      have hr : ¬ (j < 1 ∨ j > s.numPlayers) := by omega
      simp [Ghost_IsGhost, hr, hj]
    simp only
    split
    · rename_i hall
      omega
    · rfl

/-! ## C8: minimum ghost duration -/

theorem touchView_of_sameExcept {j g : Int} {a b : GhostState} (h : sameExcept j a b)
    (hne : j ≠ g) : touchView g a = touchView g b := by
  obtain ⟨h1, _, _, h4⟩ := h
  obtain ⟨x1, _, _, x4, _, _, x7, _⟩ := h4 g (Ne.symm hne)
  simp [touchView, h1, x1, x4, x7]

/-- The iteration for a living ghost whose countdown is above 1: the ghost
stays a ghost and the countdown drops by 2. -/
theorem touchReviveBody_locked (st : GhostState) (g : Int)
    (h1 : 1 ≤ g) (h2 : g ≤ st.numPlayers) (hg : st.s_isGhost g = true)
    (hd : (st.Player g).Dead = false) (hm : st.s_ghostMinFrames g > 1) :
    touchView g (touchReviveBody st g) =
      (st.numPlayers, true, false, st.s_ghostMinFrames g - 2) := by
  have hr : ¬ (g < 1 ∨ g > st.numPlayers) := by omega
  have hk : (Ghost_KeepStateAlive st g).s_ghostMinFrames g = st.s_ghostMinFrames g - 1 ∧
      (Ghost_KeepStateAlive st g).s_isGhost g = true ∧
      ((Ghost_KeepStateAlive st g).Player g).Dead = false ∧
      (Ghost_KeepStateAlive st g).numPlayers = st.numPlayers := by
    have hpos : st.s_ghostMinFrames g > 0 := by omega
    simp [Ghost_KeepStateAlive, hr, hg, hpos, upd_same, hd]
  have hs : ∀ s1 : GhostState, (ghostSeek s1 g).s_ghostMinFrames = s1.s_ghostMinFrames ∧
      (ghostSeek s1 g).s_isGhost = s1.s_isGhost ∧
      ((ghostSeek s1 g).Player g).Dead = (s1.Player g).Dead ∧
      (ghostSeek s1 g).numPlayers = s1.numPlayers := by
    intro s1
    unfold ghostSeek
    simp only
    split
    · split
      · simp [upd_same]
      · simp
    · simp
  obtain ⟨k1, k2, k3, k4⟩ := hk
  obtain ⟨s1, s2, s3, s4⟩ := hs (Ghost_KeepStateAlive st g)
  unfold touchReviveBody
  simp only [hg, hd, Bool.true_eq_false, Bool.false_eq_true, if_false]
  have hpos : (ghostSeek (Ghost_KeepStateAlive st g) g).s_ghostMinFrames g > 0 := by
    rw [s1, k1]; omega
  simp only [hpos, if_true]
  simp only [touchView, upd_same, s1, s2, s3, s4, k1, k2, k3, k4]
  simp
  omega

/-- C8 (amended). `Ghost_TrySelfGhost` on a ghost whose minimum-ghost countdown
is positive answers `false` and changes nothing.  In `Ghost_TouchRevive` the
countdown is read after `Ghost_KeepStateAlive` has already decremented it: a
living ghost `g` whose countdown is above 1 on entry, while not every active
player is a ghost, is still a ghost afterwards, whatever players overlap it. -/
theorem C8_min_duration_blocks_revive (s : GhostState) (g : Int) :
    (s.s_isGhost g = true → s.s_ghostMinFrames g > 0 →
      Ghost_TrySelfGhost s g = (false, s)) ∧
    (Ghost_IsGhost s g = true → (s.Player g).Dead = false → s.s_ghostMinFrames g > 1 →
      (∃ j, 1 ≤ j ∧ j ≤ s.numPlayers ∧ s.s_isGhost j = false) →
      Ghost_IsGhost (Ghost_TouchRevive s) g = true) := by
  constructor
  · intro hg hm
    unfold Ghost_TrySelfGhost
    split
    · rfl
    · split
      · rfl
      · rename_i hr
        split
        · rfl
        · have hig : Ghost_IsGhost s g = true := by simp [Ghost_IsGhost, hr, hg]
          simp [hig, hm]
  · intro hig hd hm hex
    have hr : 1 ≤ g ∧ g ≤ s.numPlayers ∧ s.s_isGhost g = true := by
      unfold Ghost_IsGhost at hig
      split at hig
      · exact absurd hig (by decide)
      · rename_i hr
        exact ⟨by omega, by omega, hig⟩
    obtain ⟨h1, h2, hg⟩ := hr
    unfold Ghost_TouchRevive
    split
    · exact hig
    · rw [tick_not_all s hex]
      have hv := (foldl_view touchReviveBody (touchView g) g
        (fun st j hne => touchView_of_sameExcept (touchReviveBody_frame st j) hne)
        (playerIds s.numPlayers) { s with s_allGhostFrames := 0 } (playerIds_nodup _)).2
        ((mem_playerIds _ _).mpr ⟨h1, h2⟩)
      obtain ⟨st, hst, hfin⟩ := hv
      simp only [touchView, Prod.mk.injEq] at hst
      obtain ⟨e1, e2, e3, e4⟩ := hst
      have hbody := touchReviveBody_locked st g h1 (by rw [e1]; exact h2) (by rw [e2]; exact hg)
        (by rw [e3]; exact hd) (by rw [e4]; exact hm)
      rw [hbody] at hfin
      simp only [touchView, Prod.mk.injEq] at hfin
      obtain ⟨f1, f2, _, _⟩ := hfin
      unfold forPlayers
      simp only
      have hr2 : ¬ (g < 1 ∨
          g > (List.foldl touchReviveBody { s with s_allGhostFrames := 0 }
            (playerIds s.numPlayers)).numPlayers) := by
        rw [f1, e1]; simp; omega
      simp [Ghost_IsGhost, hr2, f2]

/-- Counterexample to C8 as stated: ghost 1 enters `Ghost_TouchRevive` alive
with countdown 1 (positive) while players 2 and 3 are not ghosts;
`Ghost_KeepStateAlive` brings the countdown to 0, the contact loop runs, and
player 2 revives the ghost in this very call. -/
theorem C8_countdown_one_is_revived :
    Ghost_IsGhost (ghostWithCountdown 1) 1 = true ∧
    ((ghostWithCountdown 1).Player 1).Dead = false ∧
    (ghostWithCountdown 1).s_ghostMinFrames 1 > 0 ∧
    (∃ j, 1 ≤ j ∧ j ≤ (ghostWithCountdown 1).numPlayers ∧
      (ghostWithCountdown 1).s_isGhost j = false) ∧
    Ghost_IsGhost (Ghost_TouchRevive (ghostWithCountdown 1)) 1 = false := by
  refine ⟨by decide, by decide, by decide, ⟨2, by decide, by decide, by decide⟩, ?_⟩
  simp [Ghost_TouchRevive, Ghost_FeatureEnabled, Ghost_AutoReviveAll_Tick, forPlayers,
    playerIds, idsFrom, countLoop, touchReviveBody, Ghost_KeepStateAlive, ghostSeek,
    findNearestAlive, nearestStep, centreDist, touchLoop, aabbOverlap, Ghost_ReviveFromGhost,
    Ghost_IsGhost, ghostWithCountdown, Ghost_MakeGhost, threeChords, initState, upd,
    chordPlayer, loc0]

/-- Witness for C8 (amended): the same ghost with countdown 2, overlapped by
players 2 and 3. -/
theorem C8_min_duration_blocks_revive_witness :
    Ghost_TrySelfGhost (ghostWithCountdown 2) 1 = (false, ghostWithCountdown 2) ∧
    Ghost_IsGhost (Ghost_TouchRevive (ghostWithCountdown 2)) 1 = true :=
  ⟨(C8_min_duration_blocks_revive (ghostWithCountdown 2) 1).1 (by decide) (by decide),
   (C8_min_duration_blocks_revive (ghostWithCountdown 2) 1).2 (by decide) (by decide)
     (by decide) ⟨2, by decide, by decide, by decide⟩⟩

/-! ## `Ghost_CheckOutOfBounds` seen from one player -/

theorem forPlayers_def (body : GhostState → Int → GhostState) (s : GhostState) :
    forPlayers body s = (playerIds s.numPlayers).foldl body s := rfl

theorem oobView_of_sameExcept {j id : Int} {a b : GhostState} (h : sameExcept j a b)
    (hne : j ≠ id) : oobView id a = oobView id b := by
  obtain ⟨h1, h2, _, h4⟩ := h
  obtain ⟨x1, x2, x3, x4, x5, x6, _⟩ := h4 id (Ne.symm hne)
  simp [oobView, h1, h2, x1, x2, x3, x4, x5, x6]

theorem noSnapBody_oobView (st : GhostState) (j id : Int) :
    oobView id (noSnapBody st j) = oobView id st := by
  unfold noSnapBody
  split
  · by_cases hj : id = j
    · subst hj; simp [oobView, upd_same]
    · simp [oobView, upd_ne, hj]
  · rfl

theorem noSnapLoop_oobView (s : GhostState) (id : Int) :
    oobView id (forPlayers noSnapBody s) = oobView id s :=
  forPlayers_inv noSnapBody (fun st => oobView id st = oobView id s) s rfl
    (fun st j _ _ h => (noSnapBody_oobView st j id).trans h)

theorem autoReviveBody_oobView (st : GhostState) (j id : Int) (hg : st.s_isGhost id = false) :
    oobView id (autoReviveBody st j) = oobView id st := by
  by_cases hj : j = id
  · subst hj
    unfold autoReviveBody
    have : Ghost_IsGhost st j = false := by
      unfold Ghost_IsGhost
      split
      · rfl
      · exact hg
    simp [this]
  · exact oobView_of_sameExcept (autoReviveBody_frame st j) hj

/-- The failsafe never touches the out-of-bounds data of a player who is not
a ghost. -/
theorem tick_oobView (s : GhostState) (id : Int) (hg : s.s_isGhost id = false) :
    oobView id (Ghost_AutoReviveAll_Tick s) = oobView id s := by
  unfold Ghost_AutoReviveAll_Tick
  split
  · rfl
  · simp only
    split
    · split
      · have h := forPlayers_inv autoReviveBody
          (fun st => oobView id st = oobView id s)
          { s with s_allGhostFrames := s.s_allGhostFrames + 1 } rfl
          (fun st j _ _ h => by
            have hgst : st.s_isGhost id = false := by
              simp only [oobView, Prod.mk.injEq] at h
              rw [h.2.2.2.2.2.2.1]; exact hg
            exact (autoReviveBody_oobView st j id hgst).trans h)
        exact h
      · rfl
    · rfl

/-- One call of `Ghost_CheckOutOfBounds`, seen from a player who is not a ghost
on entry: either the player's out-of-bounds data are untouched (feature gate, or
`id` not an active player), or they are what the loop body for `id` makes of a
state with the entry data. -/
theorem checkOOB_view (s : GhostState) (id : Int) (hg : s.s_isGhost id = false) :
    ((s.numPlayers = 2 ∨ id < 1 ∨ id > s.numPlayers) →
      oobView id (Ghost_CheckOutOfBounds s) = oobView id s) ∧
    (s.numPlayers ≠ 2 → 1 ≤ id → id ≤ s.numPlayers →
      ∃ st, oobView id st = oobView id s ∧
        oobView id (Ghost_CheckOutOfBounds s) = oobView id (oobBody st id)) := by
  have hpre : oobView id (Ghost_AutoReviveAll_Tick (forPlayers noSnapBody s)) = oobView id s := by
    have h1 := noSnapLoop_oobView s id
    have hg1 : (forPlayers noSnapBody s).s_isGhost id = false := by
      simp only [oobView, Prod.mk.injEq] at h1
      rw [h1.2.2.2.2.2.2.1]; exact hg
    exact (tick_oobView _ id hg1).trans h1
  have hn : (Ghost_AutoReviveAll_Tick (forPlayers noSnapBody s)).numPlayers = s.numPlayers := by
    simp only [oobView, Prod.mk.injEq] at hpre
    exact hpre.1
  have hv := foldl_view oobBody (oobView id) id
    (fun st j hne => oobView_of_sameExcept (oobBody_frame st j) hne)
    (playerIds s.numPlayers) (Ghost_AutoReviveAll_Tick (forPlayers noSnapBody s))
    (playerIds_nodup _)
  constructor
  · intro hcase
    unfold Ghost_CheckOutOfBounds
    split
    · rfl
    · rw [forPlayers_def oobBody, hn]
      rcases hcase with h2 | hout
      · rename_i hen
        simp [Ghost_FeatureEnabled, h2] at hen
      · rw [hv.1 (fun hmem => by
          have := (mem_playerIds _ _).mp hmem
          omega)]
        exact hpre
  · intro h2 h1 hle
    obtain ⟨st, hst, hfin⟩ := hv.2 ((mem_playerIds _ _).mpr ⟨h1, hle⟩)
    refine ⟨st, hst.trans hpre, ?_⟩
    unfold Ghost_CheckOutOfBounds
    have hen : Ghost_FeatureEnabled s = true := by simp [Ghost_FeatureEnabled, h2]
    simp only [hen, Bool.true_eq_false, if_false]
    rw [forPlayers_def oobBody, hn]
    exact hfin

/-! ## The loop body of `Ghost_CheckOutOfBounds` -/

theorem oobInside_congr {id : Int} {a b : GhostState} (h : oobView id a = oobView id b) :
    oobInside a id = oobInside b id ∧ oobStep a id = oobStep b id ∧
    oobCx a id = oobCx b id := by
  simp only [oobView, Prod.mk.injEq] at h
  obtain ⟨_, _, h3, h4, h5, h6, _⟩ := h
  simp only [oobInside, oobStep, oobCx, oobCy, oobL, oobR, oobT, oobB, h3, h4, h5, h6]
  simp

/-- During revive grace the body only counts the grace down and clears the
counter. -/
theorem oobBody_grace (st : GhostState) (id : Int) (hgr : st.s_reviveGrace id > 0) :
    (oobBody st id).s_isGhost id = st.s_isGhost id ∧
    (oobBody st id).s_oobFrames id = 0 ∧
    (oobBody st id).s_reviveGrace id = st.s_reviveGrace id - 1 := by
  unfold oobBody
  simp [hgr, upd_same]

/-- For a living, visible, non-ghost player out of grace whose centre is
outside the padded viewport, the body adds the step to the counter; at the
threshold the player becomes a ghost and the counter restarts. -/
theorem oobBody_outside (st : GhostState) (id : Int)
    (h1 : 1 ≤ id) (hle : id ≤ st.numPlayers)
    (hgr : st.s_reviveGrace id = 0) (hd : (st.Player id).Dead = false)
    (hg : st.s_isGhost id = false) (hv : (st.vScreenByPlayer id).Visible = true)
    (hin : oobInside st id = false) :
    (oobBody st id).numPlayers = st.numPlayers ∧
    (oobBody st id).s_reviveGrace id = 0 ∧
    (st.s_oobFrames id + oobStep st id < kOOBFrames →
      (oobBody st id).s_isGhost id = false ∧
      (oobBody st id).s_oobFrames id = st.s_oobFrames id + oobStep st id) ∧
    (st.s_oobFrames id + oobStep st id ≥ kOOBFrames →
      (oobBody st id).s_isGhost id = true ∧ (oobBody st id).s_oobFrames id = 0) := by
  have hr : ¬ (id < 1 ∨ id > st.numPlayers) := by omega
  unfold oobBody
  simp only [hgr, gt_iff_lt, lt_self_iff_false, if_false, hd, Bool.false_eq_true, hg, hv,
    Bool.true_eq_false, hin, upd_same]
  by_cases hth : st.s_oobFrames id + oobStep st id ≥ kOOBFrames
  · simp only [hth, if_true]
    refine ⟨?_, ?_, ?_, ?_⟩
    · simp [Ghost_MakeGhost, hr, hg, hd]
    · simp [Ghost_MakeGhost, hr, hg, hd, hgr]
    · intro hlt; omega
    · intro _
      simp [Ghost_MakeGhost, hr, hg, hd, upd_same]
  · have hlt : st.s_oobFrames id + oobStep st id < kOOBFrames := by omega
    simp [hth, hlt, hgr, hg, upd_same]

/-- One call of `Ghost_CheckOutOfBounds` for an active, living, visible,
non-ghost player out of grace whose centre is outside the padded viewport. -/
theorem checkOOB_outside (s : GhostState) (id : Int)
    (h2 : s.numPlayers ≠ 2) (h1 : 1 ≤ id) (hle : id ≤ s.numPlayers)
    (hgr : s.s_reviveGrace id = 0) (hd : (s.Player id).Dead = false)
    (hg : s.s_isGhost id = false) (hv : (s.vScreenByPlayer id).Visible = true)
    (hin : oobInside s id = false) :
    (Ghost_CheckOutOfBounds s).numPlayers = s.numPlayers ∧
    (Ghost_CheckOutOfBounds s).s_reviveGrace id = 0 ∧
    (s.s_oobFrames id + oobStep s id < kOOBFrames →
      (Ghost_CheckOutOfBounds s).s_isGhost id = false ∧
      (Ghost_CheckOutOfBounds s).s_oobFrames id = s.s_oobFrames id + oobStep s id) ∧
    (s.s_oobFrames id + oobStep s id ≥ kOOBFrames →
      (Ghost_CheckOutOfBounds s).s_isGhost id = true ∧
      (Ghost_CheckOutOfBounds s).s_oobFrames id = 0) := by
  obtain ⟨st, hst, hfin⟩ := (checkOOB_view s id hg).2 h2 h1 hle
  obtain ⟨ci, cs, _⟩ := oobInside_congr hst
  simp only [oobView, Prod.mk.injEq] at hst hfin
  obtain ⟨e1, e2, _, e4, _, _, e7, e8, e9⟩ := hst
  obtain ⟨f1, _, _, _, _, _, f7, f8, f9⟩ := hfin
  have hb := oobBody_outside st id h1 (by rw [e1]; exact hle) (by rw [e9]; exact hgr)
    (by rw [e2]; exact hd) (by rw [e7]; exact hg) (by rw [e4]; exact hv)
    (by rw [ci]; exact hin)
  rw [f1, f7, f8, f9, ← e1, ← e8, ← cs]
  exact hb

/-! ## C6: camera-trailing step -/

/-- C6 (amended). For an active, living, visible, non-ghost player out of grace,
with the camera moving right and the player's centre left of `Left - kOOBPadX`,
one call of `Ghost_CheckOutOfBounds` advances the OOB counter by
`FAST_STEP_MULT`: below the threshold `kOOBFrames` the counter is its old value
plus 12 and the player is no ghost; at or above it the player becomes a ghost
and the counter restarts at 0. -/
theorem C6_trailing_step (s : GhostState) (id : Int)
    (h2 : s.numPlayers ≠ 2) (h1 : 1 ≤ id) (hle : id ≤ s.numPlayers)
    (hd : (s.Player id).Dead = false) (hg : s.s_isGhost id = false)
    (hgr : s.s_reviveGrace id = 0) (hv : (s.vScreenByPlayer id).Visible = true)
    (hcam : (s.vScreenByPlayer id).Left > s.s_prevLeft id)
    (hcx : oobCx s id < (s.vScreenByPlayer id).Left - kOOBPadX) :
    oobStep s id = FAST_STEP_MULT ∧
    (s.s_oobFrames id + FAST_STEP_MULT < kOOBFrames →
      (Ghost_CheckOutOfBounds s).s_oobFrames id = s.s_oobFrames id + FAST_STEP_MULT ∧
      Ghost_IsGhost (Ghost_CheckOutOfBounds s) id = false) ∧
    (s.s_oobFrames id + FAST_STEP_MULT ≥ kOOBFrames →
      (Ghost_CheckOutOfBounds s).s_oobFrames id = 0 ∧
      Ghost_IsGhost (Ghost_CheckOutOfBounds s) id = true) := by
  have hstep : oobStep s id = FAST_STEP_MULT := by
    have hdx : (s.vScreenByPlayer id).Left - s.s_prevLeft id > 0 := by omega
    have hl : oobCx s id < oobL s id := hcx
    simp [oobStep, hdx, hl]
  have hin : oobInside s id = false := by
    have hl : ¬ (oobCx s id ≥ oobL s id) := by
      have : oobCx s id < oobL s id := hcx
      omega
    simp [oobInside, hl]
  obtain ⟨hn, _, hlt, hge⟩ := checkOOB_outside s id h2 h1 hle hgr hd hg hv hin
  rw [hstep] at hlt hge
  refine ⟨hstep, ?_, ?_⟩
  · intro h
    obtain ⟨a, b⟩ := hlt h
    exact ⟨b, by simp [Ghost_IsGhost, a]⟩
  · intro h
    obtain ⟨a, b⟩ := hge h
    have hr : ¬ (id < 1 ∨ id > (Ghost_CheckOutOfBounds s).numPlayers) := by
      rw [hn]; omega
    exact ⟨b, by simp [Ghost_IsGhost, hr, a]⟩

/-- Counterexample to C6 as stated: the trailing player enters with OOB counter
4; the call adds 12, reaches the threshold 16, ghosts the player and resets
the counter, which is then 0 and not 4 + 12. -/
theorem C6_counter_resets_at_threshold :
    (trailingAt 4).numPlayers ≠ 2 ∧
    ((trailingAt 4).Player 1).Dead = false ∧ (trailingAt 4).s_isGhost 1 = false ∧
    (trailingAt 4).s_reviveGrace 1 = 0 ∧ ((trailingAt 4).vScreenByPlayer 1).Visible = true ∧
    ((trailingAt 4).vScreenByPlayer 1).Left > (trailingAt 4).s_prevLeft 1 ∧
    oobCx (trailingAt 4) 1 < ((trailingAt 4).vScreenByPlayer 1).Left - kOOBPadX ∧
    (Ghost_CheckOutOfBounds (trailingAt 4)).s_oobFrames 1 = 0 ∧
    (Ghost_CheckOutOfBounds (trailingAt 4)).s_oobFrames 1 ≠
      (trailingAt 4).s_oobFrames 1 + FAST_STEP_MULT := by
  decide

/-- Witness for C6 (amended): the trailing player with counter 0 (12 after the
call) and with counter 4 (ghosted, counter 0). -/
theorem C6_trailing_step_witness :
    ((Ghost_CheckOutOfBounds (trailingAt 0)).s_oobFrames 1 =
        (trailingAt 0).s_oobFrames 1 + FAST_STEP_MULT ∧
      Ghost_IsGhost (Ghost_CheckOutOfBounds (trailingAt 0)) 1 = false) ∧
    ((Ghost_CheckOutOfBounds (trailingAt 4)).s_oobFrames 1 = 0 ∧
      Ghost_IsGhost (Ghost_CheckOutOfBounds (trailingAt 4)) 1 = true) :=
  ⟨(C6_trailing_step (trailingAt 0) 1 (by decide) (by decide) (by decide) (by decide)
      (by decide) (by decide) (by decide) (by decide) (by decide)).2.1 (by decide),
   (C6_trailing_step (trailingAt 4) 1 (by decide) (by decide) (by decide) (by decide)
      (by decide) (by decide) (by decide) (by decide) (by decide)).2.2 (by decide)⟩

/-! ## C5: out-of-bounds threshold -/

/-- C5. Let `t 0, t 1, ...` be the states on entry to consecutive calls of
`Ghost_CheckOutOfBounds` (the engine may move players and cameras between
calls; the ghost flag, OOB counter and revive grace of `id` are as the previous
call left them).  If `id` starts a non-ghost with grace 0 and counter 0 and on
each of the `kOOBFrames` = 16 calls is an active, living, visible player whose
centre is outside the padded viewport with step size 1 (and `numPlayers ≠ 2`),
then `id` is no ghost after each of the first 15 calls, and after the 16th it
is a ghost and its counter is 0. -/
theorem C5_oob_threshold (t : Nat → GhostState) (id : Int)
    (h0 : (t 0).s_isGhost id = false ∧ (t 0).s_reviveGrace id = 0 ∧ (t 0).s_oobFrames id = 0)
    (hcall : ∀ k : Nat, (k : Int) < kOOBFrames →
      (t k).numPlayers ≠ 2 ∧ 1 ≤ id ∧ id ≤ (t k).numPlayers ∧
      ((t k).Player id).Dead = false ∧ ((t k).vScreenByPlayer id).Visible = true ∧
      oobInside (t k) id = false ∧ oobStep (t k) id = 1)
    (hlink : ∀ k : Nat, (k : Int) + 1 < kOOBFrames →
      (t (k + 1)).s_isGhost id = (Ghost_CheckOutOfBounds (t k)).s_isGhost id ∧
      (t (k + 1)).s_oobFrames id = (Ghost_CheckOutOfBounds (t k)).s_oobFrames id ∧
      (t (k + 1)).s_reviveGrace id = (Ghost_CheckOutOfBounds (t k)).s_reviveGrace id) :
    (∀ k : Nat, (k : Int) + 1 < kOOBFrames →
      Ghost_IsGhost (Ghost_CheckOutOfBounds (t k)) id = false) ∧
    Ghost_IsGhost (Ghost_CheckOutOfBounds (t 15)) id = true ∧
    (Ghost_CheckOutOfBounds (t 15)).s_oobFrames id = 0 := by
  have hinv : ∀ k : Nat, (k : Int) < kOOBFrames →
      (t k).s_isGhost id = false ∧ (t k).s_reviveGrace id = 0 ∧ (t k).s_oobFrames id = k := by
    intro k
    induction k with
    | zero => intro _; simpa using h0
    | succ k ih =>
      intro hk
      have hk1 : (k : Int) + 1 < kOOBFrames := by push_cast at hk; exact hk
      obtain ⟨ig, igr, ioob⟩ := ih (by omega)
      obtain ⟨c2, c1, cle, cd, cv, cin, cstep⟩ := hcall k (by omega)
      obtain ⟨_, hgr, hlt, _⟩ := checkOOB_outside (t k) id c2 c1 cle igr cd ig cv cin
      obtain ⟨l1, l2, l3⟩ := hlink k hk1
      rw [cstep, ioob] at hlt
      obtain ⟨a, b⟩ := hlt hk1
      rw [l1, l2, l3, a, b, hgr]
      simp
  refine ⟨?_, ?_⟩
  · intro k hk
    obtain ⟨ig, igr, ioob⟩ := hinv k (by omega)
    obtain ⟨c2, c1, cle, cd, cv, cin, cstep⟩ := hcall k (by omega)
    obtain ⟨_, _, hlt, _⟩ := checkOOB_outside (t k) id c2 c1 cle igr cd ig cv cin
    rw [cstep, ioob] at hlt
    simp [Ghost_IsGhost, (hlt hk).1]
  · have h15 : ((15 : Nat) : Int) < kOOBFrames := by decide
    obtain ⟨ig, igr, ioob⟩ := hinv 15 h15
    obtain ⟨c2, c1, cle, cd, cv, cin, cstep⟩ := hcall 15 h15
    obtain ⟨hn, _, _, hge⟩ := checkOOB_outside (t 15) id c2 c1 cle igr cd ig cv cin
    rw [cstep, ioob] at hge
    obtain ⟨a, b⟩ := hge (by decide)
    have hr : ¬ (id < 1 ∨ id > (Ghost_CheckOutOfBounds (t 15)).numPlayers) := by
      rw [hn]; omega
    exact ⟨by simp [Ghost_IsGhost, hr, a], b⟩

/-- Witness for C5: player 1 of `farLeft` stays at x = -100 under a camera at
rest; `oobTrace k` is the state on entry to call `k`.  Calls 15 and 16. -/
theorem C5_oob_threshold_witness :
    Ghost_IsGhost (Ghost_CheckOutOfBounds (oobTrace 14)) 1 = false ∧
    Ghost_IsGhost (Ghost_CheckOutOfBounds (oobTrace 15)) 1 = true ∧
    (Ghost_CheckOutOfBounds (oobTrace 15)).s_oobFrames 1 = 0 :=
  have h := C5_oob_threshold oobTrace 1 (by decide)
    (fun k _ =>
      ⟨show farLeft.numPlayers ≠ 2 by decide, by decide,
       show (1 : Int) ≤ farLeft.numPlayers by decide,
       show (farLeft.Player 1).Dead = false by decide,
       show (farLeft.vScreenByPlayer 1).Visible = true by decide,
       show oobInside farLeft 1 = false by decide,
       show oobStep farLeft 1 = 1 by decide⟩)
    (fun k hk => by
      have hk15 : k < 15 := by
        unfold kOOBFrames at hk
        omega
      interval_cases k <;> decide)
  ⟨h.1 14 (by decide), h.2⟩

/-! ## C7: revive grace -/

/-- One call of `Ghost_CheckOutOfBounds` for a non-ghost player in revive
grace, whatever the roster size, position and viewport: the player stays a
non-ghost, the grace drops by at most 1, and the OOB counter is kept or
cleared. -/
theorem checkOOB_in_grace (s : GhostState) (id : Int)
    (hg : s.s_isGhost id = false) (hgr : s.s_reviveGrace id > 0) :
    (Ghost_CheckOutOfBounds s).s_isGhost id = false ∧
    (Ghost_CheckOutOfBounds s).s_reviveGrace id ≥ s.s_reviveGrace id - 1 ∧
    ((Ghost_CheckOutOfBounds s).s_oobFrames id = 0 ∨
      (Ghost_CheckOutOfBounds s).s_oobFrames id = s.s_oobFrames id) := by
  obtain ⟨hsame, hbody⟩ := checkOOB_view s id hg
  by_cases hc : s.numPlayers = 2 ∨ id < 1 ∨ id > s.numPlayers
  · have h := hsame hc
    simp only [oobView, Prod.mk.injEq] at h
    obtain ⟨_, _, _, _, _, _, f7, f8, f9⟩ := h
    rw [f7, f8, f9]
    exact ⟨hg, by omega, Or.inr rfl⟩
  · obtain ⟨st, hst, hfin⟩ := hbody (by omega) (by omega) (by omega)
    simp only [oobView, Prod.mk.injEq] at hst hfin
    obtain ⟨_, _, _, _, _, _, e7, e8, e9⟩ := hst
    obtain ⟨_, _, _, _, _, _, f7, f8, f9⟩ := hfin
    obtain ⟨b1, b2, b3⟩ := oobBody_grace st id (by rw [e9]; exact hgr)
    rw [f7, f8, f9, b1, b2, b3, e7, e9]
    exact ⟨hg, by omega, Or.inl rfl⟩

/-- C7. Let `id` be a ghost that `Ghost_ReviveFromGhost s id tch` revives, and
let `t 0, t 1, ...` be the states on entry to the following calls of
`Ghost_CheckOutOfBounds`: anything may differ between calls (positions,
viewports, `numPlayers`) as long as the ghost flag, revive grace and OOB
counter of `id` are as the revive, respectively the previous call, left them.
Then none of the first `kReviveGraceFrames` = 20 calls makes `id` a ghost, and
each leaves the OOB counter of `id` unchanged or at 0; with a counter that was
not negative at the revive, no call increases it. -/
theorem C7_revive_grace (s : GhostState) (id tch : Int) (t : Nat → GhostState)
    (hghost : Ghost_IsGhost s id = true)
    (h0 : (t 0).s_isGhost id = (Ghost_ReviveFromGhost s id tch).s_isGhost id ∧
      (t 0).s_reviveGrace id = (Ghost_ReviveFromGhost s id tch).s_reviveGrace id ∧
      (t 0).s_oobFrames id = (Ghost_ReviveFromGhost s id tch).s_oobFrames id)
    (hlink : ∀ k : Nat, (k : Int) + 1 < kReviveGraceFrames →
      (t (k + 1)).s_isGhost id = (Ghost_CheckOutOfBounds (t k)).s_isGhost id ∧
      (t (k + 1)).s_reviveGrace id = (Ghost_CheckOutOfBounds (t k)).s_reviveGrace id ∧
      (t (k + 1)).s_oobFrames id = (Ghost_CheckOutOfBounds (t k)).s_oobFrames id) :
    ∀ k : Nat, (k : Int) < kReviveGraceFrames →
      (Ghost_CheckOutOfBounds (t k)).s_isGhost id = false ∧
      Ghost_IsGhost (Ghost_CheckOutOfBounds (t k)) id = false ∧
      ((Ghost_CheckOutOfBounds (t k)).s_oobFrames id = 0 ∨
        (Ghost_CheckOutOfBounds (t k)).s_oobFrames id = (t k).s_oobFrames id) ∧
      (0 ≤ s.s_oobFrames id →
        (Ghost_CheckOutOfBounds (t k)).s_oobFrames id ≤ (t k).s_oobFrames id) := by
  have hrev : (Ghost_ReviveFromGhost s id tch).s_isGhost id = false ∧
      (Ghost_ReviveFromGhost s id tch).s_reviveGrace id = kReviveGraceFrames ∧
      (Ghost_ReviveFromGhost s id tch).s_oobFrames id = s.s_oobFrames id := by
    unfold Ghost_IsGhost at hghost
    split at hghost
    · exact absurd hghost (by decide)
    · rename_i hr
      simp [Ghost_ReviveFromGhost, hr, hghost, upd_same]
  have hinv : ∀ k : Nat, (k : Int) < kReviveGraceFrames →
      (t k).s_isGhost id = false ∧ (t k).s_reviveGrace id ≥ kReviveGraceFrames - k ∧
      (0 ≤ s.s_oobFrames id → 0 ≤ (t k).s_oobFrames id) := by
    intro k
    induction k with
    | zero =>
      intro _
      obtain ⟨a, b, c⟩ := h0
      rw [a, b, c, hrev.1, hrev.2.1, hrev.2.2]
      simp
    | succ k ih =>
      intro hk
      have hk1 : (k : Int) + 1 < kReviveGraceFrames := by push_cast at hk; exact hk
      obtain ⟨ig, igr, ioob⟩ := ih (by omega)
      obtain ⟨c1, c2, c3⟩ := checkOOB_in_grace (t k) id ig (by omega)
      obtain ⟨l1, l2, l3⟩ := hlink k hk1
      rw [l1, l2, l3]
      refine ⟨c1, by push_cast; omega, ?_⟩
      intro hnn
      have := ioob hnn
      rcases c3 with c3 | c3
      · rw [c3]
      · rw [c3]; exact this
  intro k hk
  obtain ⟨ig, igr, ioob⟩ := hinv k hk
  obtain ⟨c1, _, c3⟩ := checkOOB_in_grace (t k) id ig (by omega)
  refine ⟨c1, by simp [Ghost_IsGhost, c1], c3, ?_⟩
  intro hnn
  have := ioob hnn
  rcases c3 with c3 | c3
  · rw [c3]; exact this
  · rw [c3]

/-- Witness for C7: player 1 of `farLeft` is ghosted, revived in place, and
stays out of view; the 20th call of `Ghost_CheckOutOfBounds` after the revive. -/
theorem C7_revive_grace_witness :
    (Ghost_CheckOutOfBounds (Ghost_CheckOutOfBounds^[19] justRevived)).s_isGhost 1 = false ∧
    (Ghost_CheckOutOfBounds (Ghost_CheckOutOfBounds^[19] justRevived)).s_oobFrames 1 ≤
      (Ghost_CheckOutOfBounds^[19] justRevived).s_oobFrames 1 :=
  have h := C7_revive_grace (Ghost_MakeGhost farLeft 1) 1 0
    (fun k => Ghost_CheckOutOfBounds^[k] justRevived) (by decide) ⟨rfl, rfl, rfl⟩
    (fun k _ => by
      have e : Ghost_CheckOutOfBounds^[k + 1] justRevived =
          Ghost_CheckOutOfBounds (Ghost_CheckOutOfBounds^[k] justRevived) :=
        Function.iterate_succ_apply' _ _ _
      exact ⟨congrArg (fun st => st.s_isGhost 1) e,
        congrArg (fun st => st.s_reviveGrace 1) e,
        congrArg (fun st => st.s_oobFrames 1) e⟩) 19 (by decide)
  ⟨h.1, h.2.2.2 (by decide)⟩

/-! ## C4: the all-ghosts failsafe -/

theorem findNearestAlive_none (s : GhostState) (self : Int)
    (h : ∀ i, 1 ≤ i → i ≤ s.numPlayers → i ≠ self → aliveNotGhost s i = false) :
    findNearestAlive s self = 0 := by
  have hinv := nearestFold_inv s self (playerIds s.numPlayers) [] (0, 0)
    (by simpa using playerIds_sorted s.numPlayers)
    (fun i hi => (mem_playerIds _ _).mp hi)
    ⟨fun _ i hi => absurd hi (List.not_mem_nil i), fun h => absurd rfl h⟩
  simp only [List.nil_append] at hinv
  by_contra hne
  have hne2 : ((playerIds s.numPlayers).foldl (nearestStep s self) (0, 0)).1 ≠ 0 := hne
  obtain ⟨hm, hs, hc, _, _⟩ := hinv.2 hne2
  have hm2 := (mem_playerIds _ _).mp hm
  rw [h _ hm2.1 hm2.2 hs] at hc
  exact absurd hc (by decide)

theorem touchLoop_none (s : GhostState) (g : Int) :
    ∀ l : List Int, (∀ a ∈ l, a ≠ g → s.s_isGhost a = true) → touchLoop s g l = s := by
  intro l
  induction l with
  | nil => intro _; rfl
  | cons a l ih =>
    intro h
    have hrest := ih (fun b hb => h b (List.mem_cons_of_mem a hb))
    unfold touchLoop
    by_cases hag : a = g
    · simp [hag, hrest]
    · have := h a (List.mem_cons_self a l) hag
      simp [hag, this, hrest]

/-- A loop body that writes slot `j` only and keeps player `j` a living ghost
keeps `AllGhosts`. -/
theorem allGhosts_step {n c : Int} {st st2 : GhostState} {j : Int}
    (hJ : AllGhosts n c st) (hf : sameExcept j st2 st)
    (hown : st2.s_isGhost j = true ∧ (st2.Player j).Dead = false) : AllGhosts n c st2 := by
  obtain ⟨f1, _, f3, f4⟩ := hf
  obtain ⟨j1, j2, j3⟩ := hJ
  refine ⟨f1.trans j1, f3.trans j2, ?_⟩
  intro i h1 h2
  by_cases hij : i = j
  · subst hij; exact hown
  · obtain ⟨x1, _, _, x4, _⟩ := f4 i hij
    rw [x1, x4]
    exact j3 i h1 h2

theorem noSnapBody_allGhosts {n c : Int} {st : GhostState} (j : Int) (h1 : 1 ≤ j) (h2 : j ≤ n)
    (hJ : AllGhosts n c st) : AllGhosts n c (noSnapBody st j) := by
  apply allGhosts_step hJ (noSnapBody_frame st j)
  obtain ⟨hg, hd⟩ := hJ.2.2 j h1 h2
  unfold noSnapBody
  split
  · simp [upd_same, hg, hd]
  · exact ⟨hg, hd⟩

theorem oobBody_allGhosts {n c : Int} {st : GhostState} (j : Int) (h1 : 1 ≤ j) (h2 : j ≤ n)
    (hJ : AllGhosts n c st) : AllGhosts n c (oobBody st j) := by
  apply allGhosts_step hJ (oobBody_frame st j)
  obtain ⟨hg, hd⟩ := hJ.2.2 j h1 h2
  unfold oobBody
  split
  · simp [hg, hd]
  · simp [hg, hd]

theorem cooldownBody_allGhosts {n c : Int} {st : GhostState} (j : Int) (h1 : 1 ≤ j)
    (h2 : j ≤ n) (hJ : AllGhosts n c st) : AllGhosts n c (cooldownBody st j) := by
  apply allGhosts_step hJ (cooldownBody_sameExcept st j)
  obtain ⟨hg, hd⟩ := hJ.2.2 j h1 h2
  unfold cooldownBody
  split
  · simp [hg, hd]
  · exact ⟨hg, hd⟩

theorem selfGhostBody_allGhosts {n c : Int} {st : GhostState} (k : Int) (j : Int) (h1 : 1 ≤ j)
    (h2 : j ≤ n) (hJ : AllGhosts n c st) : AllGhosts n c (selfGhostBody k st j) := by
  apply allGhosts_step hJ (selfGhostBody_frame k st j)
  obtain ⟨hg, hd⟩ := hJ.2.2 j h1 h2
  unfold selfGhostBody
  simp [hg, hd]

theorem touchReviveBody_allGhosts {n c : Int} {st : GhostState} (j : Int) (h1 : 1 ≤ j)
    (h2 : j ≤ n) (hJ : AllGhosts n c st) : AllGhosts n c (touchReviveBody st j) := by
  apply allGhosts_step hJ (touchReviveBody_frame st j)
  obtain ⟨hg, hd⟩ := hJ.2.2 j h1 h2
  have hr : ¬ (j < 1 ∨ j > st.numPlayers) := by rw [hJ.1]; omega
  -- enforcement keeps every ghost flag and death flag
  have hk : (Ghost_KeepStateAlive st j).s_isGhost = st.s_isGhost ∧
      (Ghost_KeepStateAlive st j).numPlayers = st.numPlayers ∧
      ∀ i, ((Ghost_KeepStateAlive st j).Player i).Dead = (st.Player i).Dead := by
    unfold Ghost_KeepStateAlive
    simp only [hr, hg, if_false, Bool.true_eq_false]
    refine ⟨by trivial, by trivial, ?_⟩
    intro i
    by_cases hij : i = j
    · subst hij; simp [upd_same]
    · simp [upd_ne, hij]
  obtain ⟨k1, k2, k3⟩ := hk
  -- nobody to seek
  have hseek : ghostSeek (Ghost_KeepStateAlive st j) j = Ghost_KeepStateAlive st j := by
    have h0 : findNearestAlive (Ghost_KeepStateAlive st j) j = 0 := by
      apply findNearestAlive_none
      intro i hi1 hi2 _
      rw [k2, hJ.1] at hi2
      simp [aliveNotGhost, k1, (hJ.2.2 i hi1 hi2).1]
    unfold ghostSeek
    simp [h0]
  unfold touchReviveBody
  simp only [hg, hd, Bool.true_eq_false, Bool.false_eq_true, if_false, hseek]
  split
  · simp only [k1, hg, k3, hd, and_self]
  · rw [touchLoop_none]
    · simp only [k1, hg, k3, hd, and_self]
    · intro a ha _
      rw [k2, hJ.1] at ha
      have := (mem_playerIds _ _).mp ha
      rw [k1]
      exact (hJ.2.2 a this.1 this.2).1

theorem countLoop_all (p : Int → Bool) (n : Int) (hn : 0 ≤ n)
    (h : ∀ i, 1 ≤ i → i ≤ n → p i = true) : countLoop p (playerIds n) = n := by
  rw [countLoop_eq_countP]
  have hlen := length_playerIds n
  have hall : (playerIds n).countP p = (playerIds n).length := by
    rw [List.countP_eq_length]
    intro a ha
    have := (mem_playerIds n a).mp ha
    exact h a this.1 this.2
  rw [hall, hlen]
  omega

theorem allGhosts_count {n c : Int} {s : GhostState} (hn : 1 ≤ n) (hJ : AllGhosts n c s) :
    countLoop (Ghost_IsGhost s) (playerIds s.numPlayers) = s.numPlayers := by
  apply countLoop_all _ _ (by rw [hJ.1]; omega)
  intro i h1 h2
  have hr : ¬ (i < 1 ∨ i > s.numPlayers) := by omega
  rw [hJ.1] at h2
  simp [Ghost_IsGhost, hr, (hJ.2.2 i h1 h2).1]

/-- With every active player a ghost and the counter below the threshold
after its increment, the failsafe only increments the counter. -/
theorem tick_allGhosts_wait {n c : Int} {s : GhostState} (hn : 1 ≤ n) (hJ : AllGhosts n c s)
    (hc : c + 1 < kAllGhostAutoReviveFrames) :
    AllGhosts n (c + 1) (Ghost_AutoReviveAll_Tick s) := by
  have hcount := allGhosts_count hn hJ
  obtain ⟨j1, j2, j3⟩ := hJ
  unfold Ghost_AutoReviveAll_Tick
  have hpos : ¬ s.numPlayers ≤ 0 := by omega
  have hp : s.numPlayers > 0 := by omega
  have hnf : ¬ s.s_allGhostFrames + 1 ≥ kAllGhostAutoReviveFrames := by omega
  simp only [hpos, if_false, hcount, hp, and_self, if_true, hnf]
  exact ⟨j1, by simp [j2], j3⟩

/-- With every active player a ghost and the counter reaching the threshold,
the failsafe revives every ghost in place and clears the counter. -/
theorem tick_allGhosts_fire {n c : Int} {s : GhostState} (hn : 1 ≤ n) (hJ : AllGhosts n c s)
    (hc : c + 1 ≥ kAllGhostAutoReviveFrames) :
    (Ghost_AutoReviveAll_Tick s).numPlayers = n ∧
    (Ghost_AutoReviveAll_Tick s).s_allGhostFrames = 0 ∧
    ∀ i, 1 ≤ i → i ≤ n → (Ghost_AutoReviveAll_Tick s).s_isGhost i = false := by
  have hcount := allGhosts_count hn hJ
  obtain ⟨j1, j2, j3⟩ := hJ
  unfold Ghost_AutoReviveAll_Tick
  have hpos : ¬ s.numPlayers ≤ 0 := by omega
  have hp : s.numPlayers > 0 := by omega
  have hf : s.s_allGhostFrames + 1 ≥ kAllGhostAutoReviveFrames := by omega
  simp only [hpos, if_false, hcount, hp, and_self, if_true, hf]
  have hnum : (forPlayers autoReviveBody
      { s with s_allGhostFrames := s.s_allGhostFrames + 1 }).numPlayers = s.numPlayers :=
    forPlayers_inv autoReviveBody (fun st => st.numPlayers = s.numPlayers) _ rfl
      (fun st j _ _ h => (autoReviveBody_frame st j).1.trans h)
  refine ⟨hnum.trans j1, by trivial, ?_⟩
  intro i h1 h2
  have hv := (foldl_view autoReviveBody (fun st => (st.numPlayers, st.s_isGhost i)) i
    (fun st j hne => by
      obtain ⟨f1, _, _, f4⟩ := autoReviveBody_frame st j
      simp only [f1, (f4 i (Ne.symm hne)).2.2.2.1])
    (playerIds s.numPlayers) { s with s_allGhostFrames := s.s_allGhostFrames + 1 }
    (playerIds_nodup _)).2 ((mem_playerIds _ _).mpr ⟨h1, by omega⟩)
  obtain ⟨st, hst, hfin⟩ := hv
  simp only [Prod.mk.injEq] at hst hfin
  rw [forPlayers_def]
  simp only
  rw [hfin.2]
  have hr : ¬ (i < 1 ∨ i > st.numPlayers) := by rw [hst.1]; omega
  unfold autoReviveBody
  by_cases hgi : st.s_isGhost i = true
  · simp [Ghost_IsGhost, hr, hgi, Ghost_ReviveFromGhost, upd_same]
  · simp only [Bool.not_eq_true] at hgi
    simp [Ghost_IsGhost, hr, hgi]

theorem isGhost_in_range (s : GhostState) (i : Int) (h1 : 1 ≤ i) (h2 : i ≤ s.numPlayers) :
    Ghost_IsGhost s i = s.s_isGhost i := by
  have hr : ¬ (i < 1 ∨ i > s.numPlayers) := by omega
  simp [Ghost_IsGhost, hr]

theorem isGhost_false_of_flag (s : GhostState) (i : Int) (h : s.s_isGhost i = false) :
    Ghost_IsGhost s i = false := by
  simp [Ghost_IsGhost, h]

theorem forPlayers_allGhosts {n c : Int} {s : GhostState}
    (body : GhostState → Int → GhostState)
    (hb : ∀ st j, 1 ≤ j → j ≤ n → AllGhosts n c st → AllGhosts n c (body st j))
    (hJ : AllGhosts n c s) : AllGhosts n c (forPlayers body s) :=
  forPlayers_inv body (AllGhosts n c) s hJ
    (fun st j h1 h2 h => hb st j h1 (by rw [← hJ.1]; exact h2) h)

theorem checkOOB_allGhosts {n c : Int} {s : GhostState} (hn : 1 ≤ n) (h2 : n ≠ 2)
    (hJ : AllGhosts n c s) (hc : c + 1 < kAllGhostAutoReviveFrames) :
    AllGhosts n (c + 1) (Ghost_CheckOutOfBounds s) := by
  have hen : Ghost_FeatureEnabled s = true := by simp [Ghost_FeatureEnabled, hJ.1, h2]
  unfold Ghost_CheckOutOfBounds
  simp only [hen, Bool.true_eq_false, if_false]
  apply forPlayers_allGhosts oobBody (fun st j a b h => oobBody_allGhosts j a b h)
  apply tick_allGhosts_wait hn _ hc
  exact forPlayers_allGhosts noSnapBody (fun st j a b h => noSnapBody_allGhosts j a b h) hJ

theorem selfGhost_allGhosts {n c : Int} {s : GhostState} (hJ : AllGhosts n c s) :
    AllGhosts n c (Ghost_SelfGhostByButtons s) := by
  unfold Ghost_SelfGhostByButtons
  split
  · exact hJ
  · simp only
    apply forPlayers_allGhosts _ (fun st j a b h => selfGhostBody_allGhosts _ j a b h)
    exact forPlayers_allGhosts cooldownBody (fun st j a b h => cooldownBody_allGhosts j a b h) hJ

theorem touchRevive_allGhosts_wait {n c : Int} {s : GhostState} (hn : 1 ≤ n) (h2 : n ≠ 2)
    (hJ : AllGhosts n c s) (hc : c + 1 < kAllGhostAutoReviveFrames) :
    AllGhosts n (c + 1) (Ghost_TouchRevive s) := by
  have hen : Ghost_FeatureEnabled s = true := by simp [Ghost_FeatureEnabled, hJ.1, h2]
  unfold Ghost_TouchRevive
  simp only [hen, Bool.true_eq_false, if_false]
  apply forPlayers_allGhosts touchReviveBody
    (fun st j a b h => touchReviveBody_allGhosts j a b h)
  exact tick_allGhosts_wait hn hJ hc

theorem touchRevive_allGhosts_fire {n c : Int} {s : GhostState} (hn : 1 ≤ n) (h2 : n ≠ 2)
    (hJ : AllGhosts n c s) (hc : c + 1 ≥ kAllGhostAutoReviveFrames) :
    (Ghost_TouchRevive s).numPlayers = n ∧
    (Ghost_TouchRevive s).s_allGhostFrames = 0 ∧
    ∀ i, 1 ≤ i → i ≤ n → (Ghost_TouchRevive s).s_isGhost i = false := by
  have hen : Ghost_FeatureEnabled s = true := by simp [Ghost_FeatureEnabled, hJ.1, h2]
  have ht := tick_allGhosts_fire hn hJ hc
  unfold Ghost_TouchRevive
  simp only [hen, Bool.true_eq_false, if_false]
  apply forPlayers_inv touchReviveBody
    (fun st => st.numPlayers = n ∧ st.s_allGhostFrames = 0 ∧
      ∀ i, 1 ≤ i → i ≤ n → st.s_isGhost i = false) _ ht
  intro st j h1 hle h
  rw [ht.1] at hle
  have : touchReviveBody st j = st := by
    unfold touchReviveBody
    simp [h.2.2 j h1 hle]
  rw [this]
  exact h

/-- One frame with every active player a living ghost and the all-ghost
counter at `c`: the failsafe runs twice (in `Ghost_CheckOutOfBounds` and in
`Ghost_TouchRevive`), so the counter advances by 2 while `c + 2` stays below
the threshold. -/
theorem ghostFrame_allGhosts_wait {n c : Int} {s : GhostState} (hn : 1 ≤ n) (h2 : n ≠ 2)
    (hJ : AllGhosts n c s) (hc : c + 2 < kAllGhostAutoReviveFrames) :
    AllGhosts n (c + 2) (ghostFrame s) := by
  unfold ghostFrame
  have h1 := checkOOB_allGhosts hn h2 hJ (by omega)
  have h3 := touchRevive_allGhosts_wait hn h2 (selfGhost_allGhosts h1) (by omega)
  have e : c + 1 + 1 = c + 2 := by ring
  rw [e] at h3
  exact h3

theorem ghostFrame_allGhosts_fire {n c : Int} {s : GhostState} (hn : 1 ≤ n) (h2 : n ≠ 2)
    (hJ : AllGhosts n c s) (hlo : c + 1 < kAllGhostAutoReviveFrames)
    (hc : c + 2 ≥ kAllGhostAutoReviveFrames) :
    (ghostFrame s).numPlayers = n ∧ (ghostFrame s).s_allGhostFrames = 0 ∧
    ∀ i, 1 ≤ i → i ≤ n → (ghostFrame s).s_isGhost i = false := by
  unfold ghostFrame
  have h1 := checkOOB_allGhosts hn h2 hJ hlo
  exact touchRevive_allGhosts_fire hn h2 (selfGhost_allGhosts h1) (by omega)

theorem iterate_allGhosts_wait {n : Int} {s : GhostState} (hn : 1 ≤ n) (h2 : n ≠ 2)
    (hJ : AllGhosts n 0 s) :
    ∀ k : Nat, 2 * (k : Int) < kAllGhostAutoReviveFrames →
      AllGhosts n (2 * (k : Int)) (ghostFrame^[k] s) := by
  intro k
  induction k with
  | zero => intro _; simpa using hJ
  | succ k ih =>
    intro hk
    push_cast at hk
    have h := ghostFrame_allGhosts_wait hn h2 (ih (by omega)) (by omega)
    rw [Function.iterate_succ_apply']
    have e : 2 * (k : Int) + 2 = 2 * ((k + 1 : Nat) : Int) := by push_cast; ring
    rw [e] at h
    exact h

/-- From a state in which every active player is a living ghost and the
failsafe counter is 0 (`numPlayers ≥ 1`, `≠ 2`): all are still ghosts after 89
whole frames, and the 90th frame revives every one of them and leaves the
counter at 0. -/
theorem allGhosts_revived_in_frame_90 {n : Int} {s : GhostState} (hn : 1 ≤ n) (h2 : n ≠ 2)
    (hJ : AllGhosts n 0 s) :
    (∀ i, 1 ≤ i → i ≤ n → Ghost_IsGhost (ghostFrame^[89] s) i = true) ∧
    (∀ i, 1 ≤ i → i ≤ n → Ghost_IsGhost (ghostFrame^[90] s) i = false) ∧
    (ghostFrame^[90] s).s_allGhostFrames = 0 := by
  have h89 := iterate_allGhosts_wait hn h2 hJ 89 (by decide)
  have h90 := ghostFrame_allGhosts_fire hn h2 h89 (by decide) (by decide)
  have e : ghostFrame^[90] s = ghostFrame (ghostFrame^[89] s) :=
    Function.iterate_succ_apply' _ _ _
  rw [e]
  refine ⟨?_, ?_, h90.2.1⟩
  · intro i h1 hle
    rw [isGhost_in_range _ i h1 (by rw [h89.1]; exact hle)]
    exact (h89.2.2 i h1 hle).1
  · intro i h1 hle
    exact isGhost_false_of_flag _ i (h90.2.2 i h1 hle)

/-- C4 (the code at the failing input). One player, a living ghost, counter 0,
whole frames in the documented order: the start state meets the claim's
conditions, the player is still a ghost after 89 frames, and frame 90 (not
frame 180) revives it and leaves the failsafe counter at 0. -/
theorem C4_failsafe_fires_in_frame_90 :
    oneGhost.numPlayers ≠ 2 ∧ oneGhost.numPlayers ≥ 1 ∧ oneGhost.s_allGhostFrames = 0 ∧
    (∀ i ∈ playerIds oneGhost.numPlayers,
      Ghost_IsGhost oneGhost i = true ∧ (oneGhost.Player i).Dead = false) ∧
    Ghost_IsGhost (ghostFrame^[89] oneGhost) 1 = true ∧
    Ghost_IsGhost (ghostFrame^[90] oneGhost) 1 = false ∧
    (ghostFrame^[90] oneGhost).s_allGhostFrames = 0 := by
  have hJ : AllGhosts 1 0 oneGhost := by
    refine ⟨rfl, rfl, ?_⟩
    intro i h1 hle
    have : i = 1 := by omega
    subst this
    decide
  have h := allGhosts_revived_in_frame_90 (by decide) (by decide) hJ
  exact ⟨by decide, by decide, by decide, by decide,
    h.1 1 (by decide) (by decide), h.2.1 1 (by decide) (by decide), h.2.2⟩

/-! ## C11: reviving twice -/

/-- C11. `Ghost_ReviveFromGhost` is idempotent: a second call right after the
first, with any toucher, changes nothing (position, velocity, grace, cooldown
and no-snap countdowns are not re-armed, no second sound is played). -/
theorem C11_revive_idempotent (s : GhostState) (id t1 t2 : Int) :
    Ghost_ReviveFromGhost (Ghost_ReviveFromGhost s id t1) id t2 =
      Ghost_ReviveFromGhost s id t1 := by
  by_cases hr : id < 1 ∨ id > s.numPlayers
  · simp [Ghost_ReviveFromGhost, hr]
  · by_cases hg : s.s_isGhost id = false
    · simp [Ghost_ReviveFromGhost, hr, hg]
    · have h1 : (Ghost_ReviveFromGhost s id t1).s_isGhost id = false := by
        simp [Ghost_ReviveFromGhost, hr, hg, upd_same]
      have h2 : Ghost_ReviveFromGhost (Ghost_ReviveFromGhost s id t1) id t2 =
          Ghost_ReviveFromGhost s id t1 := by
        generalize Ghost_ReviveFromGhost s id t1 = r at h1 ⊢
        unfold Ghost_ReviveFromGhost
        simp [h1]
      exact h2

/-! ## C12: enforcing twice -/

/-- The player record `Ghost_KeepStateAlive` writes for a ghost. -/
theorem keepAlive_ghost (s : GhostState) (id : Int) (h1 : 1 ≤ id) (h2 : id ≤ s.numPlayers)
    (hg : s.s_isGhost id = true) :
    Ghost_KeepStateAlive s id =
      { s with
        Player := upd s.Player id
          { s.Player id with
            Effect := PlayerEffect.PLREFF_NO_COLLIDE
            Fairy := true
            FairyTime := -1
            Immune := if (s.Player id).Immune < 25 then 25 else (s.Player id).Immune
            Location := { (s.Player id).Location with SpeedX := 0, SpeedY := 0 } }
        s_ghostMinFrames :=
          if s.s_ghostMinFrames id > 0 then
            upd s.s_ghostMinFrames id (s.s_ghostMinFrames id - 1)
          else s.s_ghostMinFrames } := by
  have hr : ¬ (id < 1 ∨ id > s.numPlayers) := by omega
  have h25 : Int.tdiv 50 2 = 25 := by decide
  simp [Ghost_KeepStateAlive, hr, hg, kGhostSpawnIFrm, h25]

theorem upd_upd {α : Type} (a : Int → α) (i : Int) (v w : α) :
    upd (upd a i v) i w = upd a i w := by
  funext k
  by_cases hk : k = i
  · simp [upd, hk]
  · simp [upd, hk]

/-- C12 (amended). Calling `Ghost_KeepStateAlive` twice agrees with calling it
once on every player field and every static except the minimum-ghost countdown
of `id`, which each call on an active ghost lowers by 1 while it is positive;
the two states are equal when the countdown of `id` is at most 1 on entry, and
for an active ghost with countdown `m ≥ 2` the countdown is `m - 1` after one
call and `m - 2` after two. -/
theorem C12_keepAlive_twice (s : GhostState) (id : Int) :
    Ghost_KeepStateAlive (Ghost_KeepStateAlive s id) id =
      { Ghost_KeepStateAlive s id with
        s_ghostMinFrames :=
          (Ghost_KeepStateAlive (Ghost_KeepStateAlive s id) id).s_ghostMinFrames } ∧
    (∀ k, k ≠ id →
      (Ghost_KeepStateAlive (Ghost_KeepStateAlive s id) id).s_ghostMinFrames k =
        (Ghost_KeepStateAlive s id).s_ghostMinFrames k) ∧
    (s.s_ghostMinFrames id ≤ 1 →
      Ghost_KeepStateAlive (Ghost_KeepStateAlive s id) id = Ghost_KeepStateAlive s id) ∧
    (Ghost_IsGhost s id = true → s.s_ghostMinFrames id ≥ 2 →
      (Ghost_KeepStateAlive s id).s_ghostMinFrames id = s.s_ghostMinFrames id - 1 ∧
      (Ghost_KeepStateAlive (Ghost_KeepStateAlive s id) id).s_ghostMinFrames id =
        s.s_ghostMinFrames id - 2) := by
  by_cases hr : id < 1 ∨ id > s.numPlayers
  · have h1 : Ghost_KeepStateAlive s id = s := by simp [Ghost_KeepStateAlive, hr]
    rw [h1, h1]
    refine ⟨rfl, fun _ _ => rfl, fun _ => rfl, ?_⟩
    intro hg
    simp [Ghost_IsGhost, hr] at hg
  · by_cases hg : s.s_isGhost id = false
    · have h1 : Ghost_KeepStateAlive s id = s := by simp [Ghost_KeepStateAlive, hr, hg]
      rw [h1, h1]
      refine ⟨rfl, fun _ _ => rfl, fun _ => rfl, ?_⟩
      intro hig
      simp [Ghost_IsGhost, hr, hg] at hig
    · simp only [Bool.not_eq_false] at hg
      have hk := keepAlive_ghost s id (by omega) (by omega) hg
      have hk2 := keepAlive_ghost (Ghost_KeepStateAlive s id) id (by omega)
        (by rw [hk]; simp only; omega) (by rw [hk]; exact hg)
      have hplayer : (Ghost_KeepStateAlive (Ghost_KeepStateAlive s id) id).Player =
          (Ghost_KeepStateAlive s id).Player := by
        rw [hk2]
        simp only
        rw [hk]
        simp only [upd_same, upd_upd]
        by_cases hi : (s.Player id).Immune < 25
        · simp [hi]
        · simp [hi]
      have hfirst : Ghost_KeepStateAlive (Ghost_KeepStateAlive s id) id =
          { Ghost_KeepStateAlive s id with
            s_ghostMinFrames :=
              (Ghost_KeepStateAlive (Ghost_KeepStateAlive s id) id).s_ghostMinFrames } := by
        have hP := hplayer
        rw [hk2] at hP
        simp only at hP
        rw [hk2]
        simp only
        rw [hP]
      have hcount1 : (Ghost_KeepStateAlive s id).s_ghostMinFrames id =
          if s.s_ghostMinFrames id > 0 then s.s_ghostMinFrames id - 1
          else s.s_ghostMinFrames id := by
        rw [hk]
        simp only
        split <;> simp [upd_same]
      have hcount2 : ∀ k, (Ghost_KeepStateAlive (Ghost_KeepStateAlive s id) id).s_ghostMinFrames k =
          if k = id ∧ (Ghost_KeepStateAlive s id).s_ghostMinFrames id > 0 then
            (Ghost_KeepStateAlive s id).s_ghostMinFrames id - 1
          else (Ghost_KeepStateAlive s id).s_ghostMinFrames k := by
        intro k
        rw [hk2]
        simp only
        by_cases hpos : (Ghost_KeepStateAlive s id).s_ghostMinFrames id > 0
        · by_cases hki : k = id
          · subst hki; simp [hpos, upd_same]
          · simp [hpos, hki, upd_ne]
        · simp [hpos]
      refine ⟨hfirst, ?_, ?_, ?_⟩
      · intro k hne
        rw [hcount2 k]
        simp [hne]
      · intro hle
        rw [hfirst]
        have : (Ghost_KeepStateAlive (Ghost_KeepStateAlive s id) id).s_ghostMinFrames =
            (Ghost_KeepStateAlive s id).s_ghostMinFrames := by
          funext k
          rw [hcount2 k]
          have hnp : ¬ (Ghost_KeepStateAlive s id).s_ghostMinFrames id > 0 := by
            rw [hcount1]
            split <;> omega
          simp [hnp]
        rw [this]
      · intro _ hge
        have h1 : (Ghost_KeepStateAlive s id).s_ghostMinFrames id = s.s_ghostMinFrames id - 1 := by
          rw [hcount1]
          have : s.s_ghostMinFrames id > 0 := by omega
          simp [this]
        refine ⟨h1, ?_⟩
        rw [hcount2 id, h1]
        have : s.s_ghostMinFrames id - 1 > 0 := by omega
        simp [this]
        ring

/-- Counterexample to C12 as stated: for the ghost just made (countdown 30) one
call leaves the countdown at 29 and two calls leave it at 28, so the two
states differ. -/
theorem C12_second_call_decrements_again :
    (Ghost_KeepStateAlive freshGhost 1).s_ghostMinFrames 1 = 29 ∧
    (Ghost_KeepStateAlive (Ghost_KeepStateAlive freshGhost 1) 1).s_ghostMinFrames 1 = 28 ∧
    Ghost_KeepStateAlive (Ghost_KeepStateAlive freshGhost 1) 1 ≠
      Ghost_KeepStateAlive freshGhost 1 := by
  refine ⟨by decide, by decide, ?_⟩
  intro h
  have h2 := congrArg (fun st => st.s_ghostMinFrames 1) h
  revert h2
  decide

/-- Witness for C12 (amended): a ghost with countdown 1 (two calls equal one)
and the ghost just made (countdown 29 after one call, 28 after two). -/
theorem C12_keepAlive_twice_witness :
    Ghost_KeepStateAlive (Ghost_KeepStateAlive (ghostWithCountdown 1) 1) 1 =
      Ghost_KeepStateAlive (ghostWithCountdown 1) 1 ∧
    (Ghost_KeepStateAlive freshGhost 1).s_ghostMinFrames 1 = freshGhost.s_ghostMinFrames 1 - 1 ∧
    (Ghost_KeepStateAlive (Ghost_KeepStateAlive freshGhost 1) 1).s_ghostMinFrames 1 =
      freshGhost.s_ghostMinFrames 1 - 2 :=
  ⟨(C12_keepAlive_twice (ghostWithCountdown 1) 1).2.2.1 (by decide),
   ((C12_keepAlive_twice freshGhost 1).2.2.2 (by decide) (by decide)).1,
   ((C12_keepAlive_twice freshGhost 1).2.2.2 (by decide) (by decide)).2⟩

/-! ## C13: `Ghost_TrySelfGhost` reports transitions -/

/-- The three outcomes of `Ghost_TrySelfGhost`. -/
theorem trySelfGhost_cases (s : GhostState) (id : Int) :
    Ghost_TrySelfGhost s id = (false, s) ∨
    (Ghost_TrySelfGhost s id = (true, Ghost_ReviveFromGhost s id 0) ∧
      1 ≤ id ∧ id ≤ s.numPlayers ∧ s.s_isGhost id = true) ∨
    (Ghost_TrySelfGhost s id = (true, Ghost_MakeGhost s id) ∧
      1 ≤ id ∧ id ≤ s.numPlayers ∧ s.s_isGhost id = false ∧ (s.Player id).Dead = false) := by
  unfold Ghost_TrySelfGhost
  split
  · exact Or.inl rfl
  · split
    · exact Or.inl rfl
    · rename_i hr
      split
      · exact Or.inl rfl
      · rename_i hd
        have hig : Ghost_IsGhost s id = s.s_isGhost id := by simp [Ghost_IsGhost, hr]
        split
        · rename_i hg
          split
          · exact Or.inl rfl
          · exact Or.inr (Or.inl ⟨rfl, by omega, by omega, by rw [← hig]; exact hg⟩)
        · rename_i hg
          simp only
          split
          · exact Or.inl rfl
          · refine Or.inr (Or.inr ⟨rfl, by omega, by omega, ?_, ?_⟩)
            · rw [← hig]; simpa using hg
            · simpa using hd

/-- C13. `Ghost_TrySelfGhost id` returns `true` exactly when `Ghost_IsGhost id`
after the call differs from its value before; when it returns `false` the
whole state is unchanged; the ghost flag of every other player is unchanged. -/
theorem C13_trySelfGhost_reports (s : GhostState) (id : Int) :
    ((Ghost_TrySelfGhost s id).1 = true ↔
      Ghost_IsGhost (Ghost_TrySelfGhost s id).2 id ≠ Ghost_IsGhost s id) ∧
    ((Ghost_TrySelfGhost s id).1 = false → (Ghost_TrySelfGhost s id).2 = s) ∧
    (∀ k, k ≠ id →
      (Ghost_TrySelfGhost s id).2.s_isGhost k = s.s_isGhost k ∧
      Ghost_IsGhost (Ghost_TrySelfGhost s id).2 k = Ghost_IsGhost s k) := by
  rcases trySelfGhost_cases s id with h | ⟨h, h1, h2, hg⟩ | ⟨h, h1, h2, hg, hd⟩
  · rw [h]
    simp
  · rw [h]
    have hr : ¬ (id < 1 ∨ id > s.numPlayers) := by omega
    have hn : (Ghost_ReviveFromGhost s id 0).numPlayers = s.numPlayers :=
      (revive_frame s id 0).1
    have hafter : (Ghost_ReviveFromGhost s id 0).s_isGhost id = false := by
      simp [Ghost_ReviveFromGhost, hr, hg, upd_same]
    refine ⟨?_, ?_, ?_⟩
    · simp only [true_iff]
      rw [isGhost_in_range s id h1 h2, isGhost_false_of_flag _ id hafter, hg]
      decide
    · intro hf; simp at hf
    · intro k hk
      have := ((revive_frame s id 0).2.2.2 k hk).2.2.2.1
      refine ⟨this, ?_⟩
      simp only [Ghost_IsGhost, hn, this]
  · rw [h]
    have hr : ¬ (id < 1 ∨ id > s.numPlayers) := by omega
    have hn : (Ghost_MakeGhost s id).numPlayers = s.numPlayers := (makeGhost_frame s id).1
    have hafter : (Ghost_MakeGhost s id).s_isGhost id = true := by
      simp [Ghost_MakeGhost, hr, hg, hd, upd_same]
    refine ⟨?_, ?_, ?_⟩
    · simp only [true_iff]
      rw [isGhost_in_range s id h1 h2, isGhost_in_range _ id h1 (by rw [hn]; exact h2), hafter,
        hg]
      decide
    · intro hf; simp at hf
    · intro k hk
      have := ((makeGhost_frame s id).2.2.2 k hk).2.2.2.1
      refine ⟨this, ?_⟩
      simp only [Ghost_IsGhost, hn, this]

/-- Witness for C13: on the last survivor the call answers `false` and the state
is unchanged; on the three-player start state it answers `true` and player 1
becomes a ghost while player 2 does not. -/
theorem C13_trySelfGhost_reports_witness :
    (Ghost_TrySelfGhost lastSurvivor 1).2 = lastSurvivor ∧
    Ghost_IsGhost (Ghost_TrySelfGhost threeChords 1).2 1 ≠ Ghost_IsGhost threeChords 1 ∧
    (Ghost_TrySelfGhost threeChords 1).2.s_isGhost 2 = threeChords.s_isGhost 2 :=
  ⟨(C13_trySelfGhost_reports lastSurvivor 1).2.1 (by decide),
   (C13_trySelfGhost_reports threeChords 1).1.mp (by decide),
   ((C13_trySelfGhost_reports threeChords 1).2.2 2 (by decide)).1⟩

/-! ## C14: fairy state round trip -/

/-- What `Ghost_KeepStateAlive` keeps of a ghost: the roster size, the ghost
flag and the saved fairy state. -/
theorem keepAlive_saved (st : GhostState) (id : Int) :
    (Ghost_KeepStateAlive st id).numPlayers = st.numPlayers ∧
    (Ghost_KeepStateAlive st id).s_isGhost = st.s_isGhost ∧
    (Ghost_KeepStateAlive st id).s_prevFairy = st.s_prevFairy ∧
    (Ghost_KeepStateAlive st id).s_prevFairyTime = st.s_prevFairyTime := by
  unfold Ghost_KeepStateAlive
  split
  · exact ⟨rfl, rfl, rfl, rfl⟩
  · split
    · exact ⟨rfl, rfl, rfl, rfl⟩
    · exact ⟨rfl, rfl, rfl, rfl⟩

theorem keepAlive_iterate_saved (st : GhostState) (id : Int) (n : Nat) :
    ((fun x => Ghost_KeepStateAlive x id)^[n] st).numPlayers = st.numPlayers ∧
    ((fun x => Ghost_KeepStateAlive x id)^[n] st).s_isGhost = st.s_isGhost ∧
    ((fun x => Ghost_KeepStateAlive x id)^[n] st).s_prevFairy = st.s_prevFairy ∧
    ((fun x => Ghost_KeepStateAlive x id)^[n] st).s_prevFairyTime = st.s_prevFairyTime := by
  induction n with
  | zero => exact ⟨rfl, rfl, rfl, rfl⟩
  | succ n ih =>
    rw [Function.iterate_succ_apply']
    obtain ⟨a, b, c, d⟩ := keepAlive_saved ((fun x => Ghost_KeepStateAlive x id)^[n] st) id
    exact ⟨a.trans ih.1, b.trans ih.2.1, c.trans ih.2.2.1, d.trans ih.2.2.2⟩

/-- C14. For a living non-ghost active player `id`: `Ghost_MakeGhost id`, then
any number `n` of `Ghost_KeepStateAlive id` calls, then `Ghost_ReviveFromGhost
id t` for any `t` leave the player's `Fairy` flag and `FairyTime` at their
values before `Ghost_MakeGhost`, its `Effect` at `PLREFF_NORMAL`, and the
player not a ghost. -/
theorem C14_fairy_round_trip (s : GhostState) (id t : Int) (n : Nat)
    (h1 : 1 ≤ id) (h2 : id ≤ s.numPlayers)
    (hd : (s.Player id).Dead = false) (hg : s.s_isGhost id = false) :
    ((Ghost_ReviveFromGhost
        ((fun x => Ghost_KeepStateAlive x id)^[n] (Ghost_MakeGhost s id)) id t).Player id).Fairy =
      (s.Player id).Fairy ∧
    ((Ghost_ReviveFromGhost
        ((fun x => Ghost_KeepStateAlive x id)^[n] (Ghost_MakeGhost s id)) id t).Player id).FairyTime =
      (s.Player id).FairyTime ∧
    ((Ghost_ReviveFromGhost
        ((fun x => Ghost_KeepStateAlive x id)^[n] (Ghost_MakeGhost s id)) id t).Player id).Effect =
      PlayerEffect.PLREFF_NORMAL ∧
    Ghost_IsGhost (Ghost_ReviveFromGhost
        ((fun x => Ghost_KeepStateAlive x id)^[n] (Ghost_MakeGhost s id)) id t) id = false := by
  have hr : ¬ (id < 1 ∨ id > s.numPlayers) := by omega
  have hm : (Ghost_MakeGhost s id).numPlayers = s.numPlayers ∧
      (Ghost_MakeGhost s id).s_isGhost id = true ∧
      (Ghost_MakeGhost s id).s_prevFairy id = (s.Player id).Fairy ∧
      (Ghost_MakeGhost s id).s_prevFairyTime id = (s.Player id).FairyTime := by
    simp [Ghost_MakeGhost, hr, hg, hd, upd_same]
  obtain ⟨k1, k2, k3, k4⟩ := keepAlive_iterate_saved (Ghost_MakeGhost s id) id n
  generalize (fun x => Ghost_KeepStateAlive x id)^[n] (Ghost_MakeGhost s id) = g at k1 k2 k3 k4
  have gr : ¬ (id < 1 ∨ id > g.numPlayers) := by rw [k1, hm.1]; omega
  have gg : g.s_isGhost id = true := by rw [k2]; exact hm.2.1
  have gf : g.s_prevFairy id = (s.Player id).Fairy := by rw [k3]; exact hm.2.2.1
  have gt : g.s_prevFairyTime id = (s.Player id).FairyTime := by rw [k4]; exact hm.2.2.2
  refine ⟨?_, ?_, ?_, ?_⟩
  · simp [Ghost_ReviveFromGhost, gr, gg, upd_same, gf]
  · simp [Ghost_ReviveFromGhost, gr, gg, upd_same, gt]
  · simp [Ghost_ReviveFromGhost, gr, gg, upd_same]
  · apply isGhost_false_of_flag
    simp [Ghost_ReviveFromGhost, gr, gg, upd_same]

/-- Witness for C14: player 1 in fairy form with 17 ticks left is ghosted,
enforced five times and revived by toucher 2. -/
theorem C14_fairy_round_trip_witness :
    ((Ghost_ReviveFromGhost
        ((fun x => Ghost_KeepStateAlive x 1)^[5] (Ghost_MakeGhost fairyStart 1)) 1 2).Player 1).Fairy =
      true ∧
    ((Ghost_ReviveFromGhost
        ((fun x => Ghost_KeepStateAlive x 1)^[5] (Ghost_MakeGhost fairyStart 1)) 1 2).Player 1).FairyTime =
      17 ∧
    Ghost_IsGhost (Ghost_ReviveFromGhost
        ((fun x => Ghost_KeepStateAlive x 1)^[5] (Ghost_MakeGhost fairyStart 1)) 1 2) 1 = false :=
  have h := C14_fairy_round_trip fairyStart 1 2 5 (by decide) (by decide) (by decide) (by decide)
  ⟨h.1, h.2.1, h.2.2.2⟩

/-! ## C15: touch revive on contact -/

theorem touchLoop_cons_miss (s : GhostState) (g a : Int) (l : List Int)
    (h : touches s g a = false) : touchLoop s g (a :: l) = touchLoop s g l := by
  unfold touches at h
  rw [touchLoop]
  by_cases h1 : a = g
  · simp [h1]
  · by_cases h2 : s.s_isGhost a = true
    · simp [h1, h2]
    · by_cases h3 : (s.Player a).Dead = true
      · simp [h1, h2, h3]
      · by_cases h4 : (s.Player a).Section = (s.Player g).Section
        · simp only [Bool.not_eq_true] at h2 h3
          simp [h1, h2, h3, h4] at h
          simp [h1, h2, h3, h4, h]
        · simp [h1, h2, h3, h4]

theorem touchLoop_cons_hit (s : GhostState) (g a : Int) (l : List Int)
    (h : touches s g a = true) : touchLoop s g (a :: l) = Ghost_ReviveFromGhost s g a := by
  unfold touches at h
  simp only [Bool.and_eq_true, decide_eq_true_eq, Bool.not_eq_true'] at h
  obtain ⟨⟨⟨⟨h1, h2⟩, h3⟩, h4⟩, h5⟩ := h
  rw [touchLoop]
  simp [h1, h2, h3, h4, h5]

/-- The contact loop over an increasing list of indices: either nobody touches
and the state is unchanged, or the ghost is revived with the first (smallest)
touching player as toucher. -/
theorem touchLoop_spec (s : GhostState) (g : Int) :
    ∀ l : List Int, l.Pairwise (fun a b => a < b) →
      (touchLoop s g l = s ∧ ∀ a ∈ l, touches s g a = false) ∨
      (∃ a ∈ l, touches s g a = true ∧ (∀ b ∈ l, b < a → touches s g b = false) ∧
        touchLoop s g l = Ghost_ReviveFromGhost s g a) := by
  intro l
  induction l with
  | nil => intro _; exact Or.inl ⟨rfl, fun a ha => absurd ha (List.not_mem_nil a)⟩
  | cons x l ih =>
    intro hs
    obtain ⟨hx, hl⟩ := List.pairwise_cons.mp hs
    by_cases hit : touches s g x = true
    · right
      refine ⟨x, List.mem_cons_self x l, hit, ?_, touchLoop_cons_hit s g x l hit⟩
      intro b hb hlt
      rcases List.mem_cons.mp hb with h | h
      · omega
      · have := hx b h; omega
    · simp only [Bool.not_eq_true] at hit
      rw [touchLoop_cons_miss s g x l hit]
      rcases ih hl with ⟨h1, h2⟩ | ⟨a, ha, h1, h2, h3⟩
      · left
        refine ⟨h1, ?_⟩
        intro a ha
        rcases List.mem_cons.mp ha with h | h
        · rw [h]; exact hit
        · exact h2 a h
      · right
        refine ⟨a, List.mem_cons_of_mem x ha, h1, ?_, h3⟩
        intro b hb hlt
        rcases List.mem_cons.mp hb with h | h
        · rw [h]; exact hit
        · exact h2 b h hlt

theorem ghostSeek_statics (s : GhostState) (g : Int) :
    (ghostSeek s g).numPlayers = s.numPlayers ∧
    (ghostSeek s g).s_isGhost = s.s_isGhost ∧
    (ghostSeek s g).s_ghostMinFrames = s.s_ghostMinFrames ∧
    ∀ k, ((ghostSeek s g).Player k).Dead = (s.Player k).Dead := by
  unfold ghostSeek
  simp only
  split
  · split
    · refine ⟨rfl, rfl, rfl, ?_⟩
      intro k
      by_cases hk : k = g
      · subst hk; simp [upd_same]
      · simp [upd_ne, hk]
    · exact ⟨rfl, rfl, rfl, fun _ => rfl⟩
  · exact ⟨rfl, rfl, rfl, fun _ => rfl⟩

/-- The inclusive box test: boxes that only share an edge overlap. -/
theorem aabbOverlap_iff (a b : Location_t) :
    aabbOverlap a b = true ↔
      b.X ≤ a.X + a.Width ∧ a.X ≤ b.X + b.Width ∧ b.Y ≤ a.Y + a.Height ∧ a.Y ≤ b.Y + b.Height := by
  simp [aabbOverlap, not_or, and_assoc]

/-- C15. The iteration of `Ghost_TouchRevive` for a living active ghost `g`
whose countdown reads not positive at the test (after enforcement): with `s2`
the state after enforcement and the seek movement, `g` is revived if and only
if some active player `a` passes the contact tests in `s2` (`a ≠ g`, not a
ghost, living, same section, boxes overlapping under the inclusive test); the
revive is `Ghost_ReviveFromGhost s2 g a` for the smallest such `a`; with no
such player the state stays `s2` and `g` stays a ghost. -/
theorem C15_touch_revive_lowest_index (st : GhostState) (g : Int)
    (h1 : 1 ≤ g) (h2 : g ≤ st.numPlayers)
    (hg : st.s_isGhost g = true) (hd : (st.Player g).Dead = false)
    (hexp : (Ghost_KeepStateAlive st g).s_ghostMinFrames g ≤ 0) :
    ((touchReviveBody st g).s_isGhost g = false ↔
      ∃ a, 1 ≤ a ∧ a ≤ st.numPlayers ∧
        touches (ghostSeek (Ghost_KeepStateAlive st g) g) g a = true) ∧
    (∀ a, 1 ≤ a → a ≤ st.numPlayers →
      touches (ghostSeek (Ghost_KeepStateAlive st g) g) g a = true →
      (∀ b, 1 ≤ b → b < a → touches (ghostSeek (Ghost_KeepStateAlive st g) g) g b = false) →
      touchReviveBody st g =
        Ghost_ReviveFromGhost (ghostSeek (Ghost_KeepStateAlive st g) g) g a) ∧
    ((∀ a, 1 ≤ a → a ≤ st.numPlayers →
        touches (ghostSeek (Ghost_KeepStateAlive st g) g) g a = false) →
      touchReviveBody st g = ghostSeek (Ghost_KeepStateAlive st g) g ∧
      (touchReviveBody st g).s_isGhost g = true) ∧
    (∀ (s2 : GhostState) (a : Int), touches s2 g a = true ↔
      a ≠ g ∧ s2.s_isGhost a = false ∧ (s2.Player a).Dead = false ∧
      (s2.Player a).Section = (s2.Player g).Section ∧
      (s2.Player g).Location.X ≤ (s2.Player a).Location.X + (s2.Player a).Location.Width ∧
      (s2.Player a).Location.X ≤ (s2.Player g).Location.X + (s2.Player g).Location.Width ∧
      (s2.Player g).Location.Y ≤ (s2.Player a).Location.Y + (s2.Player a).Location.Height ∧
      (s2.Player a).Location.Y ≤ (s2.Player g).Location.Y + (s2.Player g).Location.Height) := by
  obtain ⟨kn, kg, _, _⟩ := keepAlive_saved st g
  obtain ⟨sn, sg, sm, _⟩ := ghostSeek_statics (Ghost_KeepStateAlive st g) g
  have hbody : touchReviveBody st g =
      touchLoop (ghostSeek (Ghost_KeepStateAlive st g) g) g (playerIds st.numPlayers) := by
    have hnp : ¬ (ghostSeek (Ghost_KeepStateAlive st g) g).s_ghostMinFrames g > 0 := by
      rw [sm]; omega
    unfold touchReviveBody
    simp only [hg, hd, Bool.true_eq_false, Bool.false_eq_true, if_false, hnp, sn, kn]
  have hg2 : (ghostSeek (Ghost_KeepStateAlive st g) g).s_isGhost g = true := by
    rw [sg, kg]; exact hg
  have hr2 : ¬ (g < 1 ∨ g > (ghostSeek (Ghost_KeepStateAlive st g) g).numPlayers) := by
    rw [sn, kn]; omega
  have hspec := touchLoop_spec (ghostSeek (Ghost_KeepStateAlive st g) g) g
    (playerIds st.numPlayers) (playerIds_sorted _)
  rw [← hbody] at hspec
  generalize ghostSeek (Ghost_KeepStateAlive st g) g = s2 at *
  have hrev : ∀ a, (Ghost_ReviveFromGhost s2 g a).s_isGhost g = false := by
    intro a
    simp [Ghost_ReviveFromGhost, hr2, hg2, upd_same]
  refine ⟨?_, ?_, ?_, ?_⟩
  · constructor
    · intro hafter
      rcases hspec with ⟨e, _⟩ | ⟨a, ha, ht, _, _⟩
      · rw [e, hg2] at hafter
        exact absurd hafter (by decide)
      · have := (mem_playerIds _ _).mp ha
        exact ⟨a, this.1, this.2, ht⟩
    · rintro ⟨a, a1, a2, ht⟩
      rcases hspec with ⟨_, hnone⟩ | ⟨b, _, _, _, e⟩
      · rw [hnone a ((mem_playerIds _ _).mpr ⟨a1, a2⟩)] at ht
        exact absurd ht (by decide)
      · rw [e]; exact hrev b
  · intro a a1 a2 ht hmin
    rcases hspec with ⟨_, hnone⟩ | ⟨b, hb, hbt, hbmin, e⟩
    · rw [hnone a ((mem_playerIds _ _).mpr ⟨a1, a2⟩)] at ht
      exact absurd ht (by decide)
    · have hb2 := (mem_playerIds _ _).mp hb
      have hab : a = b := by
        rcases lt_trichotomy a b with hlt | heq | hgt
        · rw [hbmin a ((mem_playerIds _ _).mpr ⟨a1, a2⟩) hlt] at ht
          exact absurd ht (by decide)
        · exact heq
        · rw [hmin b hb2.1 hgt] at hbt
          exact absurd hbt (by decide)
      rw [hab]; exact e
  · intro hnone
    rcases hspec with ⟨e, _⟩ | ⟨b, hb, hbt, _, _⟩
    · exact ⟨e, by rw [e]; exact hg2⟩
    · have hb2 := (mem_playerIds _ _).mp hb
      rw [hnone b hb2.1 hb2.2] at hbt
      exact absurd hbt (by decide)
  · intro s' a
    simp only [touches, Bool.and_eq_true, decide_eq_true_eq, Bool.not_eq_true', aabbOverlap_iff,
      and_assoc]

theorem touches_self (s : GhostState) (g : Int) : touches s g g = false := by
  simp [touches]

theorem countdownOne_touch2 :
    touches (ghostSeek (Ghost_KeepStateAlive (ghostWithCountdown 1) 1) 1) 1 2 = true := by
  simp [touches, aabbOverlap, ghostSeek, findNearestAlive, nearestStep, centreDist, playerIds,
    idsFrom, Ghost_KeepStateAlive, Ghost_IsGhost, ghostWithCountdown, Ghost_MakeGhost,
    threeChords, initState, upd, chordPlayer, loc0]

/-- Witness for C15: ghost 1 with countdown 1 on entry, overlapped by players 2
and 3 of its section; player 2 is the toucher. -/
theorem C15_touch_revive_lowest_index_witness :
    touchReviveBody (ghostWithCountdown 1) 1 =
      Ghost_ReviveFromGhost (ghostSeek (Ghost_KeepStateAlive (ghostWithCountdown 1) 1) 1) 1 2 ∧
    (touchReviveBody (ghostWithCountdown 1) 1).s_isGhost 1 = false :=
  have h := C15_touch_revive_lowest_index (ghostWithCountdown 1) 1 (by decide) (by decide)
    (by decide) (by decide) (by decide)
  ⟨h.2.1 2 (by decide) (by decide) countdownOne_touch2
      (fun b hb1 hb2 => by
        have hb : b = 1 := by omega
        rw [hb]
        exact touches_self _ 1),
   h.1.mpr ⟨2, by decide, by decide, countdownOne_touch2⟩⟩

/-! ## C16: length of the minimum-ghost window -/

theorem ghostState_ext {a b : GhostState}
    (h1 : a.numPlayers = b.numPlayers) (h2 : a.Player = b.Player)
    (h3 : a.vScreenByPlayer = b.vScreenByPlayer) (h4 : a.s_prevLeft = b.s_prevLeft)
    (h5 : a.s_prevTop = b.s_prevTop) (h6 : a.s_isGhost = b.s_isGhost)
    (h7 : a.s_oobFrames = b.s_oobFrames) (h8 : a.s_reviveGrace = b.s_reviveGrace)
    (h9 : a.s_ghostMinFrames = b.s_ghostMinFrames) (h10 : a.s_prevFairy = b.s_prevFairy)
    (h11 : a.s_prevFairyTime = b.s_prevFairyTime)
    (h12 : a.s_postReviveNoSnap = b.s_postReviveNoSnap)
    (h13 : a.s_allGhostFrames = b.s_allGhostFrames)
    (h14 : a.s_selfGhostCooldown = b.s_selfGhostCooldown)
    (h15 : a.s_prevChordHeld = b.s_prevChordHeld) (h16 : a.events = b.events) : a = b := by
  cases a
  cases b
  simp only at h1 h2 h3 h4 h5 h6 h7 h8 h9 h10 h11 h12 h13 h14 h15 h16
  subst h1 h2 h3 h4 h5 h6 h7 h8 h9 h10 h11 h12 h13 h14 h15 h16
  rfl

theorem freshGhostAt_start : freshGhostAt 30 = freshGhost := by
  apply ghostState_ext <;> rfl

/-- One call of `Ghost_TouchRevive` on the overlapped ghost with countdown
`m ≥ 2`: the ghost stays and the countdown drops by 2. -/
theorem touchRevive_freshGhostAt (m : Int) (hm : 2 ≤ m) :
    Ghost_TouchRevive (freshGhostAt m) = freshGhostAt (m - 2) := by
  have hm0 : 0 < m := by omega
  have hm1 : 0 < m - 1 := by omega
  have e : m - 1 - 1 = m - 2 := by ring
  have h25 : Int.tdiv 50 2 = 25 := by decide
  apply ghostState_ext <;>
    simp [Ghost_TouchRevive, Ghost_FeatureEnabled, Ghost_AutoReviveAll_Tick, forPlayers,
      playerIds, idsFrom, countLoop, touchReviveBody, Ghost_KeepStateAlive, ghostSeek,
      findNearestAlive, nearestStep, centreDist, Ghost_IsGhost, freshGhostAt, freshGhost,
      Ghost_MakeGhost, threeChords, initState, upd, chordPlayer, loc0, hm0, hm1, e,
      kGhostSpawnIFrm, kGhostMinFrames, upd_upd, h25]

theorem touchRevive_iterate_freshGhost :
    ∀ k : Nat, k ≤ 15 → Ghost_TouchRevive^[k] freshGhost = freshGhostAt (30 - 2 * (k : Int)) := by
  intro k
  induction k with
  | zero => intro _; exact freshGhostAt_start.symm
  | succ k ih =>
    intro hk
    rw [Function.iterate_succ_apply', ih (by omega), touchRevive_freshGhostAt _ (by omega)]
    congr 1
    push_cast
    ring

theorem touchRevive_freshGhostAt_zero :
    (Ghost_TouchRevive (freshGhostAt 0)).s_isGhost 1 = false := by
  simp [Ghost_TouchRevive, Ghost_FeatureEnabled, Ghost_AutoReviveAll_Tick, forPlayers,
    playerIds, idsFrom, countLoop, touchReviveBody, Ghost_KeepStateAlive, ghostSeek,
    findNearestAlive, nearestStep, centreDist, touchLoop, aabbOverlap, Ghost_ReviveFromGhost,
    Ghost_IsGhost, freshGhostAt, freshGhost, Ghost_MakeGhost, threeChords, initState, upd,
    chordPlayer, loc0]

/-- C16 (the code at the failing input). Ghost 1 has just been made (countdown
`kGhostMinFrames` = 30) among three players, players 2 and 3 living non-ghosts
of its section overlapping its box on every call.  Each `Ghost_TouchRevive`
lowers the countdown by 2: after 15 calls the ghost is still a ghost with
countdown 0, and call 16 revives it, so the window lasts 15 calls, not 30. -/
theorem C16_window_ends_after_15_calls :
    freshGhost.numPlayers ≠ 2 ∧
    freshGhost.s_ghostMinFrames 1 = kGhostMinFrames ∧
    (∃ j, 1 ≤ j ∧ j ≤ freshGhost.numPlayers ∧ freshGhost.s_isGhost j = false) ∧
    Ghost_IsGhost (Ghost_TouchRevive^[15] freshGhost) 1 = true ∧
    (Ghost_TouchRevive^[15] freshGhost).s_ghostMinFrames 1 = 0 ∧
    Ghost_IsGhost (Ghost_TouchRevive^[16] freshGhost) 1 = false := by
  have h15 : Ghost_TouchRevive^[15] freshGhost = freshGhostAt 0 :=
    touchRevive_iterate_freshGhost 15 (by decide)
  have h16 : Ghost_TouchRevive^[16] freshGhost = Ghost_TouchRevive (freshGhostAt 0) := by
    rw [Function.iterate_succ_apply' Ghost_TouchRevive 15, h15]
  rw [h15, h16]
  exact ⟨by decide, by decide, ⟨2, by decide, by decide, by decide⟩, by decide, by decide,
    isGhost_false_of_flag _ 1 touchRevive_freshGhostAt_zero⟩

/-! ## C17: the seek block during the minimum-ghost window -/

theorem idsFrom_append (a b : Nat) :
    ∀ i : Int, idsFrom i (a + b) = idsFrom i a ++ idsFrom (i + a) b := by
  induction a with
  | zero => intro i; simp [idsFrom]
  | succ a ih =>
    intro i
    have e : a + 1 + b = (a + b) + 1 := by omega
    rw [e]
    have e2 : i + 1 + (a : Int) = i + ((a + 1 : Nat) : Int) := by push_cast; ring
    simp only [idsFrom, List.cons_append, ih (i + 1), e2]

/-- The loop indices split at an active player `g`: first `1 .. g-1`, then `g`,
then `g+1 .. n`. -/
theorem playerIds_split (n g : Int) (h1 : 1 ≤ g) (h2 : g ≤ n) :
    playerIds n = playerIds (g - 1) ++ g :: idsFrom (g + 1) (n - g).toNat := by
  unfold playerIds
  have e : n.toNat = (g - 1).toNat + (1 + (n - g).toNat) := by omega
  rw [e, idsFrom_append, idsFrom_append]
  have e1 : (1 : Int) + ((g - 1).toNat : Int) = g := by omega
  rw [e1]
  simp only [idsFrom, List.singleton_append]
  congr 2

theorem touchView_query (s1 s2 : GhostState) (g : Int) (h : touchView g s1 = touchView g s2) :
    s1.numPlayers = s2.numPlayers ∧ s1.s_isGhost g = s2.s_isGhost g ∧
    (s1.Player g).Dead = (s2.Player g).Dead ∧ s1.s_ghostMinFrames g = s2.s_ghostMinFrames g := by
  simpa [touchView] using h

/-- Iterations for players other than `g` leave the player record and the
statics of `g` alone. -/
theorem touchLoopOver_slot (g : Int) :
    ∀ (l : List Int) (s : GhostState), g ∉ l →
      (l.foldl touchReviveBody s).numPlayers = s.numPlayers ∧
      (l.foldl touchReviveBody s).Player g = s.Player g ∧
      (l.foldl touchReviveBody s).s_isGhost g = s.s_isGhost g ∧
      (l.foldl touchReviveBody s).s_ghostMinFrames g = s.s_ghostMinFrames g := by
  intro l s hg
  apply foldl_inv touchReviveBody
    (fun st => st.numPlayers = s.numPlayers ∧ st.Player g = s.Player g ∧
      st.s_isGhost g = s.s_isGhost g ∧ st.s_ghostMinFrames g = s.s_ghostMinFrames g) l s
    ⟨rfl, rfl, rfl, rfl⟩
  intro st j hj hI
  have hne : g ≠ j := fun h => hg (h ▸ hj)
  obtain ⟨f1, _, _, f4⟩ := touchReviveBody_frame st j
  obtain ⟨x1, _, _, x4, _, _, x7, _⟩ := f4 g hne
  exact ⟨f1.trans hI.1, x1.trans hI.2.1, x4.trans hI.2.2.1, x7.trans hI.2.2.2⟩

/-- The iteration for a living ghost whose countdown is above 1: the state is
the one after enforcement and the seek block, with the countdown lowered once
more. -/
theorem touchReviveBody_window (st : GhostState) (g : Int)
    (h1 : 1 ≤ g) (h2 : g ≤ st.numPlayers) (hg : st.s_isGhost g = true)
    (hd : (st.Player g).Dead = false) (hm : st.s_ghostMinFrames g > 1) :
    (touchReviveBody st g).Player = (ghostSeek (Ghost_KeepStateAlive st g) g).Player ∧
    (touchReviveBody st g).s_isGhost g = true ∧
    (touchReviveBody st g).numPlayers = st.numPlayers := by
  obtain ⟨kn, kg, _, _⟩ := keepAlive_saved st g
  obtain ⟨sn, sg, sm, _⟩ := ghostSeek_statics (Ghost_KeepStateAlive st g) g
  have hk : (Ghost_KeepStateAlive st g).s_ghostMinFrames g = st.s_ghostMinFrames g - 1 := by
    rw [keepAlive_ghost st g h1 h2 hg]
    have : st.s_ghostMinFrames g > 0 := by omega
    simp [this, upd_same]
  have hpos : (ghostSeek (Ghost_KeepStateAlive st g) g).s_ghostMinFrames g > 0 := by
    rw [sm, hk]; omega
  unfold touchReviveBody
  simp only [hg, hd, Bool.true_eq_false, Bool.false_eq_true, if_false, hpos, if_true]
  exact ⟨by trivial, by rw [sg, kg]; exact hg, by rw [sn, kn]⟩

theorem keepAlive_dead (st : GhostState) (j k : Int) :
    ((Ghost_KeepStateAlive st j).Player k).Dead = (st.Player k).Dead := by
  unfold Ghost_KeepStateAlive
  split
  · rfl
  · split
    · rfl
    · by_cases hk : k = j
      · subst hk; simp [upd_same]
      · simp [upd_ne, hk]

/-- While every active player is a ghost or dead, an iteration of the ghost
loop revives nobody: ghost flags, death flags and roster size are kept. -/
theorem touchReviveBody_noTarget (st : GhostState) (j : Int)
    (hI : ∀ a, 1 ≤ a → a ≤ st.numPlayers → st.s_isGhost a = true ∨ (st.Player a).Dead = true) :
    (touchReviveBody st j).numPlayers = st.numPlayers ∧
    (touchReviveBody st j).s_isGhost = st.s_isGhost ∧
    ∀ k, ((touchReviveBody st j).Player k).Dead = (st.Player k).Dead := by
  obtain ⟨kn, kg, _, _⟩ := keepAlive_saved st j
  obtain ⟨sn, sg, _, sd⟩ := ghostSeek_statics (Ghost_KeepStateAlive st j) j
  have h2n : (ghostSeek (Ghost_KeepStateAlive st j) j).numPlayers = st.numPlayers := sn.trans kn
  have h2g : (ghostSeek (Ghost_KeepStateAlive st j) j).s_isGhost = st.s_isGhost := sg.trans kg
  have h2d : ∀ k, ((ghostSeek (Ghost_KeepStateAlive st j) j).Player k).Dead = (st.Player k).Dead :=
    fun k => (sd k).trans (keepAlive_dead st j k)
  unfold touchReviveBody
  split
  · exact ⟨rfl, rfl, fun _ => rfl⟩
  · split
    · exact ⟨rfl, rfl, fun _ => rfl⟩
    · simp only
      split
      · exact ⟨h2n, h2g, h2d⟩
      · rcases touchLoop_spec (ghostSeek (Ghost_KeepStateAlive st j) j) j
          (playerIds (ghostSeek (Ghost_KeepStateAlive st j) j).numPlayers)
          (playerIds_sorted _) with ⟨e, _⟩ | ⟨a, ha, ht, _, _⟩
        · rw [e]; exact ⟨h2n, h2g, h2d⟩
        · exfalso
          have ha2 := (mem_playerIds _ _).mp ha
          rw [h2n] at ha2
          simp only [touches, Bool.and_eq_true, decide_eq_true_eq, Bool.not_eq_true'] at ht
          obtain ⟨⟨⟨⟨_, t2⟩, t3⟩, _⟩, _⟩ := ht
          rw [h2g] at t2
          rw [h2d] at t3
          rcases hI a ha2.1 ha2.2 with h | h
          · rw [h] at t2; exact absurd t2 (by decide)
          · rw [h] at t3; exact absurd t3 (by decide)

theorem touchLoopOver_noTarget (n : Int) :
    ∀ (l : List Int) (s : GhostState), s.numPlayers = n →
      (∀ a, 1 ≤ a → a ≤ n → s.s_isGhost a = true ∨ (s.Player a).Dead = true) →
      (l.foldl touchReviveBody s).numPlayers = n ∧
      ∀ a, 1 ≤ a → a ≤ n →
        (l.foldl touchReviveBody s).s_isGhost a = true ∨
        ((l.foldl touchReviveBody s).Player a).Dead = true := by
  intro l s hn hI
  apply foldl_inv touchReviveBody
    (fun st => st.numPlayers = n ∧
      ∀ a, 1 ≤ a → a ≤ n → st.s_isGhost a = true ∨ (st.Player a).Dead = true) l s ⟨hn, hI⟩
  intro st j _ h
  obtain ⟨b1, b2, b3⟩ := touchReviveBody_noTarget st j (by rw [h.1]; exact h.2)
  refine ⟨b1.trans h.1, ?_⟩
  intro a a1 a2
  rw [b2, b3]
  exact h.2 a a1 a2

/-- Unless every active player is a ghost and the counter reaches the
threshold in this call, the failsafe writes its counter only. -/
theorem tick_quiet (s : GhostState)
    (hq : (∃ j, 1 ≤ j ∧ j ≤ s.numPlayers ∧ s.s_isGhost j = false) ∨
      s.s_allGhostFrames + 1 < kAllGhostAutoReviveFrames) :
    ∃ c, Ghost_AutoReviveAll_Tick s = { s with s_allGhostFrames := c } := by
  rcases hq with hex | hlt
  · exact ⟨0, tick_not_all s hex⟩
  · unfold Ghost_AutoReviveAll_Tick
    split
    · exact ⟨0, rfl⟩
    · simp only
      split
      · have hnf : ¬ s.s_allGhostFrames + 1 ≥ kAllGhostAutoReviveFrames := by omega
        simp only [hnf, if_false]
        exact ⟨s.s_allGhostFrames + 1, rfl⟩
      · exact ⟨0, rfl⟩

/-- Up to the turn of `g`, the loop leaves alone every player that is not a
ghost at the start of the loop or whose index is not among those visited. -/
theorem touchLoopOver_untouched (a : Int) :
    ∀ (l : List Int) (s : GhostState), (s.s_isGhost a = false ∨ a ∉ l) →
      (l.foldl touchReviveBody s).Player a = s.Player a ∧
      (l.foldl touchReviveBody s).s_isGhost a = s.s_isGhost a := by
  intro l s ha
  apply foldl_inv touchReviveBody
    (fun st => st.Player a = s.Player a ∧ st.s_isGhost a = s.s_isGhost a) l s ⟨rfl, rfl⟩
  intro st j hj hI
  by_cases hja : j = a
  · rcases ha with hng | hnot
    · have hst : st.s_isGhost j = false := by rw [hja, hI.2]; exact hng
      have : touchReviveBody st j = st := by
        unfold touchReviveBody
        simp [hst]
      rw [this]; exact hI
    · exact absurd (hja ▸ hj) hnot
  · obtain ⟨_, _, _, f4⟩ := touchReviveBody_frame st j
    obtain ⟨x1, _, _, x4, _⟩ := f4 a (Ne.symm hja)
    exact ⟨x1.trans hI.1, x4.trans hI.2⟩

/-- A player that is a candidate of least distance and, among those, of least
index is the result of `findNearestAlive`. -/
theorem findNearestAlive_unique (s : GhostState) (self t : Int)
    (t1 : 1 ≤ t) (t2 : t ≤ s.numPlayers) (tne : t ≠ self)
    (tc : aliveNotGhost s t = true)
    (tmin : ∀ a, 1 ≤ a → a ≤ s.numPlayers → a ≠ self → aliveNotGhost s a = true →
      centreDist s self t ≤ centreDist s self a ∧
      (centreDist s self a = centreDist s self t → t ≤ a)) :
    findNearestAlive s self = t := by
  have hinv := nearestFold_inv s self (playerIds s.numPlayers) [] (0, 0)
    (by simpa using playerIds_sorted s.numPlayers)
    (fun i hi => (mem_playerIds _ _).mp hi)
    ⟨fun _ i hi => absurd hi (List.not_mem_nil i), fun h => absurd rfl h⟩
  simp only [List.nil_append] at hinv
  obtain ⟨hz, hnz⟩ := hinv
  have hfn : findNearestAlive s self =
      ((playerIds s.numPlayers).foldl (nearestStep s self) (0, 0)).1 := rfl
  rw [← hfn] at hz hnz
  have hne0 : findNearestAlive s self ≠ 0 := by
    intro h0
    have := hz h0 t ((mem_playerIds _ _).mpr ⟨t1, t2⟩) tne
    rw [this] at tc
    exact absurd tc (by decide)
  obtain ⟨hm, hs, hc, _, hmin⟩ := hnz hne0
  have hm2 := (mem_playerIds _ _).mp hm
  have hA := hmin t ((mem_playerIds _ _).mpr ⟨t1, t2⟩) tne tc
  have hB := tmin _ hm2.1 hm2.2 hs hc
  have heq : centreDist s self t = centreDist s self (findNearestAlive s self) :=
    le_antisymm hB.1 hA.1
  have h1 := hA.2 heq
  have h2 := hB.2 heq.symm
  omega

/-- The seek block with target `t`: the ghost's new position. -/
theorem ghostSeek_position (s : GhostState) (g t : Int) (ht : findNearestAlive s g = t)
    (hpos : t > 0) (dx dy : num_t)
    (hdx : dx = (s.Player t).Location.X + (s.Player t).Location.Width / 2 -
      ((s.Player g).Location.X + (s.Player g).Location.Width / 2))
    (hdy : dy = (s.Player t).Location.Y + (s.Player t).Location.Height / 2 -
      ((s.Player g).Location.Y + (s.Player g).Location.Height / 2)) :
    (|dx| + |dy| = 0 →
      ((ghostSeek s g).Player g).Location.X = (s.Player g).Location.X ∧
      ((ghostSeek s g).Player g).Location.Y = (s.Player g).Location.Y) ∧
    (|dx| + |dy| > 0 →
      ((ghostSeek s g).Player g).Location.X = (s.Player g).Location.X +
        (if ((s.Player g).Controls.Run || (s.Player g).Controls.AltRun) = true then (7 : num_t)
          else 3) * (dx / (|dx| + |dy|)) ∧
      ((ghostSeek s g).Player g).Location.Y = (s.Player g).Location.Y +
        (if ((s.Player g).Controls.Run || (s.Player g).Controls.AltRun) = true then (7 : num_t)
          else 3) * (dy / (|dx| + |dy|))) := by
  subst hdx hdy
  constructor
  · intro hlen
    have hnl : ¬ (0 : num_t) < 0 := lt_irrefl _
    unfold ghostSeek
    simp only [ht, hpos, if_true, hlen, gt_iff_lt, hnl, if_false]
    exact ⟨by trivial, by trivial⟩
  · intro hlen
    unfold ghostSeek
    simp only [ht, hpos, if_true, hlen, upd_same]
    by_cases hrun : ((s.Player g).Controls.Run || (s.Player g).Controls.AltRun) = true
    · simp [hrun]
    · simp [hrun]

/-- The failsafe firing, seen from an active player `i`: `i` is revived in
place, 8 pixels up. -/
theorem tick_fire_slot (s : GhostState) (i : Int) (i1 : 1 ≤ i) (i2 : i ≤ s.numPlayers)
    (hall : ∀ j, 1 ≤ j → j ≤ s.numPlayers → s.s_isGhost j = true)
    (hfire : s.s_allGhostFrames + 1 ≥ kAllGhostAutoReviveFrames) :
    (Ghost_AutoReviveAll_Tick s).numPlayers = s.numPlayers ∧
    (Ghost_AutoReviveAll_Tick s).s_isGhost i = false ∧
    ((Ghost_AutoReviveAll_Tick s).Player i).Location.X = (s.Player i).Location.X ∧
    ((Ghost_AutoReviveAll_Tick s).Player i).Location.Y = (s.Player i).Location.Y - 8 := by
  have hcount : countLoop (Ghost_IsGhost s) (playerIds s.numPlayers) = s.numPlayers := by
    apply countLoop_all _ _ (by omega)
    intro j j1 j2
    rw [isGhost_in_range s j j1 j2]
    exact hall j j1 j2
  have hpos : ¬ s.numPlayers ≤ 0 := by omega
  have hp : s.numPlayers > 0 := by omega
  have hv := (foldl_view autoReviveBody
    (fun st => (st.numPlayers, st.Player i, st.s_isGhost i)) i
    (fun st j hne => by
      obtain ⟨f1, _, _, f4⟩ := autoReviveBody_frame st j
      obtain ⟨x1, _, _, x4, _⟩ := f4 i (Ne.symm hne)
      simp only [f1, x1, x4])
    (playerIds s.numPlayers) { s with s_allGhostFrames := s.s_allGhostFrames + 1 }
    (playerIds_nodup _)).2 ((mem_playerIds _ _).mpr ⟨i1, i2⟩)
  obtain ⟨st, hst, hfin⟩ := hv
  simp only [Prod.mk.injEq] at hst hfin
  obtain ⟨e1, e2, e3⟩ := hst
  have hr : ¬ (i < 1 ∨ i > st.numPlayers) := by rw [e1]; omega
  have hgi : st.s_isGhost i = true := by rw [e3]; exact hall i i1 i2
  have hbody : (autoReviveBody st i).numPlayers = s.numPlayers ∧
      (autoReviveBody st i).s_isGhost i = false ∧
      ((autoReviveBody st i).Player i).Location.X = (s.Player i).Location.X ∧
      ((autoReviveBody st i).Player i).Location.Y = (s.Player i).Location.Y - 8 := by
    have hq : Ghost_IsGhost st i = true := by simp [Ghost_IsGhost, hr, hgi]
    unfold autoReviveBody
    simp only [hq, if_true]
    have hr2 : ¬ (i < 1 ∨ s.numPlayers < i) := by omega
    simp [Ghost_ReviveFromGhost, hr2, hgi, upd_same, e1, e2, kRevivePopUpPx]
  obtain ⟨f1, f2, f3⟩ := hfin
  unfold Ghost_AutoReviveAll_Tick
  simp only [hpos, if_false, hcount, hp, and_self, if_true, hfire]
  rw [forPlayers_def]
  simp only
  rw [f1, f2, f3]
  exact hbody

/-- When the failsafe fires, the ghost loop that follows finds no ghost and
changes nothing. -/
theorem touchRevive_fire (s : GhostState) (h2 : s.numPlayers ≠ 2) (hn : 1 ≤ s.numPlayers)
    (hall : ∀ j, 1 ≤ j → j ≤ s.numPlayers → s.s_isGhost j = true)
    (hfire : s.s_allGhostFrames + 1 ≥ kAllGhostAutoReviveFrames) :
    Ghost_TouchRevive s = Ghost_AutoReviveAll_Tick s := by
  have hen : Ghost_FeatureEnabled s = true := by simp [Ghost_FeatureEnabled, h2]
  unfold Ghost_TouchRevive
  simp only [hen, Bool.true_eq_false, if_false]
  apply forPlayers_inv touchReviveBody (fun st => st = Ghost_AutoReviveAll_Tick s) _ rfl
  intro st j j1 j2 hst
  have hnum := (tick_fire_slot s 1 (le_refl 1) hn hall hfire).1
  rw [hnum] at j2
  have hg : st.s_isGhost j = false := by
    rw [hst]; exact (tick_fire_slot s j j1 j2 hall hfire).2.1
  have : touchReviveBody st j = st := by
    unfold touchReviveBody
    simp [hg]
  rw [this]; exact hst

/-- C17 (amended). Let `g` be a living active ghost whose countdown is still
positive after enforcement (above 1 on entry), with `numPlayers ≠ 2`; write
`pre = touchReviveUpTo s g` for the state in which the loop of
`Ghost_TouchRevive` reaches `g`.

Unless the all-ghosts failsafe fires in this call, `g` stays a ghost and the
seek block moves it.  In `pre`, every player that is not a ghost on entry or has
an index of at least `g` is as on entry.  If no other active player is living
and not a ghost in `pre`, the position of `g` is unchanged.  Otherwise let `t`
be the living non-ghost active player other than `g` of least L1 centre
distance in `pre` (least index among those), `dx`, `dy` the differences of the
centres of `t` and `g`: with `|dx| + |dy| = 0` the position is unchanged, and
else `X` grows by `k * dx / (|dx| + |dy|)` and `Y` by `k * dy / (|dx| + |dy|)`,
where `k` is 7 if `g` holds Run or AltRun and 3 if not.

If the failsafe fires (every active player a ghost and the counter reaching
`kAllGhostAutoReviveFrames`), `g` is revived in place: no ghost any more, `X`
unchanged, `Y` lowered by 8. -/
theorem C17_seek_runs_in_window (s : GhostState) (g : Int)
    (h2 : s.numPlayers ≠ 2) (hg : Ghost_IsGhost s g = true)
    (hd : (s.Player g).Dead = false) (hm : s.s_ghostMinFrames g > 1) :
    (((∃ j, 1 ≤ j ∧ j ≤ s.numPlayers ∧ s.s_isGhost j = false) ∨
        s.s_allGhostFrames + 1 < kAllGhostAutoReviveFrames) →
      Ghost_IsGhost (Ghost_TouchRevive s) g = true ∧
      (∀ a, (s.s_isGhost a = false ∨ g ≤ a) →
        (touchReviveUpTo s g).Player a = s.Player a ∧
        (touchReviveUpTo s g).s_isGhost a = s.s_isGhost a) ∧
      ((∀ a, 1 ≤ a → a ≤ s.numPlayers → a ≠ g →
          aliveNotGhost (touchReviveUpTo s g) a = false) →
        ((Ghost_TouchRevive s).Player g).Location.X = (s.Player g).Location.X ∧
        ((Ghost_TouchRevive s).Player g).Location.Y = (s.Player g).Location.Y) ∧
      (∀ t, 1 ≤ t → t ≤ s.numPlayers → t ≠ g →
        aliveNotGhost (touchReviveUpTo s g) t = true →
        (∀ a, 1 ≤ a → a ≤ s.numPlayers → a ≠ g →
          aliveNotGhost (touchReviveUpTo s g) a = true →
          centreDist (touchReviveUpTo s g) g t ≤ centreDist (touchReviveUpTo s g) g a ∧
          (centreDist (touchReviveUpTo s g) g a = centreDist (touchReviveUpTo s g) g t →
            t ≤ a)) →
        ∀ dx dy : num_t,
          dx = ((touchReviveUpTo s g).Player t).Location.X +
              ((touchReviveUpTo s g).Player t).Location.Width / 2 -
              ((s.Player g).Location.X + (s.Player g).Location.Width / 2) →
          dy = ((touchReviveUpTo s g).Player t).Location.Y +
              ((touchReviveUpTo s g).Player t).Location.Height / 2 -
              ((s.Player g).Location.Y + (s.Player g).Location.Height / 2) →
          (|dx| + |dy| = 0 →
            ((Ghost_TouchRevive s).Player g).Location.X = (s.Player g).Location.X ∧
            ((Ghost_TouchRevive s).Player g).Location.Y = (s.Player g).Location.Y) ∧
          (|dx| + |dy| > 0 →
            ((Ghost_TouchRevive s).Player g).Location.X = (s.Player g).Location.X +
              (if ((s.Player g).Controls.Run || (s.Player g).Controls.AltRun) = true
                then (7 : num_t) else 3) * (dx / (|dx| + |dy|)) ∧
            ((Ghost_TouchRevive s).Player g).Location.Y = (s.Player g).Location.Y +
              (if ((s.Player g).Controls.Run || (s.Player g).Controls.AltRun) = true
                then (7 : num_t) else 3) * (dy / (|dx| + |dy|))))) ∧
    ((∀ j, 1 ≤ j → j ≤ s.numPlayers → s.s_isGhost j = true) →
      s.s_allGhostFrames + 1 ≥ kAllGhostAutoReviveFrames →
      Ghost_IsGhost (Ghost_TouchRevive s) g = false ∧
      ((Ghost_TouchRevive s).Player g).Location.X = (s.Player g).Location.X ∧
      ((Ghost_TouchRevive s).Player g).Location.Y = (s.Player g).Location.Y - 8) := by
  have hr : 1 ≤ g ∧ g ≤ s.numPlayers ∧ s.s_isGhost g = true := by
    unfold Ghost_IsGhost at hg
    split at hg
    · exact absurd hg (by decide)
    · rename_i hr
      exact ⟨by omega, by omega, hg⟩
  obtain ⟨g1, g2, gg⟩ := hr
  have hen : Ghost_FeatureEnabled s = true := by simp [Ghost_FeatureEnabled, h2]
  constructor
  · intro hq
    obtain ⟨c, htick⟩ := tick_quiet s hq
    -- the state when the loop reaches `g`
    have hpre := touchLoopOver_slot g (playerIds (g - 1)) (Ghost_AutoReviveAll_Tick s)
      (fun hmem => by have := (mem_playerIds _ _).mp hmem; omega)
    have hpre' : (touchReviveUpTo s g).numPlayers = s.numPlayers ∧
        (touchReviveUpTo s g).Player g = s.Player g ∧
        (touchReviveUpTo s g).s_isGhost g = true ∧
        (touchReviveUpTo s g).s_ghostMinFrames g = s.s_ghostMinFrames g := by
      unfold touchReviveUpTo
      obtain ⟨p1, p2, p3, p4⟩ := hpre
      rw [p1, p2, p3, p4, htick]
      exact ⟨rfl, rfl, gg, rfl⟩
    obtain ⟨pn, pp, pg, pm⟩ := hpre'
    have hwin := touchReviveBody_window (touchReviveUpTo s g) g g1 (by rw [pn]; exact g2) pg
      (by rw [pp]; exact hd) (by rw [pm]; exact hm)
    -- the whole loop, split at `g`
    have hsplit : Ghost_TouchRevive s =
        (idsFrom (g + 1) (s.numPlayers - g).toNat).foldl touchReviveBody
          (touchReviveBody (touchReviveUpTo s g) g) := by
      unfold Ghost_TouchRevive
      simp only [hen, Bool.true_eq_false, if_false]
      rw [forPlayers_def]
      have hn : (Ghost_AutoReviveAll_Tick s).numPlayers = s.numPlayers := by rw [htick]
      rw [hn, playerIds_split s.numPlayers g g1 g2, List.foldl_append, List.foldl_cons]
      rfl
    have hpost := touchLoopOver_slot g (idsFrom (g + 1) (s.numPlayers - g).toNat)
      (touchReviveBody (touchReviveUpTo s g) g)
      (fun hmem => by have := (mem_idsFrom _ _ _).mp hmem; omega)
    rw [← hsplit] at hpost
    obtain ⟨q1, q2, q3, _⟩ := hpost
    have hloc : ((Ghost_TouchRevive s).Player g).Location =
        ((ghostSeek (Ghost_KeepStateAlive (touchReviveUpTo s g) g) g).Player g).Location := by
      rw [q2, hwin.1]
    -- the enforced state the seek block reads
    have hk := keepAlive_ghost (touchReviveUpTo s g) g g1 (by rw [pn]; exact g2) pg
    obtain ⟨kn, kg, _, _⟩ := keepAlive_saved (touchReviveUpTo s g) g
    have hkg : ((Ghost_KeepStateAlive (touchReviveUpTo s g) g).Player g).Location.X =
          (s.Player g).Location.X ∧
        ((Ghost_KeepStateAlive (touchReviveUpTo s g) g).Player g).Location.Y =
          (s.Player g).Location.Y ∧
        ((Ghost_KeepStateAlive (touchReviveUpTo s g) g).Player g).Location.Width =
          (s.Player g).Location.Width ∧
        ((Ghost_KeepStateAlive (touchReviveUpTo s g) g).Player g).Location.Height =
          (s.Player g).Location.Height ∧
        ((Ghost_KeepStateAlive (touchReviveUpTo s g) g).Player g).Controls =
          (s.Player g).Controls := by
      rw [hk]
      simp only [upd_same, pp]
      exact ⟨by trivial, by trivial, by trivial, by trivial, by trivial⟩
    have hko : ∀ a, a ≠ g → (Ghost_KeepStateAlive (touchReviveUpTo s g) g).Player a =
        (touchReviveUpTo s g).Player a := by
      intro a ha
      exact ((keepAlive_frame (touchReviveUpTo s g) g).2.2.2 a ha).1
    have halive : ∀ a, aliveNotGhost (Ghost_KeepStateAlive (touchReviveUpTo s g) g) a =
        aliveNotGhost (touchReviveUpTo s g) a := by
      intro a
      simp only [aliveNotGhost, kg, keepAlive_dead]
    have hdist : ∀ a, a ≠ g →
        centreDist (Ghost_KeepStateAlive (touchReviveUpTo s g) g) g a =
          centreDist (touchReviveUpTo s g) g a := by
      intro a ha
      simp only [centreDist, hko a ha, hkg.1, hkg.2.1, hkg.2.2.1, hkg.2.2.2.1, pp]
    refine ⟨?_, ?_, ?_, ?_⟩
    · rw [isGhost_in_range _ g g1 (by rw [q1, hwin.2.2, pn]; exact g2), q3]
      exact hwin.2.1
    · intro a ha
      have hmemb : (Ghost_AutoReviveAll_Tick s).s_isGhost a = false ∨ a ∉ playerIds (g - 1) := by
        rcases ha with h | h
        · left; rw [htick]; exact h
        · right
          intro hmem
          have := (mem_playerIds _ _).mp hmem
          omega
      obtain ⟨u1, u2⟩ := touchLoopOver_untouched a (playerIds (g - 1))
        (Ghost_AutoReviveAll_Tick s) hmemb
      unfold touchReviveUpTo
      rw [u1, u2, htick]
      exact ⟨rfl, rfl⟩
    · intro hnone
      have hnear : findNearestAlive (Ghost_KeepStateAlive (touchReviveUpTo s g) g) g = 0 := by
        apply findNearestAlive_none
        intro i i1 i2 ine
        rw [kn, pn] at i2
        rw [halive]
        exact hnone i i1 i2 ine
      have hseek : ghostSeek (Ghost_KeepStateAlive (touchReviveUpTo s g) g) g =
          Ghost_KeepStateAlive (touchReviveUpTo s g) g := by
        unfold ghostSeek
        simp [hnear]
      rw [hloc, hseek]
      exact ⟨hkg.1, hkg.2.1⟩
    · intro t t1 t2 tne tc tmin dx dy hdx hdy
      have hnear : findNearestAlive (Ghost_KeepStateAlive (touchReviveUpTo s g) g) g = t := by
        apply findNearestAlive_unique _ g t t1 (by rw [kn, pn]; exact t2) tne
          (by rw [halive]; exact tc)
        intro a a1 a2 ane ac
        rw [kn, pn] at a2
        rw [halive] at ac
        rw [hdist a ane, hdist t tne]
        exact tmin a a1 a2 ane ac
      have hpos := ghostSeek_position (Ghost_KeepStateAlive (touchReviveUpTo s g) g) g t hnear
        (by omega) dx dy
        (by rw [hko t tne, hkg.1, hkg.2.2.1]; exact hdx)
        (by rw [hko t tne, hkg.2.1, hkg.2.2.2.1]; exact hdy)
      rw [hkg.1, hkg.2.1, hkg.2.2.2.2] at hpos
      rw [hloc]
      exact hpos
  · intro hall hfire
    have hT := touchRevive_fire s h2 (by omega) hall hfire
    obtain ⟨_, f2, f3, f4⟩ := tick_fire_slot s g g1 g2 hall hfire
    rw [hT]
    exact ⟨isGhost_false_of_flag _ g f2, f3, f4⟩

theorem tieState_upTo_alive :
    aliveNotGhost (touchReviveUpTo tieState 4) 1 = true ∧
    aliveNotGhost (touchReviveUpTo tieState 4) 2 = true ∧
    aliveNotGhost (touchReviveUpTo tieState 4) 3 = true := by
  decide

theorem tieState_upTo_dist :
    centreDist (touchReviveUpTo tieState 4) 4 1 = 30 ∧
    centreDist (touchReviveUpTo tieState 4) 4 2 = 10 ∧
    centreDist (touchReviveUpTo tieState 4) 4 3 = 10 := by
  norm_num [touchReviveUpTo, Ghost_AutoReviveAll_Tick, forPlayers,
    playerIds, idsFrom, countLoop, touchReviveBody, Ghost_KeepStateAlive, ghostSeek,
    findNearestAlive, nearestStep, centreDist, touchLoop, aabbOverlap, Ghost_ReviveFromGhost,
    Ghost_IsGhost, tieState, Ghost_MakeGhost, initState, upd, playerAt, chordPlayer, loc0,
    kGhostMinFrames]

theorem tieState_upTo_offset :
    (10 : num_t) = ((touchReviveUpTo tieState 4).Player 2).Location.X +
        ((touchReviveUpTo tieState 4).Player 2).Location.Width / 2 -
        ((tieState.Player 4).Location.X + (tieState.Player 4).Location.Width / 2) ∧
    (0 : num_t) = ((touchReviveUpTo tieState 4).Player 2).Location.Y +
        ((touchReviveUpTo tieState 4).Player 2).Location.Height / 2 -
        ((tieState.Player 4).Location.Y + (tieState.Player 4).Location.Height / 2) := by
  norm_num [touchReviveUpTo, Ghost_AutoReviveAll_Tick, forPlayers,
    playerIds, idsFrom, countLoop, touchReviveBody, Ghost_KeepStateAlive, ghostSeek,
    findNearestAlive, nearestStep, centreDist, touchLoop, aabbOverlap, Ghost_ReviveFromGhost,
    Ghost_IsGhost, tieState, Ghost_MakeGhost, initState, upd, playerAt, chordPlayer, loc0,
    kGhostMinFrames]

theorem tieState_start :
    (tieState.Player 4).Location.X = 0 ∧ (tieState.Player 4).Location.Y = 0 ∧
    ((tieState.Player 4).Controls.Run || (tieState.Player 4).Controls.AltRun) = true := by
  simp [tieState, Ghost_MakeGhost, initState, upd, chordPlayer, loc0]

theorem tieState_moves :
    ((Ghost_TouchRevive tieState).Player 4).Location.X = 7 := by
  norm_num [Ghost_TouchRevive, Ghost_FeatureEnabled, Ghost_AutoReviveAll_Tick, forPlayers,
    playerIds, idsFrom, countLoop, touchReviveBody, Ghost_KeepStateAlive, ghostSeek,
    findNearestAlive, nearestStep, centreDist, touchLoop, aabbOverlap, Ghost_ReviveFromGhost,
    Ghost_IsGhost, tieState, Ghost_MakeGhost, initState, upd, playerAt, chordPlayer, loc0,
    kGhostMinFrames]

theorem failsafeDue_moves :
    (failsafeDue.Player 1).Location.Y = 0 ∧
    ((Ghost_TouchRevive failsafeDue).Player 1).Location.Y = -8 := by
  norm_num [Ghost_TouchRevive, Ghost_FeatureEnabled, Ghost_AutoReviveAll_Tick, forPlayers,
    playerIds, idsFrom, countLoop, touchReviveBody, Ghost_KeepStateAlive, ghostSeek,
    findNearestAlive, nearestStep, centreDist, touchLoop, aabbOverlap, Ghost_ReviveFromGhost,
    autoReviveBody, Ghost_IsGhost, failsafeDue, oneGhost, Ghost_MakeGhost, initState, upd,
    chordPlayer, loc0, kGhostMinFrames, kAllGhostAutoReviveFrames, kRevivePopUpPx]

/-- Counterexample to C17 as stated.  Ghost 4 of `tieState` (countdown 30, so
still positive after enforcement) stands at x = 0 with the nearest living
non-ghost player 10 to its right and holds Run; one `Ghost_TouchRevive` moves
it to x = 7.  Ghost 1 of `failsafeDue` (countdown 30 as well) is the only
player and the all-ghosts counter is due; one `Ghost_TouchRevive` revives it
and moves it from y = 0 to y = -8. -/
theorem C17_ghost_moves_in_window :
    tieState.numPlayers ≠ 2 ∧ Ghost_IsGhost tieState 4 = true ∧
    (tieState.Player 4).Dead = false ∧
    (Ghost_KeepStateAlive tieState 4).s_ghostMinFrames 4 > 0 ∧
    (tieState.Player 4).Location.X = 0 ∧
    ((Ghost_TouchRevive tieState).Player 4).Location.X = 7 ∧
    ((Ghost_TouchRevive tieState).Player 4).Location.X ≠ (tieState.Player 4).Location.X ∧
    failsafeDue.numPlayers ≠ 2 ∧ Ghost_IsGhost failsafeDue 1 = true ∧
    (failsafeDue.Player 1).Dead = false ∧
    (Ghost_KeepStateAlive failsafeDue 1).s_ghostMinFrames 1 > 0 ∧
    (failsafeDue.Player 1).Location.Y = 0 ∧
    ((Ghost_TouchRevive failsafeDue).Player 1).Location.Y = -8 ∧
    ((Ghost_TouchRevive failsafeDue).Player 1).Location.Y ≠
      (failsafeDue.Player 1).Location.Y := by
  have h0 : (tieState.Player 4).Location.X = 0 := tieState_start.1
  refine ⟨by decide, by decide, by decide, by decide, h0, tieState_moves, ?_,
    by decide, by decide, by decide, by decide, failsafeDue_moves.1, failsafeDue_moves.2, ?_⟩
  · rw [tieState_moves, h0]
    norm_num
  · rw [failsafeDue_moves.2, failsafeDue_moves.1]
    norm_num

/-- Witness for C17 (amended).  Ghost 4 of `tieState` holds Run and has its
nearest target, player 2, 10 to the right: it stays a ghost and glides 7 to the
right.  Ghost 2 of `deadAndGhosts`, with no living non-ghost player around,
keeps its position.  Ghost 1 of `failsafeDue` is revived in place, 8 up. -/
theorem C17_seek_runs_in_window_witness :
    (tieState.numPlayers ≠ 2 ∧ Ghost_IsGhost tieState 4 = true ∧
      (tieState.Player 4).Dead = false ∧ tieState.s_ghostMinFrames 4 > 1) ∧
    Ghost_IsGhost (Ghost_TouchRevive tieState) 4 = true ∧
    (tieState.Player 4).Location.X = 0 ∧ (tieState.Player 4).Location.Y = 0 ∧
    ((Ghost_TouchRevive tieState).Player 4).Location.X = 7 ∧
    ((Ghost_TouchRevive tieState).Player 4).Location.Y = 0 ∧
    (deadAndGhosts.numPlayers ≠ 2 ∧ Ghost_IsGhost deadAndGhosts 2 = true ∧
      (deadAndGhosts.Player 2).Dead = false ∧ deadAndGhosts.s_ghostMinFrames 2 > 1) ∧
    ((Ghost_TouchRevive deadAndGhosts).Player 2).Location.X =
      (deadAndGhosts.Player 2).Location.X ∧
    ((Ghost_TouchRevive deadAndGhosts).Player 2).Location.Y =
      (deadAndGhosts.Player 2).Location.Y ∧
    (failsafeDue.numPlayers ≠ 2 ∧ Ghost_IsGhost failsafeDue 1 = true ∧
      (failsafeDue.Player 1).Dead = false ∧ failsafeDue.s_ghostMinFrames 1 > 1) ∧
    Ghost_IsGhost (Ghost_TouchRevive failsafeDue) 1 = false ∧
    ((Ghost_TouchRevive failsafeDue).Player 1).Location.X =
      (failsafeDue.Player 1).Location.X ∧
    ((Ghost_TouchRevive failsafeDue).Player 1).Location.Y =
      (failsafeDue.Player 1).Location.Y - 8 := by
  have h := (C17_seek_runs_in_window tieState 4 (by decide) (by decide) (by decide)
    (by decide)).1 (Or.inl ⟨1, by decide, by decide, by decide⟩)
  have hglide := (h.2.2.2 2 (by decide) (by decide) (by decide) tieState_upTo_alive.2.1
    (fun a a1 a2 ane _ => by
      have a3 : a ≤ 4 := a2
      have hcases : a = 1 ∨ a = 2 ∨ a = 3 := by omega
      rcases hcases with rfl | rfl | rfl
      · rw [tieState_upTo_dist.1, tieState_upTo_dist.2.1]; norm_num
      · exact ⟨le_refl _, fun _ => le_refl _⟩
      · rw [tieState_upTo_dist.2.1, tieState_upTo_dist.2.2]; norm_num)
    10 0 tieState_upTo_offset.1 tieState_upTo_offset.2).2 (by norm_num)
  rw [tieState_start.1, tieState_start.2.1, if_pos tieState_start.2.2] at hglide
  have h' := (C17_seek_runs_in_window deadAndGhosts 2 (by decide) (by decide) (by decide)
    (by decide)).1 (Or.inl ⟨1, by decide, by decide, by decide⟩)
  have hstay := h'.2.2.1 (fun a a1 a2 hne => by
    have a3 : a ≤ 3 := a2
    have hcases : a = 1 ∨ a = 3 := by omega
    rcases hcases with rfl | rfl <;> decide)
  have hfire := (C17_seek_runs_in_window failsafeDue 1 (by decide) (by decide) (by decide)
    (by decide)).2 (fun j j1 j2 => by
      have j3 : j ≤ 1 := j2
      have hj : j = 1 := by omega
      subst hj
      decide) (by decide)
  refine ⟨⟨by decide, by decide, by decide, by decide⟩, h.1, tieState_start.1,
    tieState_start.2.1, ?_, ?_, ⟨by decide, by decide, by decide, by decide⟩, hstay.1,
    hstay.2, ⟨by decide, by decide, by decide, by decide⟩, hfire.1, hfire.2.1, hfire.2.2⟩
  · rw [hglide.1]; norm_num
  · rw [hglide.2]; norm_num
/-! ## C18: rising-edge chord detection -/

theorem countP_ge_two (p : Int → Bool) (i j : Int) (hij : i ≠ j) (hi : p i = true)
    (hj : p j = true) :
    ∀ l : List Int, l.Nodup → i ∈ l → j ∈ l → 2 ≤ l.countP p := by
  intro l
  induction l with
  | nil => intro _ h; exact absurd h (List.not_mem_nil i)
  | cons a l ih =>
    intro hnd hil hjl
    have hnd2 := List.nodup_cons.mp hnd
    have hone : ∀ k, k ∈ l → p k = true → 1 ≤ l.countP p := by
      intro k hk hpk
      exact List.countP_pos_iff.mpr ⟨k, hk, hpk⟩
    rcases List.mem_cons.mp hil with hia | hil'
    · rcases List.mem_cons.mp hjl with hja | hjl'
      · exact absurd (hia.trans hja.symm) hij
      · rw [List.countP_cons_of_pos _ _ (by rw [← hia]; exact hi)]
        have := hone j hjl' hj
        omega
    · rcases List.mem_cons.mp hjl with hja | hjl'
      · rw [List.countP_cons_of_pos _ _ (by rw [← hja]; exact hj)]
        have := hone i hil' hi
        omega
      · have := ih hnd2.2 hil' hjl'
        have hle : l.countP p ≤ (a :: l).countP p := by
          rw [List.countP_cons]
          omega
        omega

/-- The count of a counting loop is at least 2 exactly when two different
active players pass the test. -/
theorem countLoop_ge_two_iff (p : Int → Bool) (n : Int) :
    2 ≤ countLoop p (playerIds n) ↔
      ∃ i j, i ≠ j ∧ 1 ≤ i ∧ i ≤ n ∧ 1 ≤ j ∧ j ≤ n ∧ p i = true ∧ p j = true := by
  constructor
  · intro h
    by_contra hno
    have hle : countLoop p (playerIds n) ≤ 1 := by
      by_cases hex : ∃ i, 1 ≤ i ∧ i ≤ n ∧ p i = true
      · obtain ⟨i, i1, i2, hi⟩ := hex
        apply countLoop_le_one p i n
        intro k k1 k2 hk
        by_contra hne
        exact hno ⟨k, i, hne, k1, k2, i1, i2, hk, hi⟩
      · apply countLoop_le_one p 0 n
        intro k k1 k2 hk
        exact absurd ⟨k, k1, k2, hk⟩ hex
    omega
  · rintro ⟨i, j, hij, i1, i2, j1, j2, hi, hj⟩
    rw [countLoop_eq_countP]
    have := countP_ge_two p i j hij hi hj (playerIds n) (playerIds_nodup n)
      ((mem_playerIds n i).mpr ⟨i1, i2⟩) ((mem_playerIds n j).mpr ⟨j1, j2⟩)
    exact_mod_cast this

theorem chordView_of_sameExcept {j id : Int} {a b : GhostState} (h : sameExcept j a b)
    (hne : j ≠ id) : chordView id a = chordView id b := by
  obtain ⟨h1, _, _, h4⟩ := h
  obtain ⟨x1, _, _, x4, _, _, _, _, _, _, x11, x12⟩ := h4 id (Ne.symm hne)
  simp [chordView, h1, x1, x4, x11, x12]

theorem isChordHeld_congr {id : Int} {a b : GhostState} (h : chordView id a = chordView id b) :
    isChordHeld a id = isChordHeld b id := by
  simp only [chordView, Prod.mk.injEq] at h
  simp only [isChordHeld, h.1, h.2.1]

/-- The chord-loop iteration for an active player `id`, on the data of `id`. -/
theorem selfGhostBody_slot (c : Int) (st : GhostState) (id : Int)
    (h1 : 1 ≤ id) (h2 : id ≤ st.numPlayers) :
    (selfGhostBody c st id).s_selfGhostCooldown id = st.s_selfGhostCooldown id ∧
    (((st.Player id).Dead = true ∨ st.s_isGhost id = true) →
      (selfGhostBody c st id).s_isGhost id = st.s_isGhost id ∧
      (selfGhostBody c st id).s_prevChordHeld id = false) ∧
    ((st.Player id).Dead = false → st.s_isGhost id = false →
      (selfGhostBody c st id).s_prevChordHeld id = isChordHeld st id ∧
      ((selfGhostBody c st id).s_isGhost id = true ↔
        isChordHeld st id = true ∧ st.s_prevChordHeld id = false ∧
        ¬ st.s_selfGhostCooldown id > 0 ∧ 2 ≤ c)) := by
  have hr : ¬ (id < 1 ∨ id > st.numPlayers) := by omega
  refine ⟨?_, ?_, ?_⟩
  · unfold selfGhostBody
    split
    · rfl
    · split
      · rfl
      · split
        · rfl
        · simp only
          split
          · split
            · simp [Ghost_MakeGhost]
              split <;> (try split) <;> rfl
            · rfl
          · rfl
  · intro h
    unfold selfGhostBody
    rcases h with h | h
    · simp [h, upd_same]
    · by_cases hd : (st.Player id).Dead = true
      · simp [hd, upd_same]
      · simp [hd, h, upd_same]
  · intro hd hg
    unfold selfGhostBody
    simp only [hd, hg, Bool.false_eq_true, if_false]
    by_cases hcd : st.s_selfGhostCooldown id > 0
    · simp [hcd, upd_same, hg]
    · simp only [hcd, if_false, upd_same]
      by_cases hedge : isChordHeld st id = true ∧ st.s_prevChordHeld id = false
      · simp only [hedge, and_self, if_true]
        by_cases hc : c ≤ 1
        · have : ¬ 2 ≤ c := by omega
          simp [hc, hg, this, upd_same]
        · have : 2 ≤ c := by omega
          simp [hc, this, Ghost_MakeGhost, hr, hg, hd, upd_same]
      · simp only [hedge, if_false, upd_same, hg]
        simp only [not_and] at hedge
        constructor
        · trivial
        · constructor
          · intro h; exact absurd h (by decide)
          · rintro ⟨a, b, _, _⟩
            exact absurd b (by simpa using hedge a)

theorem cooldownBody_chordView (st : GhostState) (id : Int) :
    chordView id (cooldownBody st id) =
      (st.numPlayers, st.Player id, st.s_isGhost id,
        (if st.s_selfGhostCooldown id > 0 then st.s_selfGhostCooldown id - 1
         else st.s_selfGhostCooldown id), st.s_prevChordHeld id) := by
  unfold cooldownBody
  split
  · simp [chordView, upd_same]
  · rfl

/-- `Ghost_SelfGhostByButtons` with the feature enabled, seen from an active
player `id`: the data of `id` after the call are those the chord-loop iteration
for `id` produces, with the survivor count of the entry state, on a state whose
data of `id` are the entry data with the cooldown counted down. -/
theorem selfGhost_view (s : GhostState) (id : Int) (hn : s.numPlayers ≠ 2)
    (h1 : 1 ≤ id) (h2 : id ≤ s.numPlayers) :
    ∃ st, chordView id st =
        (s.numPlayers, s.Player id, s.s_isGhost id,
          (if s.s_selfGhostCooldown id > 0 then s.s_selfGhostCooldown id - 1
           else s.s_selfGhostCooldown id), s.s_prevChordHeld id) ∧
      chordView id (Ghost_SelfGhostByButtons s) =
        chordView id
          (selfGhostBody (countLoop (aliveNotGhost s) (playerIds s.numPlayers)) st id) := by
  have hen : Ghost_FeatureEnabled s = true := by simp [Ghost_FeatureEnabled, hn]
  obtain ⟨cn, cp, cg⟩ := cooldownLoop_frame s
  have hmem : id ∈ playerIds s.numPlayers := (mem_playerIds _ _).mpr ⟨h1, h2⟩
  obtain ⟨st1, v1, w1⟩ := (foldl_view cooldownBody (chordView id) id
    (fun st j hne => chordView_of_sameExcept (cooldownBody_sameExcept st j) hne)
    (playerIds s.numPlayers) s (playerIds_nodup _)).2 hmem
  have hs1 : chordView id (forPlayers cooldownBody s) =
      (s.numPlayers, s.Player id, s.s_isGhost id,
        (if s.s_selfGhostCooldown id > 0 then s.s_selfGhostCooldown id - 1
         else s.s_selfGhostCooldown id), s.s_prevChordHeld id) := by
    rw [forPlayers_def, w1, cooldownBody_chordView]
    simp only [chordView, Prod.mk.injEq] at v1
    obtain ⟨a, b, c, d, e⟩ := v1
    rw [a, b, c, d, e]
  have hcount : countLoop (aliveNotGhost (forPlayers cooldownBody s))
      (playerIds (forPlayers cooldownBody s).numPlayers) =
      countLoop (aliveNotGhost s) (playerIds s.numPlayers) := by
    rw [cn]
    have : aliveNotGhost (forPlayers cooldownBody s) = aliveNotGhost s := by
      funext i
      simp [aliveNotGhost, cp, cg]
    rw [this]
  obtain ⟨st2, v2, w2⟩ := (foldl_view
    (selfGhostBody (countLoop (aliveNotGhost s) (playerIds s.numPlayers))) (chordView id) id
    (fun st j hne => chordView_of_sameExcept (selfGhostBody_frame _ st j) hne)
    (playerIds s.numPlayers) (forPlayers cooldownBody s) (playerIds_nodup _)).2 hmem
  refine ⟨st2, v2.trans hs1, ?_⟩
  unfold Ghost_SelfGhostByButtons
  simp only [hen, Bool.true_eq_false, if_false]
  rw [hcount, forPlayers_def (selfGhostBody _), cn]
  exact w2

/-- C18 (amended). For an active player `id`: if `s_prevChordHeld[id]` is true
on entry, `Ghost_SelfGhostByButtons` does not change its ghost flag; a living
non-ghost `id` (cooldown not negative) becomes a ghost in the call if and only
if its chord is held, `s_prevChordHeld[id]` was false, its cooldown after this
call's decrement is 0, `numPlayers ≠ 2`, and two different active players were
living non-ghosts on entry.  When `numPlayers ≠ 2`, `s_prevChordHeld[id]` is
afterwards the current chord state for a player living and non-ghost on entry
and false for a dead or ghost one; when `numPlayers = 2` the call changes
nothing, `s_prevChordHeld` included. -/
theorem C18_rising_edge (s : GhostState) (id : Int) (h1 : 1 ≤ id) (h2 : id ≤ s.numPlayers) :
    (s.s_prevChordHeld id = true →
      (Ghost_SelfGhostByButtons s).s_isGhost id = s.s_isGhost id) ∧
    ((s.Player id).Dead = false → s.s_isGhost id = false → 0 ≤ s.s_selfGhostCooldown id →
      ((Ghost_SelfGhostByButtons s).s_isGhost id = true ↔
        isChordHeld s id = true ∧ s.s_prevChordHeld id = false ∧
        (Ghost_SelfGhostByButtons s).s_selfGhostCooldown id = 0 ∧ s.numPlayers ≠ 2 ∧
        ∃ i j, i ≠ j ∧ 1 ≤ i ∧ i ≤ s.numPlayers ∧ 1 ≤ j ∧ j ≤ s.numPlayers ∧
          aliveNotGhost s i = true ∧ aliveNotGhost s j = true)) ∧
    (s.numPlayers ≠ 2 →
      ((s.Player id).Dead = false → s.s_isGhost id = false →
        (Ghost_SelfGhostByButtons s).s_prevChordHeld id = isChordHeld s id) ∧
      (((s.Player id).Dead = true ∨ s.s_isGhost id = true) →
        (Ghost_SelfGhostByButtons s).s_prevChordHeld id = false)) ∧
    (s.numPlayers = 2 → Ghost_SelfGhostByButtons s = s) := by
  by_cases hn : s.numPlayers = 2
  · have hsame : Ghost_SelfGhostByButtons s = s := by
      simp [Ghost_SelfGhostByButtons, Ghost_FeatureEnabled, hn]
    rw [hsame]
    refine ⟨fun _ => rfl, ?_, fun h => absurd hn h, fun _ => rfl⟩
    intro _ hg _
    rw [hg]
    constructor
    · intro h; exact absurd h (by decide)
    · rintro ⟨_, _, _, h, _⟩; exact absurd hn h
  · obtain ⟨st, hst, hfin⟩ := selfGhost_view s id hn h1 h2
    have hheld : isChordHeld st id = isChordHeld s id := by
      simp only [chordView, Prod.mk.injEq] at hst
      simp only [isChordHeld, hst.1, hst.2.1]
    simp only [chordView, Prod.mk.injEq] at hst hfin
    obtain ⟨e1, e2, e3, e4, e5⟩ := hst
    obtain ⟨_, _, f3, f4, f5⟩ := hfin
    obtain ⟨b1, b2, b3⟩ := selfGhostBody_slot
      (countLoop (aliveNotGhost s) (playerIds s.numPlayers)) st id h1 (by rw [e1]; exact h2)
    rw [e2, e3] at b2 b3
    rw [← f3, ← f5, hheld, e5] at b3
    rw [← f3, ← f5] at b2
    rw [← f4, e4] at b1
    refine ⟨?_, ?_, fun _ => ⟨fun hd hg => (b3 hd hg).1, fun h => (b2 h).2⟩,
      fun h => absurd h hn⟩
    · intro hprev
      by_cases hdg : (s.Player id).Dead = true ∨ s.s_isGhost id = true
      · exact (b2 hdg).1
      · rw [not_or] at hdg
        simp only [Bool.not_eq_true] at hdg
        have := (b3 hdg.1 hdg.2).2
        rw [hdg.2]
        by_contra hne
        simp only [Bool.not_eq_false] at hne
        have h := (this.mp hne).2.1
        rw [hprev] at h
        exact absurd h (by decide)
    · intro hd hg hcd
      rw [(b3 hd hg).2, b1, e4, countLoop_ge_two_iff]
      have hcool : (¬ (if s.s_selfGhostCooldown id > 0 then s.s_selfGhostCooldown id - 1
          else s.s_selfGhostCooldown id) > 0) ↔
          (if s.s_selfGhostCooldown id > 0 then s.s_selfGhostCooldown id - 1
            else s.s_selfGhostCooldown id) = 0 := by
        split <;> omega
      rw [hcool]
      constructor
      · rintro ⟨a, b, c, d⟩
        exact ⟨a, b, c, hn, d⟩
      · rintro ⟨a, b, c, _, d⟩
        exact ⟨a, b, c, d⟩

/-- Counterexample to C18 as stated: with two active players the feature gate
returns at once, so for the living non-ghost player 1, who holds the chord,
`s_prevChordHeld[1]` is still false after the call and not the chord state. -/
theorem C18_gate_keeps_prevChordHeld :
    (1 : Int) ≤ twoChords.numPlayers ∧
    (twoChords.Player 1).Dead = false ∧ twoChords.s_isGhost 1 = false ∧
    isChordHeld twoChords 1 = true ∧
    (Ghost_SelfGhostByButtons twoChords).s_prevChordHeld 1 = false ∧
    (Ghost_SelfGhostByButtons twoChords).s_prevChordHeld 1 ≠ isChordHeld twoChords 1 := by
  decide

/-- Witness for C18 (amended): a held chord does not re-trigger (`heldChords`);
a rising edge among three survivors ghosts player 1 and records the chord
(`threeChords`); a ghost's record is cleared (`lastSurvivor`, player 2); two
players change nothing (`twoChords`). -/
theorem C18_rising_edge_witness :
    (Ghost_SelfGhostByButtons heldChords).s_isGhost 1 = heldChords.s_isGhost 1 ∧
    (Ghost_SelfGhostByButtons threeChords).s_isGhost 1 = true ∧
    (Ghost_SelfGhostByButtons threeChords).s_prevChordHeld 1 = isChordHeld threeChords 1 ∧
    (Ghost_SelfGhostByButtons lastSurvivor).s_prevChordHeld 2 = false ∧
    Ghost_SelfGhostByButtons twoChords = twoChords :=
  ⟨(C18_rising_edge heldChords 1 (by decide) (by decide)).1 (by decide),
   ((C18_rising_edge threeChords 1 (by decide) (by decide)).2.1 (by decide) (by decide)
      (by decide)).mpr
     ⟨by decide, by decide, by decide, by decide,
      ⟨1, 2, by decide, by decide, by decide, by decide, by decide, by decide, by decide⟩⟩,
   ((C18_rising_edge threeChords 1 (by decide) (by decide)).2.2.1 (by decide)).1 (by decide)
     (by decide),
   ((C18_rising_edge lastSurvivor 2 (by decide) (by decide)).2.2.1 (by decide)).2
     (Or.inr (by decide)),
   (C18_rising_edge twoChords 1 (by decide) (by decide)).2.2.2 (by decide)⟩

/-! ## C19: ghosts are intangible -/

/-- The invariant reads the roster size, the player records and the ghost flags
only. -/
theorem gi_congr {n : Int} {a b : GhostState} (h : GhostsIntangible n a)
    (h1 : b.numPlayers = a.numPlayers) (h2 : b.Player = a.Player)
    (h3 : b.s_isGhost = a.s_isGhost) : GhostsIntangible n b := by
  unfold GhostsIntangible
  rw [h1, h2, h3]
  exact h

/-- An operation that writes slot `j` only keeps the invariant if it keeps it
for player `j`. -/
theorem gi_step {n : Int} {st st2 : GhostState} {j : Int} (hJ : GhostsIntangible n st)
    (hf : sameExcept j st2 st)
    (hown : 1 ≤ j → j ≤ n → st2.s_isGhost j = true →
      (st2.Player j).Effect = PlayerEffect.PLREFF_NO_COLLIDE ∧ (st2.Player j).Fairy = true ∧
      (st2.Player j).FairyTime = -1) : GhostsIntangible n st2 := by
  obtain ⟨f1, _, _, f4⟩ := hf
  refine ⟨f1.trans hJ.1, ?_⟩
  intro id i1 i2 hg
  by_cases hij : id = j
  · rw [hij] at hg i1 i2 ⊢; exact hown i1 i2 hg
  · obtain ⟨x1, _, _, x4, _⟩ := f4 id hij
    rw [x1]
    rw [x4] at hg
    exact hJ.2 id i1 i2 hg

theorem gi_makeGhost {n : Int} {s : GhostState} (id : Int) (hJ : GhostsIntangible n s) :
    GhostsIntangible n (Ghost_MakeGhost s id) := by
  by_cases hguard : (id < 1 ∨ id > s.numPlayers) ∨ s.s_isGhost id = true ∨
      (s.Player id).Dead = true
  · have : Ghost_MakeGhost s id = s := by
      unfold Ghost_MakeGhost
      rcases hguard with h | h | h
      · simp [h]
      · simp [h]
      · simp [h]
    rw [this]; exact hJ
  · simp only [not_or] at hguard
    obtain ⟨⟨g1, g2⟩, g3, g4⟩ := hguard
    apply gi_step hJ (makeGhost_frame s id)
    intro _ _ _
    simp [Ghost_MakeGhost, g1, g2, g3, g4, upd_same]

theorem gi_revive {n : Int} {s : GhostState} (id t : Int) (hJ : GhostsIntangible n s) :
    GhostsIntangible n (Ghost_ReviveFromGhost s id t) := by
  by_cases hguard : (id < 1 ∨ id > s.numPlayers) ∨ s.s_isGhost id = false
  · have : Ghost_ReviveFromGhost s id t = s := by
      unfold Ghost_ReviveFromGhost
      rcases hguard with h | h
      · simp [h]
      · simp [h]
    rw [this]; exact hJ
  · simp only [not_or] at hguard
    obtain ⟨⟨g1, g2⟩, g3⟩ := hguard
    apply gi_step hJ (revive_frame s id t)
    intro _ _ hg
    exfalso
    simp [Ghost_ReviveFromGhost, g1, g2, g3, upd_same] at hg

theorem gi_keepAlive {n : Int} {s : GhostState} (id : Int) (hJ : GhostsIntangible n s) :
    GhostsIntangible n (Ghost_KeepStateAlive s id) := by
  by_cases hguard : (id < 1 ∨ id > s.numPlayers) ∨ s.s_isGhost id = false
  · have : Ghost_KeepStateAlive s id = s := by
      unfold Ghost_KeepStateAlive
      rcases hguard with h | h
      · simp [h]
      · simp [h]
    rw [this]; exact hJ
  · simp only [not_or] at hguard
    obtain ⟨⟨g1, g2⟩, g3⟩ := hguard
    apply gi_step hJ (keepAlive_frame s id)
    intro _ _ _
    simp [Ghost_KeepStateAlive, g1, g2, g3, upd_same]

theorem gi_ghostSeek {n : Int} {s : GhostState} (g : Int) (hJ : GhostsIntangible n s) :
    GhostsIntangible n (ghostSeek s g) := by
  apply gi_step hJ (ghostSeek_frame s g)
  intro g1 g2 hg
  have hsg := (ghostSeek_statics s g).2.1
  rw [hsg] at hg
  have := hJ.2 g g1 g2 hg
  unfold ghostSeek
  simp only
  split
  · split
    · simp only [upd_same]; exact this
    · exact this
  · exact this

theorem gi_touchLoop {n : Int} {s : GhostState} (g : Int) (l : List Int)
    (hJ : GhostsIntangible n s) : GhostsIntangible n (touchLoop s g l) := by
  rcases touchLoop_cases s g l with h | ⟨a, _, h⟩
  · rw [h]; exact hJ
  · rw [h]; exact gi_revive g a hJ

theorem gi_touchReviveBody {n : Int} {s : GhostState} (g : Int) (hJ : GhostsIntangible n s) :
    GhostsIntangible n (touchReviveBody s g) := by
  have h2 := gi_ghostSeek g (gi_keepAlive g hJ)
  unfold touchReviveBody
  split
  · exact hJ
  · split
    · exact hJ
    · simp only
      split
      · exact gi_congr h2 rfl rfl rfl
      · exact gi_touchLoop g _ h2

theorem gi_noSnapBody {n : Int} {s : GhostState} (j : Int) (hJ : GhostsIntangible n s) :
    GhostsIntangible n (noSnapBody s j) := by
  apply gi_step hJ (noSnapBody_frame s j)
  intro j1 j2 hg
  unfold noSnapBody at hg ⊢
  split
  · rename_i hpos
    simp only [hpos, if_true] at hg
    simp only [upd_same]
    exact hJ.2 j j1 j2 hg
  · rename_i hpos
    simp only [hpos, if_false] at hg
    exact hJ.2 j j1 j2 hg

theorem gi_oobBody {n : Int} {s : GhostState} (j : Int) (hJ : GhostsIntangible n s) :
    GhostsIntangible n (oobBody s j) := by
  unfold oobBody
  split
  · exact gi_congr hJ rfl rfl rfl
  · split
    · exact gi_congr hJ rfl rfl rfl
    · split
      · exact gi_congr hJ rfl rfl rfl
      · split
        · exact gi_congr hJ rfl rfl rfl
        · simp only
          split
          · exact gi_congr hJ rfl rfl rfl
          · split
            · have h2 : GhostsIntangible n
                  { s with s_oobFrames := upd s.s_oobFrames j (s.s_oobFrames j + oobStep s j) } :=
                gi_congr hJ rfl rfl rfl
              exact gi_congr (gi_makeGhost j h2) rfl rfl rfl
            · exact gi_congr hJ rfl rfl rfl

theorem gi_cooldownBody {n : Int} {s : GhostState} (j : Int) (hJ : GhostsIntangible n s) :
    GhostsIntangible n (cooldownBody s j) := by
  unfold cooldownBody
  split
  · exact gi_congr hJ rfl rfl rfl
  · exact hJ

theorem gi_selfGhostBody {n : Int} {s : GhostState} (c j : Int) (hJ : GhostsIntangible n s) :
    GhostsIntangible n (selfGhostBody c s j) := by
  unfold selfGhostBody
  split
  · exact gi_congr hJ rfl rfl rfl
  · split
    · exact gi_congr hJ rfl rfl rfl
    · split
      · exact gi_congr hJ rfl rfl rfl
      · simp only
        split
        · split
          · exact gi_congr (gi_makeGhost j hJ) rfl rfl rfl
          · exact gi_congr hJ rfl rfl rfl
        · exact gi_congr hJ rfl rfl rfl

theorem gi_autoReviveBody {n : Int} {s : GhostState} (j : Int) (hJ : GhostsIntangible n s) :
    GhostsIntangible n (autoReviveBody s j) := by
  unfold autoReviveBody
  split
  · exact gi_revive j 0 hJ
  · exact hJ

theorem gi_forPlayers {n : Int} {s : GhostState} (body : GhostState → Int → GhostState)
    (hb : ∀ st j, GhostsIntangible n st → GhostsIntangible n (body st j))
    (hJ : GhostsIntangible n s) : GhostsIntangible n (forPlayers body s) :=
  forPlayers_inv body (GhostsIntangible n) s hJ (fun st j _ _ h => hb st j h)

theorem gi_tick {n : Int} {s : GhostState} (hJ : GhostsIntangible n s) :
    GhostsIntangible n (Ghost_AutoReviveAll_Tick s) := by
  unfold Ghost_AutoReviveAll_Tick
  split
  · exact gi_congr hJ rfl rfl rfl
  · simp only
    split
    · split
      · have h1 : GhostsIntangible n { s with s_allGhostFrames := s.s_allGhostFrames + 1 } :=
          gi_congr hJ rfl rfl rfl
        exact gi_congr (gi_forPlayers autoReviveBody (fun st j h => gi_autoReviveBody j h) h1)
          rfl rfl rfl
      · exact gi_congr hJ rfl rfl rfl
    · exact gi_congr hJ rfl rfl rfl

theorem gi_checkOOB {n : Int} {s : GhostState} (hJ : GhostsIntangible n s) :
    GhostsIntangible n (Ghost_CheckOutOfBounds s) := by
  unfold Ghost_CheckOutOfBounds
  split
  · exact hJ
  · exact gi_forPlayers oobBody (fun st j h => gi_oobBody j h)
      (gi_tick (gi_forPlayers noSnapBody (fun st j h => gi_noSnapBody j h) hJ))

theorem gi_selfGhost {n : Int} {s : GhostState} (hJ : GhostsIntangible n s) :
    GhostsIntangible n (Ghost_SelfGhostByButtons s) := by
  unfold Ghost_SelfGhostByButtons
  split
  · exact hJ
  · exact gi_forPlayers _ (fun st j h => gi_selfGhostBody _ j h)
      (gi_forPlayers cooldownBody (fun st j h => gi_cooldownBody j h) hJ)

theorem gi_touchRevive {n : Int} {s : GhostState} (hJ : GhostsIntangible n s) :
    GhostsIntangible n (Ghost_TouchRevive s) := by
  unfold Ghost_TouchRevive
  split
  · exact hJ
  · exact gi_forPlayers touchReviveBody (fun st j h => gi_touchReviveBody j h) (gi_tick hJ)

theorem gi_trySelfGhost {n : Int} {s : GhostState} (id : Int) (hJ : GhostsIntangible n s) :
    GhostsIntangible n (Ghost_TrySelfGhost s id).2 := by
  rcases trySelfGhost_cases s id with h | ⟨h, _⟩ | ⟨h, _⟩
  · rw [h]; exact hJ
  · rw [h]; exact gi_revive id 0 hJ
  · rw [h]; exact gi_makeGhost id hJ

/-- C19. The predicate "every active ghost has `Effect == PLREFF_NO_COLLIDE`,
`Fairy == true` and `FairyTime == -1`" holds in the initial state and, for a
fixed `numPlayers = n`, is kept (together with `numPlayers`) by every operation
of the module: `Ghost_MakeGhost`, `Ghost_ReviveFromGhost`,
`Ghost_KeepStateAlive`, `Ghost_CheckOutOfBounds`, `Ghost_SelfGhostByButtons`,
`Ghost_TrySelfGhost`, `Ghost_TouchRevive`. -/
theorem C19_ghosts_intangible (n : Int) :
    (∀ players vs, GhostsIntangible n (initState n players vs)) ∧
    ∀ s, GhostsIntangible n s →
      (∀ id, GhostsIntangible n (Ghost_MakeGhost s id)) ∧
      (∀ id t, GhostsIntangible n (Ghost_ReviveFromGhost s id t)) ∧
      (∀ id, GhostsIntangible n (Ghost_KeepStateAlive s id)) ∧
      GhostsIntangible n (Ghost_CheckOutOfBounds s) ∧
      GhostsIntangible n (Ghost_SelfGhostByButtons s) ∧
      (∀ id, GhostsIntangible n (Ghost_TrySelfGhost s id).2) ∧
      GhostsIntangible n (Ghost_TouchRevive s) := by
  constructor
  · intro players vs
    refine ⟨rfl, ?_⟩
    intro id _ _ hg
    simp [initState] at hg
  · intro s hJ
    exact ⟨fun id => gi_makeGhost id hJ, fun id t => gi_revive id t hJ,
      fun id => gi_keepAlive id hJ, gi_checkOOB hJ, gi_selfGhost hJ,
      fun id => gi_trySelfGhost id hJ, gi_touchRevive hJ⟩

/-- Witness for C19: the invariant holds for the three-player start state, for
the state with player 1 ghosted, and after a frame's drivers on that state. -/
theorem C19_ghosts_intangible_witness :
    GhostsIntangible 3 freshGhost ∧
    GhostsIntangible 3 (Ghost_TouchRevive freshGhost) ∧
    GhostsIntangible 3 (Ghost_CheckOutOfBounds freshGhost) ∧
    (freshGhost.Player 1).Effect = PlayerEffect.PLREFF_NO_COLLIDE :=
  have h0 : GhostsIntangible 3 threeChords := (C19_ghosts_intangible 3).1 _ _
  have h1 : GhostsIntangible 3 freshGhost := ((C19_ghosts_intangible 3).2 threeChords h0).1 1
  ⟨h1, ((C19_ghosts_intangible 3).2 freshGhost h1).2.2.2.2.2.2,
   ((C19_ghosts_intangible 3).2 freshGhost h1).2.2.2.1,
   (h1.2 1 (by decide) (by decide) (by decide)).1⟩

/-! ## C20: counter ranges -/

/-- The invariant reads the roster size and the six counters only. -/
theorem cr_congr {n : Int} {a b : GhostState} (h : CountersInRange n a)
    (h1 : b.numPlayers = a.numPlayers) (h2 : b.s_allGhostFrames = a.s_allGhostFrames)
    (h3 : b.s_reviveGrace = a.s_reviveGrace) (h4 : b.s_ghostMinFrames = a.s_ghostMinFrames)
    (h5 : b.s_selfGhostCooldown = a.s_selfGhostCooldown)
    (h6 : b.s_postReviveNoSnap = a.s_postReviveNoSnap)
    (h7 : b.s_oobFrames = a.s_oobFrames) : CountersInRange n b := by
  unfold CountersInRange
  rw [h1, h2, h3, h4, h5, h6, h7]
  exact h

/-- An operation that writes slot `j` only keeps the invariant if the counters
of player `j` stay in range. -/
theorem cr_step {n : Int} {st st2 : GhostState} {j : Int} (hJ : CountersInRange n st)
    (hf : sameExcept j st2 st)
    (hown : 1 ≤ j → j ≤ n →
      (0 ≤ st2.s_reviveGrace j ∧ st2.s_reviveGrace j ≤ kReviveGraceFrames) ∧
      (0 ≤ st2.s_ghostMinFrames j ∧ st2.s_ghostMinFrames j ≤ kGhostMinFrames) ∧
      (0 ≤ st2.s_selfGhostCooldown j ∧ st2.s_selfGhostCooldown j ≤ kSelfGhostCooldownFrames) ∧
      (0 ≤ st2.s_postReviveNoSnap j ∧ st2.s_postReviveNoSnap j ≤ kPostReviveNoSnapFrames) ∧
      (0 ≤ st2.s_oobFrames j ∧ st2.s_oobFrames j < kOOBFrames)) :
    CountersInRange n st2 := by
  obtain ⟨f1, _, f3, f4⟩ := hf
  refine ⟨f1.trans hJ.1, by rw [f3]; exact hJ.2.1, ?_⟩
  intro id i1 i2
  by_cases hij : id = j
  · rw [hij] at i1 i2 ⊢; exact hown i1 i2
  · obtain ⟨_, _, _, _, x5, x6, x7, _, _, x10, x11, _⟩ := f4 id hij
    rw [x5, x6, x7, x10, x11]
    exact hJ.2.2 id i1 i2

theorem cr_makeGhost {n : Int} {s : GhostState} (id : Int) (hJ : CountersInRange n s) :
    CountersInRange n (Ghost_MakeGhost s id) := by
  apply cr_step hJ (makeGhost_frame s id)
  intro j1 j2
  have := hJ.2.2 id j1 j2
  unfold Ghost_MakeGhost
  split
  · exact this
  · split
    · exact this
    · split
      · exact this
      · simp only [upd_same]
        exact ⟨this.1, by decide, this.2.2⟩

theorem cr_revive {n : Int} {s : GhostState} (id t : Int) (hJ : CountersInRange n s) :
    CountersInRange n (Ghost_ReviveFromGhost s id t) := by
  apply cr_step hJ (revive_frame s id t)
  intro j1 j2
  have := hJ.2.2 id j1 j2
  unfold Ghost_ReviveFromGhost
  split
  · exact this
  · split
    · exact this
    · simp only [upd_same]
      exact ⟨by decide, this.2.1, by decide, by decide, this.2.2.2.2⟩

theorem cr_keepAlive {n : Int} {s : GhostState} (id : Int) (hJ : CountersInRange n s) :
    CountersInRange n (Ghost_KeepStateAlive s id) := by
  apply cr_step hJ (keepAlive_frame s id)
  intro j1 j2
  have := hJ.2.2 id j1 j2
  unfold Ghost_KeepStateAlive
  split
  · exact this
  · split
    · exact this
    · simp only
      split
      · simp only [upd_same]
        refine ⟨this.1, ?_, this.2.2⟩
        have := this.2.1
        constructor <;> omega
      · exact this

theorem ghostSeek_counters (s : GhostState) (g : Int) :
    (ghostSeek s g).numPlayers = s.numPlayers ∧
    (ghostSeek s g).s_allGhostFrames = s.s_allGhostFrames ∧
    (ghostSeek s g).s_reviveGrace = s.s_reviveGrace ∧
    (ghostSeek s g).s_ghostMinFrames = s.s_ghostMinFrames ∧
    (ghostSeek s g).s_selfGhostCooldown = s.s_selfGhostCooldown ∧
    (ghostSeek s g).s_postReviveNoSnap = s.s_postReviveNoSnap ∧
    (ghostSeek s g).s_oobFrames = s.s_oobFrames := by
  unfold ghostSeek
  simp only
  split
  · split
    · exact ⟨rfl, rfl, rfl, rfl, rfl, rfl, rfl⟩
    · exact ⟨rfl, rfl, rfl, rfl, rfl, rfl, rfl⟩
  · exact ⟨rfl, rfl, rfl, rfl, rfl, rfl, rfl⟩

theorem cr_ghostSeek {n : Int} {s : GhostState} (g : Int) (hJ : CountersInRange n s) :
    CountersInRange n (ghostSeek s g) := by
  obtain ⟨a, b, c, d, e, f, h⟩ := ghostSeek_counters s g
  exact cr_congr hJ a b c d e f h

theorem cr_touchLoop {n : Int} {s : GhostState} (g : Int) (l : List Int)
    (hJ : CountersInRange n s) : CountersInRange n (touchLoop s g l) := by
  rcases touchLoop_cases s g l with h | ⟨a, _, h⟩
  · rw [h]; exact hJ
  · rw [h]; exact cr_revive g a hJ

/-- Lowering a positive minimum-ghost countdown by 1 keeps the invariant. -/
theorem cr_decrement {n : Int} {s : GhostState} (g : Int) (hJ : CountersInRange n s)
    (hpos : s.s_ghostMinFrames g > 0) :
    CountersInRange n
      { s with s_ghostMinFrames := upd s.s_ghostMinFrames g (s.s_ghostMinFrames g - 1) } := by
  refine ⟨hJ.1, hJ.2.1, ?_⟩
  intro id i1 i2
  have := hJ.2.2 id i1 i2
  by_cases hij : id = g
  · subst hij
    simp only [upd_same]
    refine ⟨this.1, ?_, this.2.2⟩
    have := this.2.1
    constructor <;> omega
  · simp only [upd_ne _ _ _ _ hij]
    exact this

theorem cr_touchReviveBody {n : Int} {s : GhostState} (g : Int) (hJ : CountersInRange n s) :
    CountersInRange n (touchReviveBody s g) := by
  have h2 := cr_ghostSeek g (cr_keepAlive g hJ)
  unfold touchReviveBody
  split
  · exact hJ
  · split
    · exact hJ
    · simp only
      split
      · rename_i hpos
        exact cr_decrement g h2 hpos
      · exact cr_touchLoop g _ h2

theorem cr_noSnapBody {n : Int} {s : GhostState} (j : Int) (hJ : CountersInRange n s) :
    CountersInRange n (noSnapBody s j) := by
  apply cr_step hJ (noSnapBody_frame s j)
  intro j1 j2
  have := hJ.2.2 j j1 j2
  unfold noSnapBody
  split
  · simp only [upd_same]
    refine ⟨this.1, this.2.1, this.2.2.1, ?_, this.2.2.2.2⟩
    have := this.2.2.2.1
    constructor <;> omega
  · exact this

theorem oobStep_values (s : GhostState) (id : Int) :
    oobStep s id = FAST_STEP_MULT ∨ oobStep s id = 1 := by
  unfold oobStep
  simp only
  split
  · exact Or.inl rfl
  · exact Or.inr rfl

/-- What `Ghost_MakeGhost` does to the counters of `id`: only the minimum-ghost
countdown may change, to `kGhostMinFrames`. -/
theorem makeGhost_counters (s : GhostState) (id : Int) :
    (Ghost_MakeGhost s id).s_reviveGrace = s.s_reviveGrace ∧
    (Ghost_MakeGhost s id).s_selfGhostCooldown = s.s_selfGhostCooldown ∧
    (Ghost_MakeGhost s id).s_postReviveNoSnap = s.s_postReviveNoSnap ∧
    (Ghost_MakeGhost s id).s_oobFrames = s.s_oobFrames ∧
    ((Ghost_MakeGhost s id).s_ghostMinFrames id = s.s_ghostMinFrames id ∨
      (Ghost_MakeGhost s id).s_ghostMinFrames id = kGhostMinFrames) := by
  unfold Ghost_MakeGhost
  split
  · exact ⟨rfl, rfl, rfl, rfl, Or.inl rfl⟩
  · split
    · exact ⟨rfl, rfl, rfl, rfl, Or.inl rfl⟩
    · split
      · exact ⟨rfl, rfl, rfl, rfl, Or.inl rfl⟩
      · exact ⟨rfl, rfl, rfl, rfl, Or.inr (by simp [upd_same])⟩

theorem cr_oobBody {n : Int} {s : GhostState} (j : Int) (hJ : CountersInRange n s) :
    CountersInRange n (oobBody s j) := by
  apply cr_step hJ (oobBody_frame s j)
  intro j1 j2
  obtain ⟨hgr, hmin, hcd, hns, hoob⟩ := hJ.2.2 j j1 j2
  have hzero : (0 : Int) ≤ 0 ∧ (0 : Int) < kOOBFrames := by decide
  unfold oobBody
  split
  · rename_i hpos
    simp only [upd_same]
    exact ⟨by constructor <;> omega, hmin, hcd, hns, hzero⟩
  · split
    · simp only [upd_same]
      exact ⟨hgr, hmin, hcd, hns, hzero⟩
    · split
      · simp only [upd_same]
        exact ⟨hgr, hmin, hcd, hns, hzero⟩
      · split
        · simp only [upd_same]
          exact ⟨hgr, hmin, hcd, hns, hzero⟩
        · simp only
          split
          · simp only [upd_same]
            exact ⟨hgr, hmin, hcd, hns, hzero⟩
          · split
            · obtain ⟨m1, m2, m3, _, m5⟩ := makeGhost_counters
                { s with s_oobFrames := upd s.s_oobFrames j (s.s_oobFrames j + oobStep s j) } j
              simp only [upd_same, m1, m2, m3]
              refine ⟨hgr, ?_, hcd, hns, hzero⟩
              rcases m5 with h | h
              · rw [h]; exact hmin
              · rw [h]; decide
            · rename_i hlt
              simp only [upd_same] at hlt ⊢
              refine ⟨hgr, hmin, hcd, hns, ?_⟩
              have hs := oobStep_values s j
              unfold FAST_STEP_MULT at hs
              constructor
              · rcases hs with h | h <;> omega
              · omega

theorem cr_cooldownBody {n : Int} {s : GhostState} (j : Int) (hJ : CountersInRange n s) :
    CountersInRange n (cooldownBody s j) := by
  apply cr_step hJ (cooldownBody_sameExcept s j)
  intro j1 j2
  have := hJ.2.2 j j1 j2
  unfold cooldownBody
  split
  · simp only [upd_same]
    refine ⟨this.1, this.2.1, ?_, this.2.2.2⟩
    have := this.2.2.1
    constructor <;> omega
  · exact this

theorem cr_selfGhostBody {n : Int} {s : GhostState} (c j : Int) (hJ : CountersInRange n s) :
    CountersInRange n (selfGhostBody c s j) := by
  unfold selfGhostBody
  split
  · exact cr_congr hJ rfl rfl rfl rfl rfl rfl rfl
  · split
    · exact cr_congr hJ rfl rfl rfl rfl rfl rfl rfl
    · split
      · exact cr_congr hJ rfl rfl rfl rfl rfl rfl rfl
      · simp only
        split
        · split
          · exact cr_congr (cr_makeGhost j hJ) rfl rfl rfl rfl rfl rfl rfl
          · exact cr_congr hJ rfl rfl rfl rfl rfl rfl rfl
        · exact cr_congr hJ rfl rfl rfl rfl rfl rfl rfl

theorem cr_autoReviveBody {n : Int} {s : GhostState} (j : Int) (hJ : CountersInRange n s) :
    CountersInRange n (autoReviveBody s j) := by
  unfold autoReviveBody
  split
  · exact cr_revive j 0 hJ
  · exact hJ

theorem cr_forPlayers {n : Int} {s : GhostState} (body : GhostState → Int → GhostState)
    (hb : ∀ st j, CountersInRange n st → CountersInRange n (body st j))
    (hJ : CountersInRange n s) : CountersInRange n (forPlayers body s) :=
  forPlayers_inv body (CountersInRange n) s hJ (fun st j _ _ h => hb st j h)

/-- Setting the all-ghost counter to a value in range keeps the invariant. -/
theorem cr_setCounter {n : Int} {s : GhostState} (c : Int) (hJ : CountersInRange n s)
    (hc : 0 ≤ c ∧ c < kAllGhostAutoReviveFrames) :
    CountersInRange n { s with s_allGhostFrames := c } :=
  ⟨hJ.1, hc, hJ.2.2⟩

theorem revive_setCounter (s : GhostState) (id t c : Int) :
    Ghost_ReviveFromGhost { s with s_allGhostFrames := c } id t =
      { Ghost_ReviveFromGhost s id t with s_allGhostFrames := c } := by
  by_cases hr : id < 1 ∨ id > s.numPlayers
  · simp [Ghost_ReviveFromGhost, hr]
  · by_cases hg : s.s_isGhost id = false
    · simp [Ghost_ReviveFromGhost, hr, hg]
    · simp [Ghost_ReviveFromGhost, hr, hg]

theorem autoReviveBody_setCounter (st : GhostState) (j c : Int) :
    autoReviveBody { st with s_allGhostFrames := c } j =
      { autoReviveBody st j with s_allGhostFrames := c } := by
  have hq : Ghost_IsGhost { st with s_allGhostFrames := c } j = Ghost_IsGhost st j := rfl
  unfold autoReviveBody
  rw [hq]
  split
  · exact revive_setCounter st j 0 c
  · rfl

theorem cr_tick {n : Int} {s : GhostState} (hJ : CountersInRange n s) :
    CountersInRange n (Ghost_AutoReviveAll_Tick s) := by
  have hzero : (0 : Int) ≤ 0 ∧ (0 : Int) < kAllGhostAutoReviveFrames := by decide
  unfold Ghost_AutoReviveAll_Tick
  split
  · exact cr_setCounter 0 hJ hzero
  · simp only
    split
    · split
      · exact forPlayers_inv autoReviveBody
          (fun st => CountersInRange n { st with s_allGhostFrames := 0 })
          { s with s_allGhostFrames := s.s_allGhostFrames + 1 }
          ⟨hJ.1, hzero, hJ.2.2⟩
          (fun st j _ _ h => by
            have := cr_autoReviveBody j h
            rw [autoReviveBody_setCounter] at this
            exact this)
      · rename_i hlt
        exact cr_setCounter _ hJ ⟨by have := hJ.2.1.1; omega, by simpa using hlt⟩
    · exact cr_setCounter 0 hJ hzero

theorem cr_checkOOB {n : Int} {s : GhostState} (hJ : CountersInRange n s) :
    CountersInRange n (Ghost_CheckOutOfBounds s) := by
  unfold Ghost_CheckOutOfBounds
  split
  · exact hJ
  · exact cr_forPlayers oobBody (fun st j h => cr_oobBody j h)
      (cr_tick (cr_forPlayers noSnapBody (fun st j h => cr_noSnapBody j h) hJ))

theorem cr_selfGhost {n : Int} {s : GhostState} (hJ : CountersInRange n s) :
    CountersInRange n (Ghost_SelfGhostByButtons s) := by
  unfold Ghost_SelfGhostByButtons
  split
  · exact hJ
  · exact cr_forPlayers _ (fun st j h => cr_selfGhostBody _ j h)
      (cr_forPlayers cooldownBody (fun st j h => cr_cooldownBody j h) hJ)

theorem cr_touchRevive {n : Int} {s : GhostState} (hJ : CountersInRange n s) :
    CountersInRange n (Ghost_TouchRevive s) := by
  unfold Ghost_TouchRevive
  split
  · exact hJ
  · exact cr_forPlayers touchReviveBody (fun st j h => cr_touchReviveBody j h) (cr_tick hJ)

theorem cr_trySelfGhost {n : Int} {s : GhostState} (id : Int) (hJ : CountersInRange n s) :
    CountersInRange n (Ghost_TrySelfGhost s id).2 := by
  rcases trySelfGhost_cases s id with h | ⟨h, _⟩ | ⟨h, _⟩
  · rw [h]; exact hJ
  · rw [h]; exact cr_revive id 0 hJ
  · rw [h]; exact cr_makeGhost id hJ

/-- C20. The counter ranges (revive grace in `[0, 20]`, minimum-ghost countdown
in `[0, 30]`, self-ghost cooldown in `[0, 120]`, no-snap countdown in `[0, 2]`,
OOB counter in `[0, kOOBFrames)` for every active player, and the all-ghost
counter in `[0, kAllGhostAutoReviveFrames)`) hold in the initial all-zero state
and, for a fixed `numPlayers = n`, are kept by every operation of the module;
so no countdown becomes negative.  And whenever the OOB counter of an eligible
player reaches the threshold in `Ghost_CheckOutOfBounds`, that player is a
ghost after the call and the counter is 0. -/
theorem C20_counters_in_range (n : Int) :
    (∀ players vs, CountersInRange n (initState n players vs)) ∧
    (∀ s, CountersInRange n s →
      (∀ id, CountersInRange n (Ghost_MakeGhost s id)) ∧
      (∀ id t, CountersInRange n (Ghost_ReviveFromGhost s id t)) ∧
      (∀ id, CountersInRange n (Ghost_KeepStateAlive s id)) ∧
      CountersInRange n (Ghost_CheckOutOfBounds s) ∧
      CountersInRange n (Ghost_SelfGhostByButtons s) ∧
      (∀ id, CountersInRange n (Ghost_TrySelfGhost s id).2) ∧
      CountersInRange n (Ghost_TouchRevive s)) ∧
    (∀ s id, CountersInRange n s → n ≠ 2 → 1 ≤ id → id ≤ n →
      ¬ s.s_reviveGrace id > 0 → (s.Player id).Dead = false → s.s_isGhost id = false →
      (s.vScreenByPlayer id).Visible = true → oobInside s id = false →
      s.s_oobFrames id + oobStep s id ≥ kOOBFrames →
      Ghost_IsGhost (Ghost_CheckOutOfBounds s) id = true ∧
      (Ghost_CheckOutOfBounds s).s_oobFrames id = 0) := by
  refine ⟨?_, ?_, ?_⟩
  · intro players vs
    have hzero : (0 : Int) ≤ 0 ∧ (0 : Int) < kAllGhostAutoReviveFrames := by decide
    refine ⟨rfl, hzero, ?_⟩
    intro id _ _
    simp only [initState]
    decide
  · intro s hJ
    exact ⟨fun id => cr_makeGhost id hJ, fun id t => cr_revive id t hJ,
      fun id => cr_keepAlive id hJ, cr_checkOOB hJ, cr_selfGhost hJ,
      fun id => cr_trySelfGhost id hJ, cr_touchRevive hJ⟩
  · intro s id hJ hn h1 h2 hgr hd hg hv hin hth
    have hn2 : s.numPlayers ≠ 2 := by rw [hJ.1]; exact hn
    have hle : id ≤ s.numPlayers := by rw [hJ.1]; exact h2
    have hgr0 : s.s_reviveGrace id = 0 := by
      have := (hJ.2.2 id h1 h2).1.1
      omega
    obtain ⟨hnum, _, _, hge⟩ := checkOOB_outside s id hn2 h1 hle hgr0 hd hg hv hin
    obtain ⟨a, b⟩ := hge hth
    exact ⟨by rw [isGhost_in_range _ id h1 (by rw [hnum]; exact hle)]; exact a, b⟩

/-- Witness for C20: the ranges hold for the three-player start state, after
ghosting player 1 and a `Ghost_TouchRevive` (two decrements of the countdown),
and player 1 of `oobTrace 15` reaches the OOB threshold and becomes a ghost. -/
theorem C20_counters_in_range_witness :
    CountersInRange 3 (Ghost_TouchRevive freshGhost) ∧
    CountersInRange 3 (Ghost_CheckOutOfBounds freshGhost) ∧
    Ghost_IsGhost (Ghost_CheckOutOfBounds (oobTrace 15)) 1 = true ∧
    (Ghost_CheckOutOfBounds (oobTrace 15)).s_oobFrames 1 = 0 :=
  have h0 : CountersInRange 3 threeChords := (C20_counters_in_range 3).1 _ _
  have h1 : CountersInRange 3 freshGhost := ((C20_counters_in_range 3).2.1 threeChords h0).1 1
  have h2 : CountersInRange 3 (oobTrace 15) :=
    ⟨rfl, by decide, fun id _ _ => by simp only [oobTrace, farLeft, initState]; decide⟩
  have h3 := (C20_counters_in_range 3).2.2 (oobTrace 15) 1 h2 (by decide) (by decide)
    (by decide) (by decide) (by decide) (by decide) (by decide) (by decide) (by decide)
  ⟨((C20_counters_in_range 3).2.1 freshGhost h1).2.2.2.2.2.2,
   ((C20_counters_in_range 3).2.1 freshGhost h1).2.2.2.1, h3.1, h3.2⟩

end GhostMode
